import Mathlib

/-! ## Order handling of the PracticeMERN backend

A shallow embedding of `backend/routes/orders.js`, `backend/models/Order.js`,
`backend/routes/cart.js` and the product update and stock routes of
`backend/routes/products.js`.

Modelling conventions.

* A MongoDB collection keyed by `_id` is a partial map for products and users
  and a list of documents for orders (orders are also enumerated).
* A JavaScript number that holds money is the rational value of an IEEE 754
  binary64 number, and every arithmetic operation on money rounds its exact
  result to the nearest such value, ties to even (`roundDouble`); overflow to
  `Infinity` (magnitudes from 2^1024 on) is outside this model.  Stock and
  quantities are integers.
* `undefined` is `none`; a JavaScript value is truthy when it is a non-empty
  string.
* The clock, the random suffix and the fresh `_id` of a request are inputs.
* Each route handler runs as one sequential step on the database, except in
  `createOrderRace`, where two create handlers interleave at their first write.
* A populated document sent by `res.json` is serialised with its virtuals;
  the response of a handler is the `catch` answer when that throws.
-/

namespace PracticeMERN

abbrev ObjectId := Nat

/-! ## Documents -/

structure Image where
  url : String
  isPrimary : Bool
deriving DecidableEq

/-- Product document, restricted to the paths the order routes select. -/
structure Product where
  name : String
  price : ℚ
  images : List Image
  stock : Int
  isActive : Bool
deriving DecidableEq

/-- Cart subdocument of a user. -/
structure CartItem where
  product : ObjectId
  quantity : Int
deriving DecidableEq

structure User where
  cart : List CartItem
deriving DecidableEq

/-- Shipping address as sent in a request body or stored in an order. -/
structure ShippingAddress where
  firstName : Option String
  lastName : Option String
  company : Option String
  street : Option String
  city : Option String
  state : Option String
  zipCode : Option String
  country : Option String
  phone : Option String
deriving DecidableEq

/-- Order item subdocument.  The route also passes `image`, which is not a
path of the item schema and is dropped by strict mode. -/
structure OrderItem where
  product : ObjectId
  name : String
  price : ℚ
  quantity : Int
  total : ℚ
deriving DecidableEq

structure StatusHistoryEntry where
  status : String
  timestamp : Nat
  note : String
deriving DecidableEq

/-- Order document.  `confirmedAt`, `shippedAt`, `deliveredAt`, `cancelledAt`
and `paidAt` are assigned by the routes but are not schema paths, so they are
never stored. -/
structure Order where
  _id : ObjectId
  orderNumber : String
  user : ObjectId
  items : List OrderItem
  subtotal : ℚ
  tax : ℚ
  shippingCost : ℚ
  discount : ℚ
  totalAmount : ℚ
  status : String
  paymentStatus : String
  paymentMethod : String
  shippingAddress : ShippingAddress
  trackingNumber : Option String
  statusHistory : List StatusHistoryEntry
  createdAt : Nat
deriving DecidableEq

/-- The database: products and users by `_id`, and the orders collection. -/
structure Db where
  products : ObjectId → Option Product
  users : ObjectId → Option User
  orders : List Order

/-- JSON response of a route handler. -/
structure Response where
  status : Nat
  success : Bool
  message : String
  order : Option Order
deriving DecidableEq

/-! ## JavaScript helpers -/

/-- Truthiness of an optional string (`undefined` and `''` are falsy). -/
def truthy : Option String → Bool
  | none => false
  | some s => s != ""

/-- White space and line terminators removed by `String.prototype.trim`. -/
def isJsWhitespace (c : Char) : Bool :=
  let n := c.toNat
  n == 9 || n == 10 || n == 11 || n == 12 || n == 13 || n == 32 || n == 160 ||
  n == 0x1680 || (0x2000 ≤ n && n ≤ 0x200A) || n == 0x2028 || n == 0x2029 ||
  n == 0x202F || n == 0x205F || n == 0x3000 || n == 0xFEFF

/-- JavaScript `trim` on a list of characters. -/
def jsTrimChars (cs : List Char) : List Char :=
  ((cs.dropWhile isJsWhitespace).reverse.dropWhile isJsWhitespace).reverse

/-- JavaScript `String.prototype.trim`. -/
def jsTrim (s : String) : String :=
  String.mk (jsTrimChars s.data)

/-- ASCII upper-casing of one character. -/
def upperChar (c : Char) : Char :=
  if 97 ≤ c.toNat ∧ c.toNat ≤ 122 then Char.ofNat (c.toNat - 32) else c

/-- Upper-casing as applied by the `uppercase: true` setter (ASCII part). -/
def jsToUpper (s : String) : String :=
  String.mk (s.data.map upperChar)

/-- Apply the `trim: true` setter to an optional string path. -/
def trimOpt (s : Option String) : Option String :=
  s.map jsTrim

/-- Mongoose `required` validator on a string path. -/
def requiredStr : Option String → Bool
  | none => false
  | some s => s != ""

/-- Number of halvings that bring `n` below 2, within `fuel` steps. -/
def log2Fuel : Nat → Nat → Nat
  | 0, _ => 0
  | fuel + 1, n => if n < 2 then 0 else log2Fuel fuel (n / 2) + 1

/-- Position of the leading bit of a positive natural number. -/
def natLog2 (n : Nat) : Nat :=
  log2Fuel n n

/-- The power of two with an integer exponent. -/
def pow2 (e : Int) : ℚ :=
  if 0 ≤ e then ((2 ^ e.toNat : Nat) : ℚ) else 1 / ((2 ^ (-e).toNat : Nat) : ℚ)

/-- Binary exponent of a positive rational `a`: the `k` with `2^k ≤ a < 2^(k+1)`. -/
def floorLog2 (a : ℚ) : Int :=
  let k : Int := (natLog2 a.num.natAbs : Int) - (natLog2 a.den : Int)
  if pow2 k ≤ a then k else k - 1

/-- Nearest integer, a tie going to the even neighbour. -/
def roundHalfEven (x : ℚ) : Int :=
  let f := Int.floor x
  if x - f < 1 / 2 then f
  else if 1 / 2 < x - f then f + 1
  else if f % 2 = 0 then f else f + 1

/-- The binary64 value nearest to `x`, ties to even: 53 significant bits, and
multiples of `2^-1074` in the subnormal range.  This is the result of a
JavaScript arithmetic operation whose exact result is `x`, and the value of
a decimal literal `x`. -/
def roundDouble (x : ℚ) : ℚ :=
  if x = 0 then 0
  else
    let e := max (floorLog2 (if x < 0 then -x else x) - 52) (-1074)
    (roundHalfEven (x / pow2 e) : ℚ) * pow2 e

/-- JavaScript `a + b` on numbers. -/
def jsAdd (a b : ℚ) : ℚ :=
  roundDouble (a + b)

/-- JavaScript `a - b` on numbers. -/
def jsSub (a b : ℚ) : ℚ :=
  roundDouble (a - b)

/-- JavaScript `a * b` on numbers. -/
def jsMul (a b : ℚ) : ℚ :=
  roundDouble (a * b)

/-- JavaScript `a / b` on numbers, for a divisor other than 0. -/
def jsDiv (a b : ℚ) : ℚ :=
  roundDouble (a / b)

/-- Value of `Math.round` on a number: the nearest integer, halves up. -/
def mathRound (x : ℚ) : Int :=
  Int.floor (x + 1 / 2)

/-- Code-point comparison of strings, the order MongoDB sorts strings by. -/
def ltChars : List Char → List Char → Bool
  | [], [] => false
  | [], _ :: _ => true
  | _ :: _, [] => false
  | a :: as, b :: bs =>
    if a.toNat < b.toNat then true
    else if b.toNat < a.toNat then false
    else ltChars as bs

/-- JavaScript `padStart` with a one-character filler. -/
def padStart (s : String) (n : Nat) (c : Char) : String :=
  String.mk (List.replicate (n - s.data.length) c ++ s.data)

/-- JavaScript `slice(-n)`: the last `n` characters. -/
def sliceLast (s : String) (n : Nat) : String :=
  String.mk (s.data.drop (s.data.length - n))

/-- Value of a character as a digit in radix up to 36. -/
def digitVal (c : Char) : Option Nat :=
  let n := c.toNat
  if 48 ≤ n ∧ n ≤ 57 then some (n - 48)
  else if 97 ≤ n ∧ n ≤ 122 then some (n - 87)
  else if 65 ≤ n ∧ n ≤ 90 then some (n - 55)
  else none

/-- The longest run of leading digits of the radix. -/
def takeDigits (radix : Nat) : List Char → List Nat
  | [] => []
  | c :: cs =>
    match digitVal c with
    | some d => if d < radix then d :: takeDigits radix cs else []
    | none => []

/-- Optional sign of the `parseInt` input. -/
def stripSign : List Char → Bool × List Char
  | '-' :: t => (true, t)
  | '+' :: t => (false, t)
  | s => (false, s)

/-- Optional `0x` marker of the `parseInt` input, with the radix it selects. -/
def stripRadix : List Char → Nat × List Char
  | '0' :: 'x' :: t => (16, t)
  | '0' :: 'X' :: t => (16, t)
  | s => (10, s)

/-- JavaScript `parseInt(s)` with no radix argument; `none` is `NaN`. -/
def jsParseInt (s : String) : Option Int :=
  let s1 := stripSign (s.data.dropWhile isJsWhitespace)
  let s2 := stripRadix s1.2
  let ds := takeDigits s2.1 s2.2
  if ds.isEmpty then none
  else
    let n : Nat := ds.foldl (fun a d => a * s2.1 + d) 0
    some (if s1.1 then -(n : Int) else (n : Int))

/-- JavaScript `String(x)` of a number that may be `NaN`. -/
def jsNumberToString : Option Int → String
  | none => "NaN"
  | some n => toString n

/-- The fields of `new Date()` read by the handlers. -/
structure JsDate where
  fullYear : Nat
  month : Nat
  date : Nat
  time : Nat
deriving DecidableEq

/-! ## Order schema (models/Order.js) -/

def orderStatusEnum : List String :=
  ["pending", "confirmed", "processing", "shipped", "delivered", "cancelled", "refunded"]

def paymentStatusEnum : List String :=
  ["pending", "processing", "completed", "failed", "refunded", "partially_refunded"]

def paymentMethodEnum : List String :=
  ["credit_card", "debit_card", "paypal", "stripe", "cash_on_delivery", "bank_transfer"]

/-- Validators of one `items` subdocument. -/
def validItem (i : OrderItem) : Bool :=
  i.name != "" && decide (1 ≤ i.quantity)

/-- Validators of `shippingAddress`. -/
def validAddress (a : ShippingAddress) : Bool :=
  requiredStr a.firstName && requiredStr a.lastName && requiredStr a.street &&
  requiredStr a.city && requiredStr a.state && requiredStr a.zipCode &&
  requiredStr a.country

/-- Validators of one `statusHistory` subdocument. -/
def validHistoryEntry (e : StatusHistoryEntry) : Bool :=
  e.status != ""

/-- Schema validation run by `save()` before the pre-save hooks. -/
def validateOrder (o : Order) : Bool :=
  o.orderNumber != "" && o.items.all validItem &&
  decide (0 ≤ o.subtotal) && decide (0 ≤ o.tax) && decide (0 ≤ o.shippingCost) &&
  decide (0 ≤ o.discount) && decide (0 ≤ o.totalAmount) &&
  orderStatusEnum.contains o.status && paymentStatusEnum.contains o.paymentStatus &&
  paymentMethodEnum.contains o.paymentMethod && validAddress o.shippingAddress &&
  o.statusHistory.all validHistoryEntry

/-- The `trim: true` setters of `shippingAddress`. -/
def castAddress (a : ShippingAddress) : ShippingAddress :=
  { firstName := trimOpt a.firstName, lastName := trimOpt a.lastName,
    company := trimOpt a.company, street := trimOpt a.street, city := trimOpt a.city,
    state := trimOpt a.state, zipCode := trimOpt a.zipCode, country := trimOpt a.country,
    phone := trimOpt a.phone }

/-- The text `ORD-` followed by year, two-digit month and two-digit day. -/
def dayTag (d : JsDate) : String :=
  "ORD-" ++ toString d.fullYear ++ padStart (toString (d.month + 1)) 2 '0' ++
    padStart (toString d.date) 2 '0'

/-- Query `findOne({orderNumber: /^tag/}).sort({orderNumber: -1})`. -/
def lastOrderOfDay (orders : List Order) (tag : String) : Option Order :=
  (orders.filter (fun o => tag.data.isPrefixOf o.orderNumber.data)).foldl
    (fun best o =>
      match best with
      | none => some o
      | some b => if ltChars b.orderNumber.data o.orderNumber.data then some o else some b)
    none

/-- The order number built by the first pre-save hook. -/
def generateOrderNumber (orders : List Order) (d : JsDate) : String :=
  let sequence : Option Int :=
    match lastOrderOfDay orders (dayTag d) with
    | none => some 1
    | some lastOrder => (jsParseInt (sliceLast lastOrder.orderNumber 3)).map (fun n => n + 1)
  jsToUpper (dayTag d ++ padStart (jsNumberToString sequence) 3 '0')

/-- First pre-save hook: number a new order that has no order number. -/
def preSaveOrderNumber (orders : List Order) (d : JsDate) (isNew : Bool) (o : Order) : Order :=
  if isNew && o.orderNumber == "" then { o with orderNumber := generateOrderNumber orders d }
  else o

/-- Second pre-save hook: record a status change of an existing order. -/
def preSaveStatusHistory (d : JsDate) (isNew statusModified : Bool) (o : Order) : Order :=
  if statusModified && !isNew then
    { o with statusHistory := o.statusHistory ++
        [{ status := o.status, timestamp := d.time,
           note := jsTrim ("Order status updated to " ++ o.status) }] }
  else o

/-- Write of a validated document: insert when new (the unique indexes on
`_id` and `orderNumber` reject a duplicate), update by `_id` otherwise. -/
def writeOrder (orders : List Order) (isNew : Bool) (o : Order) : Option (List Order) :=
  if isNew then
    if orders.any (fun x => x._id == o._id || x.orderNumber == o.orderNumber) then none
    else some (orders ++ [o])
  else some (orders.map (fun x => if x._id = o._id then o else x))

/-- The method `order.save()`: validation, the two hooks, then the write.
`none` is a rejected save. -/
def orderSave (orders : List Order) (d : JsDate) (isNew statusModified : Bool) (o : Order) :
    Option (List Order × Order) :=
  if validateOrder o then
    let o2 := preSaveStatusHistory d isNew statusModified (preSaveOrderNumber orders d isNew o)
    (writeOrder orders isNew o2).map (fun os => (os, o2))
  else none

/-! ## Routes (routes/orders.js) -/

/-- A storage write of `POST /create` that throws, if any: the order save,
the `k`-th stock update (counted from 0) or the save of the emptied cart. -/
inductive Fault where
  | none
  | orderSave
  | stockUpdate (k : Nat)
  | userSave
deriving DecidableEq

/-- Request of `POST /api/orders/create` with its environment. -/
structure CreateOrderReq where
  /-- The authenticated user, `req.user._id`. -/
  userId : ObjectId
  shippingAddress : Option ShippingAddress
  paymentMethod : Option String
  /-- The clock read by `Date.now()` and `new Date()`. -/
  now : JsDate
  /-- Value of `Math.random().toString(36).substr(2, 4).toUpperCase()`. -/
  random : String
  /-- The `_id` given to the new order document. -/
  newId : ObjectId

/-- The address test at the top of `POST /create`. -/
def addressComplete : Option ShippingAddress → Bool
  | none => false
  | some a =>
    truthy a.street && truthy a.city && truthy a.state && truthy a.zipCode && truthy a.country

/-- Response of a handler that stops early or catches an error. -/
def failure (status : Nat) (message : String) : Response :=
  { status := status, success := false, message := message, order := none }

/-- Message of the availability check; the name falls back to `Unknown`. -/
def unavailableMessage (product : Option Product) : String :=
  let name : String :=
    match product with
    | none => "Unknown"
    | some p => if p.name != "" then p.name else "Unknown"
  "Product \"" ++ name ++ "\" is no longer available"

/-- Message of the stock check. -/
def insufficientStockMessage (product : Product) : String :=
  "Insufficient stock for \"" ++ product.name ++ "\". Only " ++ toString product.stock ++
    " available"

/-- The first loop of `POST /create` over the populated cart: availability
checks, item snapshots and the running subtotal. -/
def checkCart (products : ObjectId → Option Product) :
    List CartItem → List OrderItem → ℚ → Except Response (List OrderItem × ℚ)
  | [], orderItems, subtotal => .ok (orderItems, subtotal)
  | cartItem :: rest, orderItems, subtotal =>
    match products cartItem.product with
    | none => .error (failure 400 (unavailableMessage none))
    | some product =>
      if !product.isActive then .error (failure 400 (unavailableMessage (some product)))
      else if product.stock < cartItem.quantity then
        .error (failure 400 (insufficientStockMessage product))
      else
        let itemTotal : ℚ := jsMul product.price (cartItem.quantity : ℚ)
        checkCart products rest
          (orderItems ++ [{ product := cartItem.product, name := product.name,
                            price := product.price, quantity := cartItem.quantity,
                            total := itemTotal }])
          (jsAdd subtotal itemTotal)

/-- The update `findByIdAndUpdate(id, { $inc: { stock: d } })`. -/
def incStock (products : ObjectId → Option Product) (id : ObjectId) (d : Int) :
    ObjectId → Option Product :=
  fun q => if q = id then (products q).map (fun p => { p with stock := p.stock + d })
           else products q

/-- The second loop of `POST /create`: one stock decrement per cart line,
stopping at the write that throws.  The flag tells whether the loop completed. -/
def decrementStock (fault : Fault) :
    Nat → List CartItem → (ObjectId → Option Product) → (ObjectId → Option Product) × Bool
  | _, [], products => (products, true)
  | k, cartItem :: rest, products =>
    if fault = Fault.stockUpdate k then (products, false)
    else decrementStock fault (k + 1) rest (incStock products cartItem.product (-cartItem.quantity))

/-- The document built by `new Order(...)` in `POST /create`. -/
def newOrder (req : CreateOrderReq) (address : ShippingAddress) (orderItems : List OrderItem)
    (subtotal : ℚ) : Order :=
  let shippingCost : ℚ := if subtotal ≥ 100 then 0 else 10
  let tax : ℚ :=
    jsDiv (mathRound (jsMul (jsMul subtotal (roundDouble (8 / 100))) 100) : ℚ) 100
  let totalAmount : ℚ := jsAdd (jsAdd subtotal shippingCost) tax
  { _id := req.newId,
    orderNumber := jsToUpper ("ORD" ++ toString req.now.time ++ req.random),
    user := req.userId,
    items := orderItems,
    subtotal := subtotal,
    tax := tax,
    shippingCost := shippingCost,
    discount := 0,
    totalAmount := totalAmount,
    status := "pending",
    paymentStatus := "pending",
    paymentMethod := req.paymentMethod.getD "pending",
    shippingAddress := castAddress address,
    trackingNumber := none,
    statusHistory := [],
    createdAt := req.now.time }

/-- The virtual `primaryImage` of models/Product.js.  `images` is `none` when
the document was loaded without that path; `this.images.find` then throws a
`TypeError`, which is the result `none`. -/
def primaryImage (images : Option (List Image)) : Option String :=
  match images with
  | none => none
  | some imgs =>
    match imgs.find? (fun img => img.isPrimary) with
    | some primary => some primary.url
    | none =>
      match imgs.head? with
      | some first => some first.url
      | none => some ""

/-- Whether `res.json` throws on an order populated by
`populate('items.product', 'name category brand')`: `toJSON` runs the
virtuals of every product that the populate found, and these documents carry
no `images`.  A product that is not found is left `null`. -/
def orderJsonThrows (products : ObjectId → Option Product) (order : Option Order) : Bool :=
  match order with
  | none => false
  | some o =>
    o.items.any (fun item =>
      match products item.product with
      | none => false
      | some _ => (primaryImage none).isNone)

/-- Lines 113 to 122 of `POST /create`: the stored order is read again,
populated and sent with status 201; a throw of `res.json` is caught and
answered with status 500. -/
def createdResponse (db : Db) (id : ObjectId) : Response :=
  let populatedOrder := db.orders.find? (fun o => o._id == id)
  if orderJsonThrows db.products populatedOrder then
    failure 500 "Server error while creating order"
  else
    { status := 201, success := true, message := "Order created successfully",
      order := populatedOrder }

/-- Handler of `POST /api/orders/create`. -/
def createOrder (fault : Fault) (db : Db) (req : CreateOrderReq) : Response × Db :=
  let serverError := failure 500 "Server error while creating order"
  match req.shippingAddress with
  | none => (failure 400 "Complete shipping address is required", db)
  | some address =>
    if !addressComplete (some address) then
      (failure 400 "Complete shipping address is required", db)
    else
      match db.users req.userId with
      | none => (serverError, db)
      | some user =>
        if user.cart.isEmpty then (failure 400 "Cart is empty", db)
        else
          match checkCart db.products user.cart [] 0 with
          | .error r => (r, db)
          | .ok (orderItems, subtotal) =>
            let order := newOrder req address orderItems subtotal
            match (if fault = Fault.orderSave then none
                   else orderSave db.orders req.now true true order) with
            | none => (serverError, db)
            | some (orders1, saved) =>
              let db1 : Db := { db with orders := orders1 }
              match decrementStock fault 0 user.cart db1.products with
              | (products2, false) => (serverError, { db1 with products := products2 })
              | (products2, true) =>
                let db2 : Db := { db1 with products := products2 }
                if fault = Fault.userSave then (serverError, db2)
                else
                  let db3 : Db := { db2 with users := fun u =>
                    if u = req.userId then some { user with cart := [] } else db2.users u }
                  (createdResponse db3 saved._id, db3)

/-- Request of `PUT /api/orders/:orderId/cancel`. -/
structure CancelReq where
  orderId : ObjectId
  userId : ObjectId
  now : JsDate

/-- The loop of the cancel route: one stock increment per order item. -/
def restoreStock : List OrderItem → (ObjectId → Option Product) → (ObjectId → Option Product)
  | [], products => products
  | item :: rest, products => restoreStock rest (incStock products item.product item.quantity)

/-- Handler of `PUT /api/orders/:orderId/cancel`.  The response carries the
saved order (the route sends its id, number and status). -/
def cancelOrder (db : Db) (req : CancelReq) : Response × Db :=
  match db.orders.find? (fun o => o._id == req.orderId && o.user == req.userId) with
  | none => (failure 404 "Order not found", db)
  | some order =>
    if order.status != "pending" then (failure 400 "Only pending orders can be cancelled", db)
    else
      match orderSave db.orders req.now false true { order with status := "cancelled" } with
      | none => (failure 500 "Server error while cancelling order", db)
      | some (orders1, saved) =>
        ({ status := 200, success := true, message := "Order cancelled successfully",
           order := some saved },
         { db with orders := orders1, products := restoreStock saved.items db.products })

/-- Request of `PUT /api/orders/admin/:orderId/status`. -/
structure UpdateReq where
  orderId : ObjectId
  status : Option String
  paymentStatus : Option String
  trackingNumber : Option String
  now : JsDate

def validStatuses : List String :=
  ["pending", "confirmed", "processing", "shipped", "delivered", "cancelled"]

def validPaymentStatuses : List String :=
  ["pending", "paid", "failed", "refunded"]

/-- Lines 408 to 417 of the admin status route: the saved order is read
again, populated and sent; a throw of `res.json` is caught and answered with
status 500. -/
def updatedResponse (db : Db) (id : ObjectId) : Response :=
  let updatedOrder := db.orders.find? (fun o => o._id == id)
  if orderJsonThrows db.products updatedOrder then
    failure 500 "Server error while updating order"
  else
    { status := 200, success := true, message := "Order updated successfully",
      order := updatedOrder }

/-- Handler of `PUT /api/orders/admin/:orderId/status`. -/
def adminUpdateOrder (db : Db) (req : UpdateReq) : Response × Db :=
  if truthy req.status && !validStatuses.contains (req.status.getD "") then
    (failure 400 "Invalid status", db)
  else if truthy req.paymentStatus &&
      !validPaymentStatuses.contains (req.paymentStatus.getD "") then
    (failure 400 "Invalid payment status", db)
  else
    match db.orders.find? (fun o => o._id == req.orderId) with
    | none => (failure 404 "Order not found", db)
    | some order =>
      let o1 : Order :=
        if truthy req.status then { order with status := req.status.getD "" } else order
      let o2 : Order :=
        if truthy req.paymentStatus then { o1 with paymentStatus := req.paymentStatus.getD "" }
        else o1
      let o3 : Order :=
        if truthy req.trackingNumber then { o2 with trackingNumber := trimOpt req.trackingNumber }
        else o2
      match orderSave db.orders req.now false (o1.status != order.status) o3 with
      | none => (failure 500 "Server error while updating order", db)
      | some (orders1, saved) =>
        let db1 : Db := { db with orders := orders1 }
        (updatedResponse db1 saved._id, db1)

/-! ## Stock route (routes/products.js) -/

/-- Request of `PUT /api/products/:id/stock`. -/
structure StockReq where
  id : ObjectId
  stock : Option Int
  operation : Option String

/-- Validators of the modelled product paths, run by `product.save()`. -/
def validateProduct (p : Product) : Bool :=
  p.name != "" && decide (p.name.length ≤ 100) && decide (0 ≤ p.price) && decide (0 ≤ p.stock)

/-- The `switch (operation)` of the stock route: the new stock value. -/
def stockAfter (operation : Option String) (current stock : Int) : Int :=
  if operation = some "set" then stock
  else if operation = some "add" then current + stock
  else if operation = some "subtract" then max 0 (current - stock)
  else stock

/-- Handler of `PUT /api/products/:id/stock`. -/
def updateStock (db : Db) (req : StockReq) : Response × Db :=
  match req.stock with
  | none => (failure 400 "Stock value is required", db)
  | some stock =>
    match db.products req.id with
    | none => (failure 404 "Product not found", db)
    | some product =>
      let product1 : Product :=
        { product with stock := stockAfter req.operation product.stock stock }
      if validateProduct product1 then
        ({ status := 200, success := true, message := "Stock updated successfully",
           order := none },
         { db with products := fun q => if q = req.id then some product1 else db.products q })
      else (failure 500 "Server error while updating stock", db)

/-- Stock of a product, when the product exists. -/
def stockOf (db : Db) (id : ObjectId) : Option Int :=
  (db.products id).map (fun p => p.stock)

/-- The method `calculateTotals` of the Order model: the subtotal is the
`reduce` of the item totals from 0, the total follows from the stored tax,
shipping cost and discount. -/
def calculateTotals (o : Order) : Order :=
  let subtotal : ℚ := o.items.foldl (fun sum item => jsAdd sum item.total) 0
  { o with subtotal := subtotal,
           totalAmount := jsSub (jsAdd (jsAdd subtotal o.tax) o.shippingCost) o.discount }

/-- Body of `PUT /api/products/:id`, restricted to the modelled paths; an
absent field is `none`. -/
structure ProductUpdateReq where
  id : ObjectId
  name : Option String
  price : Option ℚ
  stock : Option Int
  images : Option (List Image)
  isActive : Option Bool

/-- Handler of `PUT /api/products/:id` on the modelled paths. -/
def updateProduct (db : Db) (req : ProductUpdateReq) : Response × Db :=
  match db.products req.id with
  | none => (failure 404 "Product not found", db)
  | some product =>
    let product1 : Product :=
      { name := (req.name.map jsTrim).getD product.name,
        price := req.price.getD product.price,
        images := req.images.getD product.images,
        stock := req.stock.getD product.stock,
        isActive := req.isActive.getD product.isActive }
    if product1.price ≤ 0 then (failure 400 "Price must be greater than 0", db)
    else if product1.stock < 0 then (failure 400 "Stock cannot be negative", db)
    else if validateProduct product1 then
      ({ status := 200, success := true, message := "Product updated successfully",
         order := none },
       { db with products := fun q => if q = req.id then some product1 else db.products q })
    else (failure 400 "Validation failed", db)

/-! ## Sequences of requests -/

/-- One request to a route that writes orders or stock. -/
inductive Op where
  | create (fault : Fault) (req : CreateOrderReq)
  | cancel (req : CancelReq)
  | adminUpdate (req : UpdateReq)
  | stock (req : StockReq)

/-- The database after one request. -/
def step (db : Db) : Op → Db
  | Op.create fault req => (createOrder fault db req).2
  | Op.cancel req => (cancelOrder db req).2
  | Op.adminUpdate req => (adminUpdateOrder db req).2
  | Op.stock req => (updateStock db req).2

/-- The database after a sequence of requests, handled one after the other. -/
def run (db : Db) (ops : List Op) : Db :=
  ops.foldl step db

/-- Every product has stock at least 0. -/
def stockNonneg (db : Db) : Prop :=
  ∀ q p, db.products q = some p → 0 ≤ p.stock

/-- No cart holds two lines for the same product. -/
def cartsDistinct (db : Db) : Prop :=
  ∀ u usr, db.users u = some usr → (usr.cart.map (fun c => c.product)).Nodup

/-! ## Quantities named by the statements -/

/-- Total quantity of product `q` over the items of an order. -/
def orderedQuantity (items : List OrderItem) (q : ObjectId) : Int :=
  ((items.filter (fun i => i.product == q)).map (fun i => i.quantity)).sum

/-- Total quantity of product `q` over the lines of a cart. -/
def cartQuantity (cart : List CartItem) (q : ObjectId) : Int :=
  ((cart.filter (fun c => c.product == q)).map (fun c => c.quantity)).sum

/-- The status edges listed by the specification (section 4.3); the routes
contain no such table. -/
def specAllowedEdge (s t : String) : Bool :=
  (s == "pending" && (t == "confirmed" || t == "cancelled")) ||
  (s == "confirmed" && (t == "processing" || t == "cancelled")) ||
  (s == "processing" && t == "shipped") ||
  (s == "shipped" && t == "delivered")

/-- How an order item snapshots a cart line: same product and quantity, the
name and price of the product as stored at that moment, and the JavaScript
product `price * quantity` as the item total. -/
def snapshotOf (products : ObjectId → Option Product) (c : CartItem) (i : OrderItem) : Prop :=
  i.product = c.product ∧ i.quantity = c.quantity ∧
    ∃ p, products c.product = some p ∧ p.isActive = true ∧ c.quantity ≤ p.stock ∧
      i.name = p.name ∧ i.price = p.price ∧ i.total = jsMul p.price (c.quantity : ℚ)

/-- The fields of an order that the claims call immutable after creation. -/
def sameSnapshot (x y : Order) : Prop :=
  x._id = y._id ∧ x.orderNumber = y.orderNumber ∧ x.user = y.user ∧ x.items = y.items ∧
    x.subtotal = y.subtotal ∧ x.tax = y.tax ∧ x.shippingCost = y.shippingCost ∧
    x.discount = y.discount ∧ x.totalAmount = y.totalAmount ∧
    x.shippingAddress = y.shippingAddress ∧ x.createdAt = y.createdAt

/-- The order document of the admin route after its three assignments
(`status`, `paymentStatus`, `trackingNumber`), before `save()`. -/
def patchedOrder (req : UpdateReq) (order : Order) : Order :=
  let o1 : Order :=
    if truthy req.status then { order with status := req.status.getD "" } else order
  let o2 : Order :=
    if truthy req.paymentStatus then { o1 with paymentStatus := req.paymentStatus.getD "" }
    else o1
  if truthy req.trackingNumber then { o2 with trackingNumber := trimOpt req.trackingNumber }
  else o2

/-- Value of `isModified('status')` at the `save()` of the admin route. -/
def statusChanged (req : UpdateReq) (order : Order) : Bool :=
  (if truthy req.status then { order with status := req.status.getD "" } else order).status
    != order.status

/-- A line whose product is missing or inactive. -/
def unavailableLine (products : ObjectId → Option Product) (c : CartItem) : Prop :=
  ∀ p, products c.product = some p → p.isActive = false

/-- A line whose product is active and holds enough stock. -/
def availableLine (products : ObjectId → Option Product) (c : CartItem) : Prop :=
  ∃ p, products c.product = some p ∧ p.isActive = true ∧ c.quantity ≤ p.stock

/-- The history entry written for a change to status `t` at time `time`. -/
def historyEntry (t : String) (time : Nat) : StatusHistoryEntry :=
  { status := t, timestamp := time, note := "Order status updated to " ++ t }

/-! ## Concrete states -/

def sampleAddress : ShippingAddress :=
  { firstName := some "Ada", lastName := some "Byron", company := none,
    street := some "1 Main St", city := some "Pune", state := some "MH",
    zipCode := some "411001", country := some "IN", phone := none }

/-- An address with the five fields the route asks for and nothing else. -/
def bareAddress : ShippingAddress :=
  { firstName := none, lastName := none, company := none,
    street := some "1 Main St", city := some "Pune", state := some "MH",
    zipCode := some "411001", country := some "IN", phone := none }

def sampleDate : JsDate :=
  { fullYear := 2024, month := 0, date := 1, time := 1704067200000 }

def pen : Product :=
  { name := "Pen", price := 10, images := [], stock := 1, isActive := true }

def book : Product :=
  { name := "Book", price := 5, images := [], stock := 3, isActive := true }

/-- Products 1 (a pen, stock 1) and 2 (a book, stock 3); user 7 holds `cart`. -/
def shopWith (cart : List CartItem) (orders : List Order) : Db :=
  { products := fun i => if i = 1 then some pen else if i = 2 then some book else none,
    users := fun u => if u = 7 then some { cart := cart } else none,
    orders := orders }

/-- A checkout request of user 7. -/
def checkout (address : ShippingAddress) (paymentMethod : Option String) : CreateOrderReq :=
  { userId := 7, shippingAddress := some address, paymentMethod := paymentMethod,
    now := sampleDate, random := "AB12", newId := 100 }

/-- A stored order of user 7 for two books: subtotal 10, tax 0.8, shipping 10
and total 20.8, as numbers. -/
def storedOrder (id : ObjectId) (orderNumber status : String) : Order :=
  { _id := id, orderNumber := orderNumber, user := 7,
    items := [{ product := 2, name := "Book", price := 5, quantity := 2, total := 10 }],
    subtotal := 10, tax := roundDouble (4 / 5), shippingCost := 10, discount := 0,
    totalAmount := roundDouble (104 / 5),
    status := status, paymentStatus := "pending", paymentMethod := "credit_card",
    shippingAddress := sampleAddress, trackingNumber := none, statusHistory := [],
    createdAt := 1704067200000 }

def desk : Product :=
  { name := "Desk", price := 100, images := [], stock := 2, isActive := true }

def lamp : Product :=
  { name := "Lamp", price := 20, images := [], stock := 9, isActive := false }

/-- Product 1 is a pen sold at 10 with stock 5, product 2 a book sold at 5,
product 3 a desk sold at 100, product 4 a withdrawn lamp; user 7 holds `cart`. -/
def bigShop (cart : List CartItem) (orders : List Order) : Db :=
  { products := fun i =>
      if i = 1 then some { pen with stock := 5 } else if i = 2 then some book
      else if i = 3 then some desk
      else if i = 4 then some lamp
      else none,
    users := fun u => if u = 7 then some { cart := cart } else none,
    orders := orders }

/-! ## Reading routes (routes/orders.js) -/

/-- Request of `GET /api/orders/:orderId`. -/
structure GetOrderReq where
  orderId : ObjectId
  /-- The authenticated user, `req.user._id`. -/
  userId : ObjectId
  /-- The value `req.user.role`; the route never reads it. -/
  role : String

/-- Handler of `GET /api/orders/:orderId`.  The route populates
`items.product` with `images` among the selected paths, so the virtuals of the
populated products do not throw when the order is sent. -/
def getOrder (db : Db) (req : GetOrderReq) : Response :=
  match db.orders.find? (fun o => o._id == req.orderId && o.user == req.userId) with
  | none => failure 404 "Order not found"
  | some order => { status := 200, success := true, message := "", order := some order }

/-- A condition on `status` in a MongoDB filter: equality or `$ne`. -/
inductive StatusCond where
  | eq (s : String)
  | ne (s : String)
deriving DecidableEq

/-- The filter object of the admin list route: one optional condition per key. -/
structure OrderFilter where
  status : Option StatusCond
  paymentStatus : Option String
  createdGte : Option Nat
  createdLte : Option Nat
deriving DecidableEq

/-- Whether a document satisfies a filter. -/
def matchesFilter (f : OrderFilter) (o : Order) : Bool :=
  (match f.status with
   | none => true
   | some (StatusCond.eq s) => o.status == s
   | some (StatusCond.ne s) => o.status != s) &&
  (match f.paymentStatus with
   | none => true
   | some p => o.paymentStatus == p) &&
  (match f.createdGte with
   | none => true
   | some t => decide (t ≤ o.createdAt)) &&
  (match f.createdLte with
   | none => true
   | some t => decide (o.createdAt ≤ t))

/-- Query of `GET /api/orders/admin/all`: the dates are the times of
`new Date(...)`, `page` and `limit` the results of `parseInt` (0 for `NaN`). -/
structure ListQuery where
  status : Option String
  paymentStatus : Option String
  startDate : Option Nat
  endDate : Option Nat
  page : Nat
  limit : Nat

/-- The filter built from the query by the admin list route. -/
def buildFilter (q : ListQuery) : OrderFilter :=
  { status := if truthy q.status then some (StatusCond.eq (q.status.getD "")) else none,
    paymentStatus := if truthy q.paymentStatus then q.paymentStatus else none,
    createdGte := q.startDate,
    createdLte := q.endDate }

/-- The `$match` stage of the revenue aggregate: the filter spread into an
object literal whose later key `status` replaces the filter's own. -/
def revenueMatch (filter : OrderFilter) : OrderFilter :=
  { filter with status := some (StatusCond.ne "cancelled") }

/-- Answer of the admin list route when it is sent. -/
structure ListResponse where
  orders : List Order
  totalOrders : Nat
  totalPages : Nat
  totalRevenue : ℚ

/-- The accumulator `$sum` on doubles: MongoDB keeps the running sum in
double-double precision and rounds it at the end, which is taken here as the
exact sum rounded once. -/
def mongoSum (xs : List ℚ) : ℚ :=
  roundDouble xs.sum

/-- Handler of `GET /api/orders/admin/all`.  The listed orders are populated
with `'name category brand'`, so `res.json` throws, and the answer is the 500
of the `catch`, as soon as an item of a listed order has its product. -/
def adminListOrders (db : Db) (q : ListQuery) : Except Response ListResponse :=
  let page := if q.page = 0 then 1 else q.page
  let limit := if q.limit = 0 then 20 else q.limit
  let skip := (page - 1) * limit
  let filter := buildFilter q
  let found := (db.orders.filter (matchesFilter filter)).insertionSort
    (fun a b => b.createdAt ≤ a.createdAt)
  let orders := (found.drop skip).take limit
  let totalOrders := (db.orders.filter (matchesFilter filter)).length
  let totalRevenue := mongoSum
    ((db.orders.filter (matchesFilter (revenueMatch filter))).map (fun o => o.totalAmount))
  if orders.any (fun o => orderJsonThrows db.products (some o)) then
    .error (failure 500 "Server error while fetching orders")
  else
    .ok { orders := orders,
          totalOrders := totalOrders,
          totalPages := (totalOrders + limit - 1) / limit,
          totalRevenue := totalRevenue }

/-! ## The create route split at its first write -/

/-- Lines 14 to 97 of `POST /create`: the reads, the checks and the order
document held in memory, before `order.save()`. -/
def createOrderRead (db : Db) (req : CreateOrderReq) : Except Response (User × Order) :=
  match req.shippingAddress with
  | none => .error (failure 400 "Complete shipping address is required")
  | some address =>
    if !addressComplete (some address) then
      .error (failure 400 "Complete shipping address is required")
    else
      match db.users req.userId with
      | none => .error (failure 500 "Server error while creating order")
      | some user =>
        if user.cart.isEmpty then .error (failure 400 "Cart is empty")
        else
          match checkCart db.products user.cart [] 0 with
          | .error r => .error r
          | .ok (orderItems, subtotal) => .ok (user, newOrder req address orderItems subtotal)

/-- Lines 99 to 122 of `POST /create`: the writes, on the database as it is
when they run, with the user and order read earlier. -/
def createOrderWrite (fault : Fault) (db : Db) (req : CreateOrderReq) (user : User)
    (order : Order) : Response × Db :=
  let serverError := failure 500 "Server error while creating order"
  match (if fault = Fault.orderSave then none
         else orderSave db.orders req.now true true order) with
  | none => (serverError, db)
  | some (orders1, saved) =>
    let db1 : Db := { db with orders := orders1 }
    match decrementStock fault 0 user.cart db1.products with
    | (products2, false) => (serverError, { db1 with products := products2 })
    | (products2, true) =>
      let db2 : Db := { db1 with products := products2 }
      if fault = Fault.userSave then (serverError, db2)
      else
        let db3 : Db := { db2 with users := fun u =>
          if u = req.userId then some { user with cart := [] } else db2.users u }
        (createdResponse db3 saved._id, db3)

/-- Two `POST /create` requests whose handlers interleave at their awaits:
both run their reads and checks on the same database, then the first runs its
writes, then the second. -/
def createOrderRace (db : Db) (reqA reqB : CreateOrderReq) : Response × Response × Db :=
  match createOrderRead db reqA, createOrderRead db reqB with
  | .ok (userA, orderA), .ok (userB, orderB) =>
    let a := createOrderWrite Fault.none db reqA userA orderA
    let b := createOrderWrite Fault.none a.2 reqB userB orderB
    (a.1, b.1, b.2)
  | .error r, .ok (userB, orderB) =>
    let b := createOrderWrite Fault.none db reqB userB orderB
    (r, b.1, b.2)
  | .ok (userA, orderA), .error r =>
    let a := createOrderWrite Fault.none db reqA userA orderA
    (a.1, r, a.2)
  | .error ra, .error rb => (ra, rb, db)

/-! ## Cart routes (routes/cart.js) -/

/-- Request of `POST /api/cart/add`.  The body carries the product id as a
string: `productId` is the ObjectId it casts to and `canonical` tells whether
the string equals that ObjectId's `toString()`, which is what the route
compares with `===`. -/
structure CartAddReq where
  userId : ObjectId
  productId : ObjectId
  canonical : Bool
  /-- The body's `quantity`, an integer; `none` takes the default 1. -/
  quantity : Option Int

/-- The search `user.cart.find(item => item.product.toString() === productId)`. -/
def findCartLine (req : CartAddReq) (cart : List CartItem) : Option CartItem :=
  if req.canonical then cart.find? (fun item => item.product == req.productId) else none

/-- The search for the added item in the populated cart after the save:
`none` when no line matches or a line met first has no product left, which
both end in a `TypeError`. -/
def findAddedItem (products : ObjectId → Option Product) (req : CartAddReq) :
    List CartItem → Option CartItem
  | [] => none
  | item :: rest =>
    match products item.product with
    | none => none
    | some _ =>
      if req.canonical && item.product == req.productId then some item
      else findAddedItem products req rest

/-- The assignment `existingCartItem.quantity = newQuantity` on the line that
`find` returned, the first one for the product. -/
def setLineQuantity (productId : ObjectId) (newQuantity : Int) : List CartItem → List CartItem
  | [] => []
  | item :: rest =>
    if item.product = productId then { item with quantity := newQuantity } :: rest
    else item :: setLineQuantity productId newQuantity rest

/-- A response of the cart routes. -/
def cartAnswer (status : Nat) (message : String) : Response :=
  { status := status, success := decide (status = 200), message := message, order := none }

/-- Handler of `POST /api/cart/add`. -/
def cartAdd (db : Db) (req : CartAddReq) : Response × Db :=
  let quantity : Int := req.quantity.getD 1
  if quantity < 1 ∨ quantity > 10 then
    (cartAnswer 400 "Quantity must be between 1 and 10", db)
  else
    match db.products req.productId with
    | none => (cartAnswer 404 "Product not found or not available", db)
    | some product =>
      if !product.isActive then (cartAnswer 404 "Product not found or not available", db)
      else if product.stock < quantity then
        (cartAnswer 400 ("Only " ++ toString product.stock ++ " items available in stock"), db)
      else
        match db.users req.userId with
        | none => (cartAnswer 500 "Server error while adding to cart", db)
        | some user =>
          match findCartLine req user.cart with
          | some existingCartItem =>
            let newQuantity := existingCartItem.quantity + quantity
            if newQuantity > 10 then
              (cartAnswer 400 "Cannot add more than 10 of the same item", db)
            else if newQuantity > product.stock then
              (cartAnswer 400
                ("Only " ++ toString product.stock ++ " items available in stock"), db)
            else
              let cart1 := setLineQuantity req.productId newQuantity user.cart
              let db1 : Db := { db with users := fun u =>
                if u = req.userId then some { user with cart := cart1 } else db.users u }
              match findAddedItem db1.products req cart1 with
              | none => (cartAnswer 500 "Server error while adding to cart", db1)
              | some _ => (cartAnswer 200 "Item added to cart successfully", db1)
          | none =>
            let cart1 := user.cart ++ [{ product := req.productId, quantity := quantity }]
            let db1 : Db := { db with users := fun u =>
              if u = req.userId then some { user with cart := cart1 } else db.users u }
            match findAddedItem db1.products req cart1 with
            | none => (cartAnswer 500 "Server error while adding to cart", db1)
            | some _ => (cartAnswer 200 "Item added to cart successfully", db1)

/-- Request of `PUT /api/cart/update/:itemId`.  A cart line is addressed by
its position in the cart, which stands for its subdocument `_id`. -/
structure CartUpdateReq where
  userId : ObjectId
  itemId : Nat
  quantity : Option Int

/-- Handler of `PUT /api/cart/update/:itemId`. -/
def cartUpdate (db : Db) (req : CartUpdateReq) : Response × Db :=
  match req.quantity with
  | none => (cartAnswer 400 "Quantity must be between 1 and 10", db)
  | some quantity =>
    if quantity = 0 ∨ quantity < 1 ∨ quantity > 10 then
      (cartAnswer 400 "Quantity must be between 1 and 10", db)
    else
      match db.users req.userId with
      | none => (cartAnswer 500 "Server error while updating cart", db)
      | some user =>
        match user.cart[req.itemId]? with
        | none => (cartAnswer 404 "Cart item not found", db)
        | some cartItem =>
          match db.products cartItem.product with
          | none => (cartAnswer 500 "Server error while updating cart", db)
          | some product =>
            if !product.isActive then (cartAnswer 400 "Product is no longer available", db)
            else if quantity > product.stock then
              (cartAnswer 400
                ("Only " ++ toString product.stock ++ " items available in stock"), db)
            else
              let cart1 := user.cart.set req.itemId { cartItem with quantity := quantity }
              (cartAnswer 200 "Cart updated successfully",
               { db with users := fun u =>
                   if u = req.userId then some { user with cart := cart1 } else db.users u })

/-- Request of `DELETE /api/cart/remove/:itemId`. -/
structure CartRemoveReq where
  userId : ObjectId
  itemId : Nat

/-- Handler of `DELETE /api/cart/remove/:itemId`. -/
def cartRemove (db : Db) (req : CartRemoveReq) : Response × Db :=
  match db.users req.userId with
  | none => (cartAnswer 500 "Server error while removing from cart", db)
  | some user =>
    match user.cart[req.itemId]? with
    | none => (cartAnswer 404 "Cart item not found", db)
    | some _ =>
      (cartAnswer 200 "Item removed from cart successfully",
       { db with users := fun u =>
           if u = req.userId then some { user with cart := user.cart.eraseIdx req.itemId }
           else db.users u })

/-- Handler of `DELETE /api/cart/clear`. -/
def cartClear (db : Db) (userId : ObjectId) : Response × Db :=
  match db.users userId with
  | none => (cartAnswer 500 "Server error while clearing cart", db)
  | some user =>
    (cartAnswer 200 "Cart cleared successfully",
     { db with users := fun u =>
         if u = userId then some { user with cart := [] } else db.users u })

/-- One request to a cart route. -/
inductive CartOp where
  | add (req : CartAddReq)
  | update (req : CartUpdateReq)
  | remove (req : CartRemoveReq)
  | clear (userId : ObjectId)

/-- Response and database after one cart request. -/
def cartStep (db : Db) : CartOp → Response × Db
  | CartOp.add req => cartAdd db req
  | CartOp.update req => cartUpdate db req
  | CartOp.remove req => cartRemove db req
  | CartOp.clear userId => cartClear db userId

/-- The databases reached from `db0` by cart requests that are all answered
with success. -/
inductive CartReachable (db0 : Db) : Db → Prop where
  | start : CartReachable db0 db0
  | next (db : Db) (op : CartOp) :
      CartReachable db0 db → (cartStep db op).1.success = true →
      CartReachable db0 (cartStep db op).2

/-- The cart invariant: quantities from 1 to 10 and one line per product. -/
def cartWellFormed (cart : List CartItem) : Prop :=
  (∀ c ∈ cart, 1 ≤ c.quantity ∧ c.quantity ≤ 10) ∧ (cart.map (fun c => c.product)).Nodup

/-! ## Further notions of the statements -/

/-- The statusHistory of an order is empty or ends with the order's status. -/
def historyConsistent (o : Order) : Prop :=
  o.statusHistory = [] ∨ (o.statusHistory.getLast?).map (fun e => e.status) = some o.status

/-- The payment-status edges listed by the specification (section 4.3); the
routes contain no such table. -/
def specPaymentEdge (p q : String) : Bool :=
  (p == "pending" && q == "processing") ||
  (p == "processing" && (q == "completed" || q == "failed")) ||
  (p == "completed" && (q == "refunded" || q == "partially_refunded"))

/-- The statuses at which the specification lets a tracking number be set
(section 4.3: `processing` or later). -/
def specTrackingAllowed (status : String) : Bool :=
  status == "processing" || status == "shipped" || status == "delivered"

/-- The revenue as the specification words it: the sum of totalAmount over
the orders that match the request's filter and are not cancelled. -/
def specRevenue (db : Db) (q : ListQuery) : ℚ :=
  mongoSum
    ((db.orders.filter (fun o => matchesFilter (buildFilter q) o && o.status != "cancelled")).map
      (fun o => o.totalAmount))

/-- The pieces of a text between hyphens. -/
def splitHyphen : List Char → List (List Char)
  | [] => [[]]
  | c :: cs =>
    match splitHyphen cs with
    | [] => [[c]]
    | piece :: rest => if c = '-' then [] :: piece :: rest else (c :: piece) :: rest

/-- A decimal digit. -/
def isDigit (c : Char) : Bool :=
  decide (48 ≤ c.toNat ∧ c.toNat ≤ 57)

/-- The order-number form of the specification (section 3), `PREFIX-YYYYMMDD-NNN`:
a non-empty prefix, eight digits and three digits, separated by hyphens. -/
def specOrderNumberForm (s : String) : Bool :=
  match splitHyphen s.data with
  | [pfx, date, seq] =>
    !pfx.isEmpty && date.length == 8 && date.all isDigit && seq.length == 3 && seq.all isDigit
  | _ => false

/-- Two customers, 7 and 8, each with one pen in the cart, and one pen in
stock. -/
def raceShop : Db :=
  { products := fun i => if i = 1 then some pen else none,
    users := fun u => if u = 7 ∨ u = 8 then some { cart := [⟨1, 1⟩] } else none,
    orders := [] }

/-- The checkout of customer 8 in the race. -/
def checkoutB : CreateOrderReq :=
  { userId := 8, shippingAddress := some sampleAddress, paymentMethod := some "paypal",
    now := sampleDate, random := "CD34", newId := 101 }

/-- A pending order of 20.80, a delivered one and a cancelled one. -/
def threeOrders : List Order :=
  [storedOrder 50 "ORD1" "pending", storedOrder 51 "ORD2" "delivered",
   storedOrder 52 "ORD3" "cancelled"]

/-- A run of `POST /create` that stores its order. -/
def createOrderStored (f : Fault) (db : Db) (req : CreateOrderReq) : Prop :=
  (createOrder f db req).2.orders ≠ db.orders

/-- A run of `POST /create` that makes all of its writes: the order is stored
and the cart of the user, which the last write empties, is empty afterwards. -/
def createOrderCompleted (f : Fault) (db : Db) (req : CreateOrderReq) : Prop :=
  (createOrder f db req).2.orders ≠ db.orders ∧
    ((createOrder f db req).2.users req.userId).map (fun u => u.cart) = some []

/-- A shop with one product, a pin sold at `price` with stock 5, and one pin
in the cart of user 7. -/
def pinShop (price : ℚ) : Db :=
  { products := fun i =>
      if i = 1 then
        some { name := "Pin", price := price, images := [], stock := 5, isActive := true }
      else none,
    users := fun u => if u = 7 then some { cart := [⟨1, 1⟩] } else none,
    orders := [] }

/-- The revenue reported by the admin list route, when the answer is sent. -/
def reportedRevenue (r : Except Response ListResponse) : Option ℚ :=
  match r with
  | .ok l => some l.totalRevenue
  | .error _ => none

/-! ## Lemmas on double arithmetic -/

theorem pow2_eq_zpow (e : Int) : pow2 e = (2 : ℚ) ^ e := by
  unfold pow2
  by_cases h : 0 ≤ e
  · rw [if_pos h]
    obtain ⟨n, rfl⟩ := Int.eq_ofNat_of_zero_le h
    simp
  · rw [if_neg h]
    have hneg : e < 0 := not_le.mp h
    obtain ⟨n, hn⟩ := Int.exists_eq_neg_ofNat (le_of_lt hneg)
    subst hn
    simp

theorem pow2_pos (e : Int) : 0 < pow2 e := by
  rw [pow2_eq_zpow]
  positivity

theorem log2Fuel_spec : ∀ (fuel n : Nat), n ≤ fuel → 0 < n →
    2 ^ log2Fuel fuel n ≤ n ∧ n < 2 ^ (log2Fuel fuel n + 1) := by
  intro fuel
  induction fuel with
  | zero => intro n h1 h2; omega
  | succ f ih =>
    intro n h1 h2
    unfold log2Fuel
    by_cases hn : n < 2
    · rw [if_pos hn]
      constructor <;> simp <;> omega
    · rw [if_neg hn]
      have hdiv : n / 2 ≤ f := by omega
      have hpos : 0 < n / 2 := by omega
      obtain ⟨ha, hb⟩ := ih (n / 2) hdiv hpos
      constructor
      · rw [pow_succ]
        omega
      · rw [pow_succ]
        omega

theorem natLog2_spec (n : Nat) (h : 0 < n) :
    2 ^ natLog2 n ≤ n ∧ n < 2 ^ (natLog2 n + 1) :=
  log2Fuel_spec n n (le_refl n) h

/-- The power of two found by `floorLog2` is at most `a`. -/
theorem pow2_floorLog2_le (a : ℚ) (ha : 0 < a) : pow2 (floorLog2 a) ≤ a := by
  unfold floorLog2
  simp only
  split
  · assumption
  · have hnum : 0 < a.num := Rat.num_pos.mpr ha
    have hn : 0 < a.num.natAbs := Int.natAbs_pos.mpr (ne_of_gt hnum)
    have hd : 0 < a.den := a.den_pos
    obtain ⟨hn1, _⟩ := natLog2_spec _ hn
    obtain ⟨_, hd2⟩ := natLog2_spec _ hd
    rw [pow2_eq_zpow]
    have hrw : ((natLog2 a.num.natAbs : Int) - (natLog2 a.den : Int) - 1) =
        (natLog2 a.num.natAbs : Int) - ((natLog2 a.den + 1 : Nat) : Int) := by
      push_cast
      ring
    rw [hrw, zpow_sub₀ (by norm_num), zpow_natCast, zpow_natCast]
    have h2 : ((a.num.natAbs : Nat) : ℚ) = ((a.num : Int) : ℚ) := by
      rw [← Int.cast_natCast, Int.natAbs_of_nonneg (le_of_lt hnum)]
    have ha_eq : (a.num.natAbs : ℚ) / (a.den : ℚ) = a := by
      rw [h2]
      exact Rat.num_div_den a
    have hn1q : ((2 : ℚ) ^ natLog2 a.num.natAbs) ≤ (a.num.natAbs : ℚ) := by
      exact_mod_cast hn1
    have hd2q : (a.den : ℚ) ≤ ((2 : ℚ) ^ (natLog2 a.den + 1)) := by
      exact_mod_cast le_of_lt hd2
    have hdq : (0 : ℚ) < (a.den : ℚ) := by exact_mod_cast hd
    have key : (2 : ℚ) ^ natLog2 a.num.natAbs / (2 : ℚ) ^ (natLog2 a.den + 1) ≤
        (a.num.natAbs : ℚ) / (a.den : ℚ) :=
      div_le_div₀ (by positivity) hn1q hdq hd2q
    exact le_of_le_of_eq key ha_eq

theorem roundHalfEven_near (y : ℚ) : |((roundHalfEven y : Int) : ℚ) - y| ≤ 1 / 2 := by
  have h1 := Int.floor_le y
  have h2 := Int.lt_floor_add_one y
  unfold roundHalfEven
  simp only
  rw [abs_le]
  split
  · constructor <;> linarith
  · split
    · push_cast
      constructor <;> linarith
    · split
      · constructor <;> linarith
      · push_cast
        constructor <;> linarith

theorem roundHalfEven_nonneg (y : ℚ) (h : 0 ≤ y) : 0 ≤ roundHalfEven y := by
  have hf : 0 ≤ Int.floor y := Int.floor_nonneg.mpr h
  unfold roundHalfEven
  simp only
  split
  · exact hf
  · split
    · omega
    · split <;> omega

theorem roundDouble_nonneg (x : ℚ) (h : 0 ≤ x) : 0 ≤ roundDouble x := by
  unfold roundDouble
  split
  · exact le_refl 0
  · simp only
    apply mul_nonneg
    · have := roundHalfEven_nonneg (x / pow2 (max (floorLog2 (if x < 0 then -x else x) - 52) (-1074)))
        (div_nonneg h (le_of_lt (pow2_pos _)))
      exact_mod_cast this
    · exact le_of_lt (pow2_pos _)

/-- Rounding error of one operation: at most `2^-53` relative, or `2^-1075` in
the subnormal range. -/
theorem roundDouble_near (x : ℚ) :
    |roundDouble x - x| ≤ |x| / 2 ^ 53 + pow2 (-1075) := by
  unfold roundDouble
  by_cases hx : x = 0
  · rw [if_pos hx, hx]
    simp
    exact le_of_lt (pow2_pos _)
  · rw [if_neg hx]
    simp only
    have habs : (if x < 0 then -x else x) = |x| := by
      split
      · rename_i h
        rw [abs_of_neg h]
      · rename_i h
        rw [abs_of_nonneg (not_lt.mp h)]
    rw [habs]
    have hpos : 0 < |x| := abs_pos.mpr hx
    have hfl := pow2_floorLog2_le |x| hpos
    generalize floorLog2 |x| = fl at hfl
    set e := max (fl - 52) (-1074) with he
    have hp := pow2_pos e
    have hnear := roundHalfEven_near (x / pow2 e)
    have hrew : ((roundHalfEven (x / pow2 e) : Int) : ℚ) * pow2 e - x =
        (((roundHalfEven (x / pow2 e) : Int) : ℚ) - x / pow2 e) * pow2 e := by
      field_simp
    rw [hrew, abs_mul, abs_of_pos hp]
    have h1 : |((roundHalfEven (x / pow2 e) : Int) : ℚ) - x / pow2 e| * pow2 e ≤ 1 / 2 * pow2 e :=
      mul_le_mul_of_nonneg_right hnear (le_of_lt hp)
    have h2 : 1 / 2 * pow2 e ≤ |x| / 2 ^ 53 + pow2 (-1075) := by
      rcases le_total (fl - 52) (-1074) with hle | hle
      · have : e = -1074 := by rw [he]; exact max_eq_right hle
        rw [this]
        have h3 : 1 / 2 * pow2 (-1074) = pow2 (-1075) := by
          rw [pow2_eq_zpow, pow2_eq_zpow]
          have : (-1074 : Int) = -1075 + 1 := by norm_num
          rw [this, zpow_add₀ (by norm_num : (2 : ℚ) ≠ 0), zpow_one]
          ring
        rw [h3]
        have : 0 ≤ |x| / 2 ^ 53 := by positivity
        linarith
      · have : e = fl - 52 := by rw [he]; exact max_eq_left hle
        rw [this]
        have h3 : 1 / 2 * pow2 (fl - 52) = pow2 fl / 2 ^ 53 := by
          rw [pow2_eq_zpow, pow2_eq_zpow]
          have hsplit : fl - 52 = fl + (-53) + 1 := by ring
          rw [hsplit, zpow_add₀ (by norm_num : (2 : ℚ) ≠ 0),
            zpow_add₀ (by norm_num : (2 : ℚ) ≠ 0)]
          have h53 : (2 : ℚ) ^ (-53 : Int) = 1 / 2 ^ 53 := by
            rw [zpow_neg]
            norm_num
          rw [h53]
          simp
          ring
        rw [h3]
        have h4 : pow2 fl / 2 ^ 53 ≤ |x| / 2 ^ 53 := by
          apply div_le_div_of_nonneg_right hfl
          positivity
        have := pow2_pos (-1075)
        linarith
    linarith


theorem pow2_tiny : pow2 (-1075) ≤ 1 / 2 ^ 60 := by
  rw [pow2_eq_zpow]
  have h : (2 : ℚ) ^ (-1075 : Int) = 1 / 2 ^ 1075 := by
    rw [zpow_neg]
    norm_num
  rw [h]
  apply one_div_le_one_div_of_le (by positivity)
  exact pow_le_pow_right₀ (by norm_num) (by norm_num)

/-- The double sum `(s + h) + t` of non-negative numbers is within `2^-51`,
relatively, of the exact sum. -/
theorem jsAdd_jsAdd_near (s h t : ℚ) (ht : 0 ≤ t) (hbig : 1 ≤ s + h) :
    |jsAdd (jsAdd s h) t - (s + t + h)| ≤ (s + t + h) / 2 ^ 51 := by
  have hη := pow2_tiny
  have hr1 := roundDouble_near (s + h)
  have hr1n := roundDouble_nonneg (s + h) (by linarith)
  have hr2 := roundDouble_near (roundDouble (s + h) + t)
  rw [abs_of_nonneg (by linarith : (0 : ℚ) ≤ s + h)] at hr1
  rw [abs_of_nonneg (by linarith : (0 : ℚ) ≤ roundDouble (s + h) + t)] at hr2
  unfold jsAdd
  generalize roundDouble (roundDouble (s + h) + t) = r2 at hr2 ⊢
  generalize roundDouble (s + h) = r1 at hr1 hr1n hr2
  generalize pow2 (-1075) = η at hη hr1 hr2
  rw [abs_le] at hr1 hr2 ⊢
  obtain ⟨a1, a2⟩ := hr1
  obtain ⟨b1, b2⟩ := hr2
  have e53 : (2 : ℚ) ^ 53 = 9007199254740992 := by norm_num
  have e51 : (2 : ℚ) ^ 51 = 2251799813685248 := by norm_num
  have e60 : (2 : ℚ) ^ 60 = 1152921504606846976 := by norm_num
  rw [e53] at a1 a2 b1 b2
  rw [e60] at hη
  rw [e51]
  constructor <;> linarith

/-- The tax `Math.round(s * 0.08 * 100) / 100` in double arithmetic is within
half a cent, and a rounding error, of 8% of `s`. -/
theorem tax_near (s : ℚ) (hs : 0 ≤ s) :
    |jsDiv ((mathRound (jsMul (jsMul s (roundDouble (8 / 100))) 100) : Int) : ℚ) 100 -
        s * (8 / 100)| ≤ 1 / 200 + (s + 1) / 2 ^ 50 := by
  have hη := pow2_tiny
  have hc := roundDouble_near (8 / 100)
  have hcn := roundDouble_nonneg (8 / 100) (by norm_num)
  rw [abs_of_nonneg (by norm_num : (0 : ℚ) ≤ 8 / 100)] at hc
  unfold jsDiv jsMul mathRound
  generalize roundDouble (8 / 100) = c at hc hcn ⊢
  have hscn : 0 ≤ s * c := mul_nonneg hs hcn
  have hp1 := roundDouble_near (s * c)
  have hp1n := roundDouble_nonneg (s * c) hscn
  rw [abs_of_nonneg hscn] at hp1
  generalize roundDouble (s * c) = p1 at hp1 hp1n ⊢
  have hp2 := roundDouble_near (p1 * 100)
  have hp2n := roundDouble_nonneg (p1 * 100) (by linarith)
  rw [abs_of_nonneg (by linarith : (0 : ℚ) ≤ p1 * 100)] at hp2
  generalize roundDouble (p1 * 100) = p2 at hp2 hp2n ⊢
  have hM1 := Int.floor_le (p2 + 1 / 2)
  have hM2 := Int.lt_floor_add_one (p2 + 1 / 2)
  have hMn : (0 : ℚ) ≤ ((Int.floor (p2 + 1 / 2) : Int) : ℚ) := by
    have : 0 ≤ Int.floor (p2 + 1 / 2) := Int.floor_nonneg.mpr (by linarith)
    exact_mod_cast this
  generalize ((Int.floor (p2 + 1 / 2) : Int) : ℚ) = M at hM1 hM2 hMn ⊢
  have ht := roundDouble_near (M / 100)
  rw [abs_of_nonneg (by linarith : (0 : ℚ) ≤ M / 100)] at ht
  generalize roundDouble (M / 100) = tax at ht ⊢
  generalize pow2 (-1075) = η at hη hc hp1 hp2 ht
  have e53 : (2 : ℚ) ^ 53 = 9007199254740992 := by norm_num
  have e50 : (2 : ℚ) ^ 50 = 1125899906842624 := by norm_num
  have e60 : (2 : ℚ) ^ 60 = 1152921504606846976 := by norm_num
  rw [e53] at hc hp1 hp2 ht
  rw [e60] at hη
  rw [e50]
  rw [abs_le] at hc hp1 hp2 ht ⊢
  obtain ⟨c1, c2⟩ := hc
  obtain ⟨p11, p12⟩ := hp1
  obtain ⟨p21, p22⟩ := hp2
  obtain ⟨t1, t2⟩ := ht
  have hsc1 : s * c ≤ s * (9 / 100) := mul_le_mul_of_nonneg_left (by linarith) hs
  have hsc2 : s * (8 / 100 + 8 / 100 / 9007199254740992 + η) ≥ s * c :=
    mul_le_mul_of_nonneg_left (by linarith) hs
  have hsc3 : s * (8 / 100 - 8 / 100 / 9007199254740992 - η) ≤ s * c :=
    mul_le_mul_of_nonneg_left (by linarith) hs
  have hsη : s * η ≤ s * (1 / 1152921504606846976) := mul_le_mul_of_nonneg_left hη hs
  generalize s * c = sc at *
  constructor <;> linarith

/-! ## Lemmas on the stock loops -/

theorem incStock_stock (ps : ObjectId → Option Product) (id : ObjectId) (d : Int) (q : ObjectId) :
    ((incStock ps id d) q).map (fun p => p.stock) =
      if q = id then (ps q).map (fun p => p.stock + d) else (ps q).map (fun p => p.stock) := by
  unfold incStock
  by_cases h : q = id
  · simp [h, Option.map_map, Function.comp_def]
  · simp [h]

theorem cartQuantity_cons (c : CartItem) (rest : List CartItem) (q : ObjectId) :
    cartQuantity (c :: rest) q =
      if q = c.product then c.quantity + cartQuantity rest q else cartQuantity rest q := by
  unfold cartQuantity
  by_cases h : q = c.product
  · simp [h, List.filter_cons]
  · have h2 : ¬ c.product = q := fun e => h e.symm
    simp [h, h2, List.filter_cons]

theorem orderedQuantity_cons (i : OrderItem) (rest : List OrderItem) (q : ObjectId) :
    orderedQuantity (i :: rest) q =
      if q = i.product then i.quantity + orderedQuantity rest q else orderedQuantity rest q := by
  unfold orderedQuantity
  by_cases h : q = i.product
  · simp [h, List.filter_cons]
  · have h2 : ¬ i.product = q := fun e => h e.symm
    simp [h, h2, List.filter_cons]

theorem decrementStock_complete (f : Fault) :
    ∀ (cart : List CartItem) (k : Nat) (ps : ObjectId → Option Product),
      (decrementStock f k cart ps).2 = true →
      ∀ q, ((decrementStock f k cart ps).1 q).map (fun p => p.stock) =
        (ps q).map (fun p => p.stock - cartQuantity cart q) := by
  intro cart
  induction cart with
  | nil =>
    intro k ps _ q
    simp [decrementStock, cartQuantity]
  | cons c rest ih =>
    intro k ps h q
    unfold decrementStock at h ⊢
    by_cases hf : f = Fault.stockUpdate k
    · simp [hf] at h
    · simp only [hf, if_false] at h ⊢
      rw [ih (k + 1) _ h q, cartQuantity_cons]
      unfold incStock
      by_cases hq : q = c.product
      · subst hq
        cases hp : ps c.product <;> simp
        omega
      · simp [hq]

theorem restoreStock_stock :
    ∀ (items : List OrderItem) (ps : ObjectId → Option Product) (q : ObjectId),
      ((restoreStock items ps) q).map (fun p => p.stock) =
        (ps q).map (fun p => p.stock + orderedQuantity items q) := by
  intro items
  induction items with
  | nil =>
    intro ps q
    simp [restoreStock, orderedQuantity]
  | cons i rest ih =>
    intro ps q
    unfold restoreStock
    rw [ih, orderedQuantity_cons]
    unfold incStock
    by_cases hq : q = i.product
    · subst hq
      cases hp : ps i.product <;> simp
      omega
    · simp [hq]

theorem orderedQuantity_append (xs ys : List OrderItem) (q : ObjectId) :
    orderedQuantity (xs ++ ys) q = orderedQuantity xs q + orderedQuantity ys q := by
  simp [orderedQuantity, List.filter_append, List.map_append, List.sum_append]

theorem checkCart_quantity (ps : ObjectId → Option Product) :
    ∀ (cart : List CartItem) (acc : List OrderItem) (sub : ℚ) (items : List OrderItem) (s : ℚ),
      checkCart ps cart acc sub = .ok (items, s) →
      ∀ q, orderedQuantity items q = orderedQuantity acc q + cartQuantity cart q := by
  intro cart
  induction cart with
  | nil =>
    intro acc sub items s h q
    simp [checkCart] at h
    simp [← h.1, cartQuantity]
  | cons c rest ih =>
    intro acc sub items s h q
    unfold checkCart at h
    split at h
    · cases h
    · split at h
      · cases h
      · split at h
        · cases h
        · rw [ih _ _ _ _ h q, orderedQuantity_append, cartQuantity_cons]
          by_cases hq : q = c.product
          · simp [orderedQuantity, hq]; ring
          · have h2 : ¬ c.product = q := fun e => hq e.symm
            simp [orderedQuantity, hq, h2]

theorem orderSave_new (orders : List Order) (d : JsDate) (sm : Bool) (o : Order)
    (os : List Order) (saved : Order) (h : orderSave orders d true sm o = some (os, saved)) :
    validateOrder o = true ∧ saved = o ∧ os = orders ++ [o] ∧
      orders.any (fun x => x._id == o._id || x.orderNumber == o.orderNumber) = false := by
  unfold orderSave at h
  by_cases hv : validateOrder o = true
  · have hn : (o.orderNumber == "") = false := by
      unfold validateOrder at hv
      simp only [Bool.and_eq_true] at hv
      have := hv.1.1.1.1.1.1.1.1.1.1.1
      simpa using this
    simp only [hv, if_true, preSaveOrderNumber, hn, Bool.and_false, preSaveStatusHistory,
      Bool.not_true, Bool.false_eq_true, if_false, writeOrder] at h
    by_cases hd : orders.any (fun x => x._id == o._id || x.orderNumber == o.orderNumber) = true
    · simp [hd] at h
    · have hd2 : orders.any (fun x => x._id == o._id || x.orderNumber == o.orderNumber) = false := by
        simpa using hd
      rw [hd2] at h
      simp only [Bool.false_eq_true, if_false, Option.map_some', Option.some.injEq,
        Prod.mk.injEq] at h
      exact ⟨hv, h.2.symm, h.1.symm, hd2⟩
  · simp [hv] at h

theorem find_append_fresh (orders : List Order) (o : Order)
    (h : orders.any (fun x => x._id == o._id || x.orderNumber == o.orderNumber) = false) :
    (orders ++ [o]).find? (fun x => x._id == o._id) = some o := by
  induction orders with
  | nil => simp
  | cons a rest ih =>
    simp only [List.any_cons, Bool.or_eq_false_iff] at h
    have ha : (a._id == o._id) = false := h.1.1
    simp only [List.cons_append, List.find?_cons, ha]
    exact ih h.2

theorem checkCart_error_status (ps : ObjectId → Option Product) :
    ∀ (cart : List CartItem) (acc : List OrderItem) (sub : ℚ) (r : Response),
      checkCart ps cart acc sub = .error r → r.status = 400 := by
  intro cart
  induction cart with
  | nil =>
    intro acc sub r h
    simp [checkCart] at h
  | cons c rest ih =>
    intro acc sub r h
    unfold checkCart at h
    split at h
    · cases h; rfl
    · split at h
      · cases h; rfl
      · split at h
        · cases h; rfl
        · exact ih _ _ _ h

theorem createdResponse_status (db : Db) (id : ObjectId) :
    (createdResponse db id).status = 500 ∨ (createdResponse db id).status = 201 := by
  unfold createdResponse
  simp only
  split
  · exact Or.inl rfl
  · exact Or.inr rfl

/-- The shape of every run of `POST /create`, in full: either nothing is
written, or the checks have passed, the order built by the route is stored,
the stock loop has run up to the faulty write, and the cart is emptied only
after a complete stock loop. -/
theorem createOrder_shape (f : Fault) (db : Db) (req : CreateOrderReq) :
    (createOrder f db req).2 = db ∨
    ∃ address user orderItems subtotal,
      req.shippingAddress = some address ∧ addressComplete (some address) = true ∧
      db.users req.userId = some user ∧ user.cart.isEmpty = false ∧
      checkCart db.products user.cart [] 0 = .ok (orderItems, subtotal) ∧
      validateOrder (newOrder req address orderItems subtotal) = true ∧
      db.orders.any (fun x => x._id == (newOrder req address orderItems subtotal)._id ||
        x.orderNumber == (newOrder req address orderItems subtotal).orderNumber) = false ∧
      (createOrder f db req).2.orders = db.orders ++ [newOrder req address orderItems subtotal] ∧
      (createOrder f db req).2.products = (decrementStock f 0 user.cart db.products).1 ∧
      ((createOrder f db req).2.users = db.users ∨
        ((decrementStock f 0 user.cart db.products).2 = true ∧
          (createOrder f db req).2.users =
            (fun u => if u = req.userId then some { user with cart := [] } else db.users u))) := by
  unfold createOrder
  cases hA : req.shippingAddress with
  | none => exact Or.inl rfl
  | some address =>
    simp only
    by_cases hc : addressComplete (some address) = true
    · simp only [hc, Bool.not_true, Bool.false_eq_true, if_false]
      cases hU : db.users req.userId with
      | none => exact Or.inl rfl
      | some user =>
        simp only
        by_cases he : user.cart.isEmpty = true
        · simp [he]
        · simp only [he, Bool.false_eq_true, if_false]
          cases hK : checkCart db.products user.cart [] 0 with
          | error r => exact Or.inl rfl
          | ok res =>
            obtain ⟨orderItems, subtotal⟩ := res
            simp only
            by_cases hf : f = Fault.orderSave
            · simp [hf]
            · simp only [hf, if_false]
              cases hS : orderSave db.orders req.now true true
                  (newOrder req address orderItems subtotal) with
              | none => exact Or.inl rfl
              | some pr =>
                obtain ⟨orders1, saved⟩ := pr
                obtain ⟨hv, hsaved, hos, hfresh⟩ := orderSave_new _ _ _ _ _ _ hS
                subst hsaved hos
                simp only
                refine Or.inr ⟨address, user, orderItems, subtotal, rfl, hc, rfl, by simpa using he,
                  hK, hv, hfresh, ?_⟩
                cases hD : decrementStock f 0 user.cart db.products with
                | mk products2 flag =>
                  cases flag with
                  | false => simp
                  | true =>
                    by_cases hu : f = Fault.userSave
                    · simp [hu]
                    · simp [hu]
    · simp [hc]

/-- What a stored order tells about the run of `POST /create`. -/
theorem createOrder_stored (f : Fault) (db : Db) (req : CreateOrderReq)
    (h : createOrderStored f db req) :
    ∃ address user orderItems subtotal,
      req.shippingAddress = some address ∧ addressComplete (some address) = true ∧
      db.users req.userId = some user ∧ user.cart.isEmpty = false ∧
      checkCart db.products user.cart [] 0 = .ok (orderItems, subtotal) ∧
      validateOrder (newOrder req address orderItems subtotal) = true ∧
      db.orders.any (fun x => x._id == (newOrder req address orderItems subtotal)._id ||
        x.orderNumber == (newOrder req address orderItems subtotal).orderNumber) = false ∧
      (createOrder f db req).2.orders =
        db.orders ++ [newOrder req address orderItems subtotal] := by
  rcases createOrder_shape f db req with hdb | ⟨address, user, orderItems, subtotal, hA, hc, hU,
    he, hK, hv, hfresh, hord, _, _⟩
  · exact absurd (by rw [hdb]) h
  · exact ⟨address, user, orderItems, subtotal, hA, hc, hU, he, hK, hv, hfresh, hord⟩

/-- What a complete run of `POST /create` has written. -/
theorem createOrder_completed (f : Fault) (db : Db) (req : CreateOrderReq)
    (h : createOrderCompleted f db req) :
    ∃ address user orderItems subtotal,
      req.shippingAddress = some address ∧ addressComplete (some address) = true ∧
      db.users req.userId = some user ∧ user.cart.isEmpty = false ∧
      checkCart db.products user.cart [] 0 = .ok (orderItems, subtotal) ∧
      validateOrder (newOrder req address orderItems subtotal) = true ∧
      db.orders.any (fun x => x._id == (newOrder req address orderItems subtotal)._id ||
        x.orderNumber == (newOrder req address orderItems subtotal).orderNumber) = false ∧
      (createOrder f db req).2.orders = db.orders ++ [newOrder req address orderItems subtotal] ∧
      (∀ q, stockOf (createOrder f db req).2 q =
        (stockOf db q).map (fun s => s - cartQuantity user.cart q)) ∧
      (createOrder f db req).2.users =
        (fun u => if u = req.userId then some { user with cart := [] } else db.users u) := by
  obtain ⟨hne, hcart⟩ := h
  rcases createOrder_shape f db req with hdb | ⟨address, user, orderItems, subtotal, hA, hc, hU,
    he, hK, hv, hfresh, hord, hprod, husers⟩
  · exact absurd (by rw [hdb]) hne
  · rcases husers with hsame | ⟨hflag, hcleared⟩
    · exfalso
      rw [hsame, hU] at hcart
      simp only [Option.map_some', Option.some.injEq] at hcart
      rw [hcart] at he
      simp at he
    · refine ⟨address, user, orderItems, subtotal, hA, hc, hU, he, hK, hv, hfresh, hord, ?_,
        hcleared⟩
      intro q
      have hd := decrementStock_complete f user.cart 0 db.products hflag q
      simp only [stockOf, hprod, hd, Option.map_map, Function.comp_def]

theorem validateOrder_cancelled (o : Order) (h : validateOrder o = true) :
    validateOrder { o with status := "cancelled" } = true := by
  unfold validateOrder at h ⊢
  simp only [Bool.and_eq_true] at h ⊢
  obtain ⟨⟨⟨⟨⟨⟨⟨⟨⟨⟨⟨h1, h2⟩, h3⟩, h4⟩, h5⟩, h6⟩, h7⟩, _⟩, h9⟩, h10⟩, h11⟩, h12⟩ := h
  exact ⟨⟨⟨⟨⟨⟨⟨⟨⟨⟨⟨h1, h2⟩, h3⟩, h4⟩, h5⟩, h6⟩, h7⟩, by decide⟩, h9⟩, h10⟩, h11⟩, h12⟩

theorem validateOrder_money (o : Order) (h : validateOrder o = true) :
    0 ≤ o.subtotal ∧ 0 ≤ o.tax := by
  unfold validateOrder at h
  simp only [Bool.and_eq_true, decide_eq_true_eq] at h
  exact ⟨h.1.1.1.1.1.1.1.1.1.2, h.1.1.1.1.1.1.1.1.2⟩

theorem orderSave_existing (orders : List Order) (d : JsDate) (sm : Bool) (o : Order)
    (h : validateOrder o = true) :
    orderSave orders d false sm o =
      some (orders.map (fun x => if x._id = o._id then preSaveStatusHistory d false sm o else x),
        preSaveStatusHistory d false sm o) := by
  have hid : (preSaveStatusHistory d false sm o)._id = o._id := by
    unfold preSaveStatusHistory
    split <;> rfl
  simp [orderSave, h, preSaveOrderNumber, writeOrder, hid]

theorem preSaveStatusHistory_items (d : JsDate) (n sm : Bool) (o : Order) :
    (preSaveStatusHistory d n sm o).items = o.items := by
  unfold preSaveStatusHistory
  split <;> rfl

/-- What the cancel route does to a pending order of the requester. -/
theorem cancelOrder_pending (db : Db) (req : CancelReq) (o : Order)
    (hfind : db.orders.find? (fun x => x._id == req.orderId && x.user == req.userId) = some o)
    (hst : o.status = "pending") (hv : validateOrder o = true) :
    (cancelOrder db req).1.status = 200 ∧
      ∀ q, stockOf (cancelOrder db req).2 q =
        (stockOf db q).map (fun s => s + orderedQuantity o.items q) := by
  have hs := orderSave_existing db.orders req.now true _ (validateOrder_cancelled o hv)
  unfold cancelOrder
  simp only [hfind, hst, bne_self_eq_false, Bool.false_eq_true, if_false, hs]
  refine ⟨trivial, fun q => ?_⟩
  simp only [stockOf, restoreStock_stock, preSaveStatusHistory_items, Option.map_map,
    Function.comp_def]

theorem checkCart_insufficient (ps : ObjectId → Option Product) :
    ∀ (cart : List CartItem) (acc : List OrderItem) (sub : ℚ),
      (∀ c ∈ cart, ∃ p, ps c.product = some p ∧ p.isActive = true) →
      (∃ c ∈ cart, ∃ p, ps c.product = some p ∧ p.stock < c.quantity) →
      ∃ c ∈ cart, ∃ p, ps c.product = some p ∧ p.stock < c.quantity ∧
        checkCart ps cart acc sub = .error (failure 400 (insufficientStockMessage p)) := by
  intro cart
  induction cart with
  | nil =>
    intro acc sub _ hex
    obtain ⟨c, hc, _⟩ := hex
    cases hc
  | cons c rest ih =>
    intro acc sub hact hex
    obtain ⟨p, hp, hpa⟩ := hact c (List.mem_cons_self _ _)
    by_cases hlt : p.stock < c.quantity
    · refine ⟨c, List.mem_cons_self _ _, p, hp, hlt, ?_⟩
      unfold checkCart
      simp [hp, hpa, hlt]
    · have hrest : ∃ c2 ∈ rest, ∃ p2, ps c2.product = some p2 ∧ p2.stock < c2.quantity := by
        obtain ⟨c2, hc2, p2, hp2, hlt2⟩ := hex
        rcases List.mem_cons.mp hc2 with heq | hmem
        · subst heq
          rw [hp] at hp2
          cases hp2
          exact absurd hlt2 hlt
        · exact ⟨c2, hmem, p2, hp2, hlt2⟩
      obtain ⟨c2, hc2, p2, hp2, hlt2, hres⟩ :=
        ih (acc ++ [{ product := c.product, name := p.name, price := p.price,
                      quantity := c.quantity, total := jsMul p.price (c.quantity : ℚ) }])
          (jsAdd sub (jsMul p.price (c.quantity : ℚ)))
          (fun x hx => hact x (List.mem_cons_of_mem _ hx)) hrest
      refine ⟨c2, List.mem_cons_of_mem _ hc2, p2, hp2, hlt2, ?_⟩
      unfold checkCart
      simp only [hp, hpa, Bool.not_true, Bool.false_eq_true, if_false, hlt]
      exact hres

theorem find_append_created (orders : List Order) (o : Order)
    (h : orders.any (fun x => x._id == o._id || x.orderNumber == o.orderNumber) = false) :
    (orders ++ [o]).find? (fun x => x._id == o._id && x.user == o.user) = some o := by
  induction orders with
  | nil => simp
  | cons a rest ih =>
    simp only [List.any_cons, Bool.or_eq_false_iff] at h
    have ha : (a._id == o._id) = false := h.1.1
    simp only [List.cons_append, List.find?_cons, ha, Bool.false_and]
    exact ih h.2

theorem find_after_replace (saved o : Order) (a b : ObjectId)
    (hs : (saved._id == a && saved.user == b) = true) :
    ∀ (orders : List Order),
      orders.find? (fun x => x._id == a && x.user == b) = some o →
      (orders.map (fun x => if x._id = o._id then saved else x)).find?
        (fun x => x._id == a && x.user == b) = some saved := by
  intro orders
  induction orders with
  | nil => intro h; simp at h
  | cons x rest ih =>
    intro h
    simp only [List.map_cons, List.find?_cons] at h ⊢
    by_cases hx : x._id = o._id
    · simp [hx, hs]
    · simp only [hx, if_false]
      cases hp : (x._id == a && x.user == b) with
      | true =>
        rw [hp] at h
        simp only [Option.some.injEq] at h
        exact absurd (by rw [h]) hx
      | false =>
        rw [hp] at h
        exact ih h

theorem decrementStock_none :
    ∀ (cart : List CartItem) (k : Nat) (ps : ObjectId → Option Product),
      (decrementStock Fault.none k cart ps).2 = true := by
  intro cart
  induction cart with
  | nil => intro k ps; rfl
  | cons c rest ih =>
    intro k ps
    unfold decrementStock
    simp only [reduceCtorEq, if_false]
    exact ih _ _

/-! ## Shape of the handlers -/

/-- The shape of every run of `POST /create`: either nothing is written, or
the order has been stored and the stock loop has run up to the faulty write,
the cart being emptied only by a complete run. -/
theorem createOrder_cases (f : Fault) (db : Db) (req : CreateOrderReq) :
    (createOrder f db req).2 = db ∨
    ∃ address user orderItems subtotal,
      db.users req.userId = some user ∧
      checkCart db.products user.cart [] 0 = .ok (orderItems, subtotal) ∧
      validateOrder (newOrder req address orderItems subtotal) = true ∧
      (createOrder f db req).2.orders = db.orders ++ [newOrder req address orderItems subtotal] ∧
      (createOrder f db req).2.products = (decrementStock f 0 user.cart db.products).1 ∧
      ((createOrder f db req).2.users = db.users ∨
        (createOrder f db req).2.users =
          (fun u => if u = req.userId then some { user with cart := [] } else db.users u)) := by
  unfold createOrder
  cases hA : req.shippingAddress with
  | none => exact Or.inl rfl
  | some address =>
    simp only
    by_cases hc : addressComplete (some address) = true
    · simp only [hc, Bool.not_true, Bool.false_eq_true, if_false]
      cases hU : db.users req.userId with
      | none => exact Or.inl rfl
      | some user =>
        simp only
        by_cases he : user.cart.isEmpty = true
        · simp [he]
        · simp only [he, Bool.false_eq_true, if_false]
          cases hK : checkCart db.products user.cart [] 0 with
          | error r => exact Or.inl rfl
          | ok res =>
            obtain ⟨orderItems, subtotal⟩ := res
            simp only
            by_cases hf : f = Fault.orderSave
            · simp [hf]
            · simp only [hf, if_false]
              cases hS : orderSave db.orders req.now true true
                  (newOrder req address orderItems subtotal) with
              | none => exact Or.inl rfl
              | some pr =>
                obtain ⟨orders1, saved⟩ := pr
                obtain ⟨hv, hsaved, hos, _⟩ := orderSave_new _ _ _ _ _ _ hS
                subst hsaved hos
                simp only
                refine Or.inr ⟨address, user, orderItems, subtotal, rfl, hK, hv, ?_⟩
                cases hD : decrementStock f 0 user.cart db.products with
                | mk products2 flag =>
                  cases flag with
                  | false => simp
                  | true =>
                    by_cases hu : f = Fault.userSave
                    · simp [hu]
                    · simp [hu]
    · simp [hc]

/-! ## Stock stays non-negative when carts have one line per product -/

theorem checkCart_ok_stock (ps : ObjectId → Option Product) :
    ∀ (cart : List CartItem) (acc : List OrderItem) (sub : ℚ) (r : List OrderItem × ℚ),
      checkCart ps cart acc sub = .ok r →
      ∀ c ∈ cart, ∃ p, ps c.product = some p ∧ c.quantity ≤ p.stock := by
  intro cart
  induction cart with
  | nil =>
    intro acc sub r _ c hc
    cases hc
  | cons c0 rest ih =>
    intro acc sub r h c hc
    unfold checkCart at h
    split at h
    · cases h
    · rename_i p hp
      split at h
      · cases h
      · split at h
        · cases h
        · rename_i hlt
          rcases List.mem_cons.mp hc with heq | hmem
          · subst heq
            exact ⟨p, hp, not_lt.mp hlt⟩
          · exact ih _ _ _ h c hmem

theorem decrementStock_nonneg (f : Fault) :
    ∀ (cart : List CartItem) (k : Nat) (ps : ObjectId → Option Product),
      (∀ c ∈ cart, ∀ p, ps c.product = some p → c.quantity ≤ p.stock) →
      (cart.map (fun c => c.product)).Nodup →
      (∀ q p, ps q = some p → 0 ≤ p.stock) →
      ∀ q p, (decrementStock f k cart ps).1 q = some p → 0 ≤ p.stock := by
  intro cart
  induction cart with
  | nil =>
    intro k ps _ _ hnn q p h
    exact hnn q p h
  | cons c rest ih =>
    intro k ps hle hnd hnn q p h
    unfold decrementStock at h
    by_cases hf : f = Fault.stockUpdate k
    · simp only [hf, if_true] at h
      exact hnn q p h
    · simp only [hf, if_false] at h
      simp only [List.map_cons, List.nodup_cons] at hnd
      refine ih (k + 1) (incStock ps c.product (-c.quantity)) ?_ hnd.2 ?_ q p h
      · intro c2 hc2 p2 hp2
        have hne : c2.product ≠ c.product := by
          intro heq
          exact hnd.1 (heq ▸ List.mem_map_of_mem (fun c => c.product) hc2)
        simp only [incStock, hne, if_false] at hp2
        exact hle c2 (List.mem_cons_of_mem _ hc2) p2 hp2
      · intro q2 p2 hp2
        unfold incStock at hp2
        by_cases hq : q2 = c.product
        · subst hq
          simp only [if_true] at hp2
          cases hp : ps c.product with
          | none => simp [hp] at hp2
          | some p0 =>
            simp only [hp, Option.map_some', Option.some.injEq] at hp2
            have := hle c (List.mem_cons_self _ _) p0 hp
            rw [← hp2]
            simp only
            omega
        · simp only [hq, if_false] at hp2
          exact hnn q2 p2 hp2

theorem restoreStock_nonneg :
    ∀ (items : List OrderItem) (ps : ObjectId → Option Product),
      (∀ i ∈ items, 0 ≤ i.quantity) →
      (∀ q p, ps q = some p → 0 ≤ p.stock) →
      ∀ q p, restoreStock items ps q = some p → 0 ≤ p.stock := by
  intro items
  induction items with
  | nil =>
    intro ps _ hnn q p h
    exact hnn q p h
  | cons i rest ih =>
    intro ps hq hnn q p h
    unfold restoreStock at h
    refine ih (incStock ps i.product i.quantity)
      (fun j hj => hq j (List.mem_cons_of_mem _ hj)) ?_ q p h
    intro q2 p2 hp2
    unfold incStock at hp2
    by_cases hq2 : q2 = i.product
    · subst hq2
      simp only [if_true] at hp2
      cases hp : ps i.product with
      | none => simp [hp] at hp2
      | some p0 =>
        simp only [hp, Option.map_some', Option.some.injEq] at hp2
        have h1 := hnn i.product p0 hp
        have h2 := hq i (List.mem_cons_self _ _)
        rw [← hp2]
        simp only
        omega
    · simp only [hq2, if_false] at hp2
      exact hnn q2 p2 hp2

theorem validateOrder_items (o : Order) (h : validateOrder o = true) :
    ∀ i ∈ o.items, 0 ≤ i.quantity := by
  unfold validateOrder at h
  simp only [Bool.and_eq_true] at h
  have hall := h.1.1.1.1.1.1.1.1.1.1.2
  intro i hi
  have := List.all_eq_true.mp hall i hi
  simp only [validItem, Bool.and_eq_true, decide_eq_true_eq] at this
  omega

/-- The shape of every run of the cancel route. -/
theorem cancelOrder_cases (db : Db) (req : CancelReq) :
    (cancelOrder db req).2 = db ∨
    ∃ o : Order, validateOrder { o with status := "cancelled" } = true ∧
      (cancelOrder db req).2.products = restoreStock o.items db.products ∧
      (cancelOrder db req).2.users = db.users := by
  unfold cancelOrder
  cases hfind : db.orders.find? (fun o => o._id == req.orderId && o.user == req.userId) with
  | none => exact Or.inl rfl
  | some o =>
    simp only
    by_cases hst : (o.status != "pending") = true
    · simp [hst]
    · simp only [hst, Bool.false_eq_true, if_false]
      by_cases hv : validateOrder { o with status := "cancelled" } = true
      · rw [orderSave_existing _ _ _ _ hv]
        refine Or.inr ⟨o, hv, ?_, rfl⟩
        simp only [preSaveStatusHistory_items]
      · have hn : orderSave db.orders req.now false true { o with status := "cancelled" } = none := by
          simp [orderSave, hv]
        rw [hn]
        exact Or.inl rfl

theorem adminUpdateOrder_frame (db : Db) (req : UpdateReq) :
    (adminUpdateOrder db req).2.products = db.products ∧
      (adminUpdateOrder db req).2.users = db.users := by
  unfold adminUpdateOrder
  split
  · exact ⟨rfl, rfl⟩
  · split
    · exact ⟨rfl, rfl⟩
    · split
      · exact ⟨rfl, rfl⟩
      · dsimp only
        generalize orderSave db.orders req.now false _ _ = r
        rcases r with _ | ⟨orders1, saved⟩ <;> exact ⟨rfl, rfl⟩

theorem updateStock_nonneg (db : Db) (req : StockReq) (h : stockNonneg db) :
    stockNonneg (updateStock db req).2 ∧ (updateStock db req).2.users = db.users := by
  unfold updateStock
  cases req.stock with
  | none => exact ⟨h, rfl⟩
  | some stock =>
    cases db.products req.id with
    | none => exact ⟨h, rfl⟩
    | some product =>
      dsimp only
      by_cases hv : validateProduct
          { product with stock := stockAfter req.operation product.stock stock } = true
      · simp only [hv, if_true]
        refine ⟨?_, trivial⟩
        intro q p hp
        simp only at hp
        by_cases hq : q = req.id
        · simp only [hq, if_true, Option.some.injEq] at hp
          unfold validateProduct at hv
          simp only [Bool.and_eq_true, decide_eq_true_eq] at hv
          rw [← hp]
          exact hv.2
        · simp only [hq, if_false] at hp
          exact h q p hp
      · simp only [hv, Bool.false_eq_true, if_false]
        exact ⟨h, trivial⟩

/-- One request keeps stock non-negative and carts free of repeated products,
provided carts were free of repeated products before. -/
theorem step_stockNonneg (db : Db) (op : Op) (hs : stockNonneg db) (hc : cartsDistinct db) :
    stockNonneg (step db op) ∧ cartsDistinct (step db op) := by
  cases op with
  | create f req =>
    simp only [step]
    rcases createOrder_cases f db req with h | ⟨address, user, items, sub, hU, hK, _, _, hP, hUs⟩
    · rw [h]; exact ⟨hs, hc⟩
    · constructor
      · intro q p hp
        rw [hP] at hp
        refine decrementStock_nonneg f user.cart 0 db.products ?_ (hc _ _ hU) hs q p hp
        intro c hcm p0 hp0
        obtain ⟨p1, hp1, hle⟩ := checkCart_ok_stock db.products user.cart [] 0 _ hK c hcm
        rw [hp0] at hp1
        cases hp1
        exact hle
      · intro u usr hu
        rcases hUs with hUs | hUs
        · rw [hUs] at hu
          exact hc u usr hu
        · rw [hUs] at hu
          by_cases hreq : u = req.userId
          · simp only [hreq, if_true, Option.some.injEq] at hu
            rw [← hu]
            exact List.nodup_nil
          · simp only [hreq, if_false] at hu
            exact hc u usr hu
  | cancel req =>
    simp only [step]
    rcases cancelOrder_cases db req with h | ⟨o, hv, hP, hUs⟩
    · rw [h]; exact ⟨hs, hc⟩
    · constructor
      · intro q p hp
        rw [hP] at hp
        exact restoreStock_nonneg o.items db.products (validateOrder_items { o with status := "cancelled" } hv) hs q p hp
      · intro u usr hu
        rw [hUs] at hu
        exact hc u usr hu
  | adminUpdate req =>
    simp only [step]
    obtain ⟨hP, hUs⟩ := adminUpdateOrder_frame db req
    constructor
    · intro q p hp
      rw [hP] at hp
      exact hs q p hp
    · intro u usr hu
      rw [hUs] at hu
      exact hc u usr hu
  | stock req =>
    simp only [step]
    obtain ⟨hN, hUs⟩ := updateStock_nonneg db req hs
    refine ⟨hN, ?_⟩
    intro u usr hu
    rw [hUs] at hu
    exact hc u usr hu

/-- Any sequence of requests keeps stock non-negative when it starts from
non-negative stock and carts with at most one line per product. -/
theorem run_stockNonneg (ops : List Op) :
    ∀ db : Db, stockNonneg db → cartsDistinct db → stockNonneg (run db ops) := by
  induction ops with
  | nil => intro db hs _; exact hs
  | cons op rest ih =>
    intro db hs hc
    obtain ⟨hs1, hc1⟩ := step_stockNonneg db op hs hc
    exact ih (step db op) hs1 hc1

/-! ## Claims on stock, creation and cancellation -/

/-- C1 (code defect): the state with a pen in stock 1, a book in stock 3 and a
cart holding two lines for the pen, each of quantity 1, has non-negative
stock; one `POST /create` passes both per-line stock checks, stores its order
and decrements twice, so the sequence of that single request ends with the
pen at stock -1. -/
theorem createOrder_duplicate_lines_negative_stock :
    stockNonneg (shopWith [⟨1, 1⟩, ⟨1, 1⟩] []) ∧
    (run (shopWith [⟨1, 1⟩, ⟨1, 1⟩] [])
      [Op.create Fault.none (checkout sampleAddress (some "credit_card"))]).orders.length = 1 ∧
    stockOf (run (shopWith [⟨1, 1⟩, ⟨1, 1⟩] [])
      [Op.create Fault.none (checkout sampleAddress (some "credit_card"))]) 1 = some (-1) := by
  refine ⟨?_, by decide!, by decide!⟩
  intro q p h
  by_cases h1 : q = 1
  · subst h1
    have hp : p = pen := by
      simpa [shopWith] using h.symm
    subst hp
    decide
  · by_cases h2 : q = 2
    · subst h2
      have hp : p = book := by
        simpa [shopWith] using h.symm
      subst hp
      decide
    · simp [shopWith, h1, h2] at h

/-- C2: when every cart product is active and some line asks for more than
its product's stock, `POST /create` answers 400 and leaves the database
(orders, every stock, carts) as it was; once the address has passed the
handler's first test, the response is the insufficient-stock message of such
a line. -/
theorem createOrder_insufficient_stock (f : Fault) (db : Db) (req : CreateOrderReq) (u : User)
    (huser : db.users req.userId = some u)
    (hactive : ∀ c ∈ u.cart, ∃ p, db.products c.product = some p ∧ p.isActive = true)
    (hshort : ∃ c ∈ u.cart, ∃ p, db.products c.product = some p ∧ p.stock < c.quantity) :
    (createOrder f db req).2 = db ∧ (createOrder f db req).1.status = 400 ∧
    (addressComplete req.shippingAddress = true →
      ∃ c ∈ u.cart, ∃ p, db.products c.product = some p ∧ p.stock < c.quantity ∧
        (createOrder f db req).1 = failure 400 (insufficientStockMessage p)) := by
  obtain ⟨c, hc, p, hp, hlt, hres⟩ := checkCart_insufficient db.products u.cart [] 0 hactive hshort
  have hne : u.cart.isEmpty = false := by
    cases hcart : u.cart with
    | nil => rw [hcart] at hc; cases hc
    | cons _ _ => rfl
  cases hA : req.shippingAddress with
  | none => simp [createOrder, hA, failure, addressComplete]
  | some address =>
    by_cases haddr : addressComplete (some address) = true
    · refine ⟨?_, ?_, fun _ => ⟨c, hc, p, hp, hlt, ?_⟩⟩ <;>
        simp [createOrder, hA, haddr, huser, hne, hres, failure]
    · simp [createOrder, hA, haddr, failure]

/-- Witness of C2: a cart asking for five books when three are in stock. -/
theorem createOrder_insufficient_stock_witness :
    (createOrder Fault.none (shopWith [⟨1, 1⟩, ⟨2, 5⟩] [])
        (checkout sampleAddress (some "credit_card"))).2 = shopWith [⟨1, 1⟩, ⟨2, 5⟩] [] ∧
    (createOrder Fault.none (shopWith [⟨1, 1⟩, ⟨2, 5⟩] [])
        (checkout sampleAddress (some "credit_card"))).1.status = 400 ∧
    (createOrder Fault.none (shopWith [⟨1, 1⟩, ⟨2, 5⟩] [])
        (checkout sampleAddress (some "credit_card"))).1.message =
      "Insufficient stock for \"Book\". Only 3 available" := by
  have h := createOrder_insufficient_stock Fault.none (shopWith [⟨1, 1⟩, ⟨2, 5⟩] [])
    (checkout sampleAddress (some "credit_card")) { cart := [⟨1, 1⟩, ⟨2, 5⟩] } rfl
    (by
      intro c hc
      simp only [List.mem_cons, List.mem_singleton, List.not_mem_nil, or_false] at hc
      rcases hc with rfl | rfl
      · exact ⟨pen, rfl, rfl⟩
      · exact ⟨book, rfl, rfl⟩)
    ⟨⟨2, 5⟩, by simp, book, rfl, by decide⟩
  exact ⟨h.1, h.2.1, by decide!⟩

/-- Counterexample to C3: one pin priced 0.29.  The stored order has subtotal
0.29, tax 0.02, shippingCost 10, discount 0 and totalAmount
10.309999999999999, the double next below 10.31; it is not
subtotal + tax + shippingCost - discount, neither as the exact sum nor as
JavaScript adds these numbers, which gives 10.31. -/
theorem createOrder_totalAmount_inexact :
    (createOrder Fault.none (pinShop (roundDouble (29 / 100)))
      (checkout sampleAddress (some "credit_card"))).2.orders.map
        (fun o => (o.subtotal, o.tax, o.shippingCost, o.discount, o.totalAmount)) =
      [(roundDouble (29 / 100), roundDouble (2 / 100), 10, 0,
        2902007009886863 / 281474976710656)] ∧
    (2902007009886863 / 281474976710656 : ℚ) ≠
      roundDouble (29 / 100) + roundDouble (2 / 100) + 10 - 0 ∧
    jsSub (jsAdd (jsAdd (roundDouble (29 / 100)) (roundDouble (2 / 100))) 10) 0 =
      roundDouble (1031 / 100) ∧
    (2902007009886863 / 281474976710656 : ℚ) < roundDouble (1031 / 100) := by
  decide!

/-- C3 as amended: the order stored by `POST /create` has discount 0 and its
totalAmount is the double sum `(subtotal + shippingCost) + tax`; this differs
from the exact subtotal + tax + shippingCost - discount by at most that sum
times 2^-51. -/
theorem createOrder_totalAmount (f : Fault) (db : Db) (req : CreateOrderReq)
    (h : createOrderStored f db req) :
    ∃ o, (createOrder f db req).2.orders = db.orders ++ [o] ∧ o.discount = 0 ∧
      o.totalAmount = jsAdd (jsAdd o.subtotal o.shippingCost) o.tax ∧
      |o.totalAmount - (o.subtotal + o.tax + o.shippingCost - o.discount)| ≤
        (o.subtotal + o.tax + o.shippingCost) / 2 ^ 51 := by
  obtain ⟨address, user, orderItems, subtotal, _, _, _, _, _, hv, _, hord⟩ :=
    createOrder_stored f db req h
  obtain ⟨hsub, htax⟩ := validateOrder_money _ hv
  refine ⟨newOrder req address orderItems subtotal, hord, rfl, rfl, ?_⟩
  have hsub2 : 0 ≤ subtotal := hsub
  have hbig : 1 ≤ subtotal + (if subtotal ≥ 100 then (0 : ℚ) else 10) := by
    split <;> linarith
  have hnear := jsAdd_jsAdd_near subtotal (if subtotal ≥ 100 then (0 : ℚ) else 10)
    (newOrder req address orderItems subtotal).tax htax hbig
  have hd : (newOrder req address orderItems subtotal).discount = 0 := rfl
  rw [hd, sub_zero]
  exact hnear

/-- Witness of C3 as amended: a pen and a book ordered by user 7. -/
theorem createOrder_totalAmount_witness :
    createOrderStored Fault.none (shopWith [⟨1, 1⟩, ⟨2, 1⟩] [])
      (checkout sampleAddress (some "credit_card")) ∧
    ∃ o, (createOrder Fault.none (shopWith [⟨1, 1⟩, ⟨2, 1⟩] [])
        (checkout sampleAddress (some "credit_card"))).2.orders = [] ++ [o] ∧ o.discount = 0 ∧
      o.totalAmount = jsAdd (jsAdd o.subtotal o.shippingCost) o.tax ∧
      |o.totalAmount - (o.subtotal + o.tax + o.shippingCost - o.discount)| ≤
        (o.subtotal + o.tax + o.shippingCost) / 2 ^ 51 :=
  ⟨by unfold createOrderStored; decide!,
   createOrder_totalAmount Fault.none (shopWith [⟨1, 1⟩, ⟨2, 1⟩] [])
    (checkout sampleAddress (some "credit_card")) (by unfold createOrderStored; decide!)⟩

/-- C4: cancelling a pending, schema-valid order of the requester answers 200
and raises the stock of every product by the quantity the order holds of it;
and cancelling the order stored by a `POST /create` that made all of its
writes answers 200 and returns every product's stock to its value before the
creation. -/
theorem cancelOrder_restores_stock :
    (∀ (db : Db) (req : CancelReq) (o : Order),
      db.orders.find? (fun x => x._id == req.orderId && x.user == req.userId) = some o →
      o.status = "pending" → validateOrder o = true →
      (cancelOrder db req).1.status = 200 ∧
      ∀ q, stockOf (cancelOrder db req).2 q =
        (stockOf db q).map (fun s => s + orderedQuantity o.items q)) ∧
    (∀ (f : Fault) (db : Db) (req : CreateOrderReq) (now : JsDate),
      createOrderCompleted f db req →
      (cancelOrder (createOrder f db req).2
        { orderId := req.newId, userId := req.userId, now := now }).1.status = 200 ∧
      ∀ q, stockOf (cancelOrder (createOrder f db req).2
        { orderId := req.newId, userId := req.userId, now := now }).2 q = stockOf db q) := by
  refine ⟨cancelOrder_pending, ?_⟩
  intro f db req now h
  obtain ⟨address, user, orderItems, subtotal, _, _, _, _, hcheck, hvalid, hfresh, hord,
    hstock, _⟩ := createOrder_completed f db req h
  have hfind := find_append_created db.orders (newOrder req address orderItems subtotal) hfresh
  rw [← hord] at hfind
  have hc := cancelOrder_pending (createOrder f db req).2
    { orderId := req.newId, userId := req.userId, now := now }
    (newOrder req address orderItems subtotal) hfind rfl hvalid
  refine ⟨hc.1, fun q => ?_⟩
  rw [hc.2 q, hstock q, Option.map_map]
  have hq := checkCart_quantity db.products user.cart [] 0 orderItems subtotal hcheck q
  have hitems : (newOrder req address orderItems subtotal).items = orderItems := rfl
  rw [hitems, hq]
  cases stockOf db q with
  | none => rfl
  | some s => simp [orderedQuantity]

/-- Witness of C4: cancelling a stored order for two books, and cancelling an
order just created for a pen and a book. -/
theorem cancelOrder_restores_stock_witness :
    createOrderCompleted Fault.none (shopWith [⟨1, 1⟩, ⟨2, 1⟩] [])
      (checkout sampleAddress (some "credit_card")) ∧
    ((cancelOrder (shopWith [] [storedOrder 50 "ORD1" "pending"])
        { orderId := 50, userId := 7, now := sampleDate }).1.status = 200 ∧
      ∀ q, stockOf (cancelOrder (shopWith [] [storedOrder 50 "ORD1" "pending"])
          { orderId := 50, userId := 7, now := sampleDate }).2 q =
        (stockOf (shopWith [] [storedOrder 50 "ORD1" "pending"]) q).map
          (fun s => s + orderedQuantity (storedOrder 50 "ORD1" "pending").items q)) ∧
    ((cancelOrder (createOrder Fault.none (shopWith [⟨1, 1⟩, ⟨2, 1⟩] [])
          (checkout sampleAddress (some "credit_card"))).2
        { orderId := 100, userId := 7, now := sampleDate }).1.status = 200 ∧
      ∀ q, stockOf (cancelOrder (createOrder Fault.none (shopWith [⟨1, 1⟩, ⟨2, 1⟩] [])
          (checkout sampleAddress (some "credit_card"))).2
        { orderId := 100, userId := 7, now := sampleDate }).2 q =
        stockOf (shopWith [⟨1, 1⟩, ⟨2, 1⟩] []) q) :=
  ⟨by unfold createOrderCompleted; decide!,
   cancelOrder_restores_stock.1 (shopWith [] [storedOrder 50 "ORD1" "pending"])
      { orderId := 50, userId := 7, now := sampleDate } (storedOrder 50 "ORD1" "pending")
      (by decide!) (by decide) (by decide!),
   cancelOrder_restores_stock.2 Fault.none (shopWith [⟨1, 1⟩, ⟨2, 1⟩] [])
      (checkout sampleAddress (some "credit_card")) sampleDate
      (by unfold createOrderCompleted; decide!)⟩

/-- C5: the cancel route applied by the owner to an order whose status is
`cancelled` answers 400 (only pending orders can be cancelled) and leaves the
database unchanged: every stock, the order's status and its statusHistory.  So
after one successful cancellation a second one is rejected and changes
nothing: the stock is credited once. -/
theorem cancelOrder_cancelled_rejected :
    (∀ (db : Db) (req : CancelReq) (o : Order),
      db.orders.find? (fun x => x._id == req.orderId && x.user == req.userId) = some o →
      o.status = "cancelled" →
      cancelOrder db req = (failure 400 "Only pending orders can be cancelled", db)) ∧
    (∀ (db : Db) (req : CancelReq) (o : Order) (later : JsDate),
      db.orders.find? (fun x => x._id == req.orderId && x.user == req.userId) = some o →
      o.status = "pending" → validateOrder o = true →
      cancelOrder (cancelOrder db req).2
          { orderId := req.orderId, userId := req.userId, now := later } =
        (failure 400 "Only pending orders can be cancelled", (cancelOrder db req).2)) := by
  have first : ∀ (db : Db) (req : CancelReq) (o : Order),
      db.orders.find? (fun x => x._id == req.orderId && x.user == req.userId) = some o →
      o.status = "cancelled" →
      cancelOrder db req = (failure 400 "Only pending orders can be cancelled", db) := by
    intro db req o hfind hst
    have hne : (o.status != "pending") = true := by rw [hst]; decide
    simp [cancelOrder, hfind, hne]
  refine ⟨first, ?_⟩
  intro db req o later hfind hst hv
  have hs := orderSave_existing db.orders req.now true _ (validateOrder_cancelled o hv)
  have hpred := List.find?_some hfind
  have hsaved : ((preSaveStatusHistory req.now false true { o with status := "cancelled" })._id
        == req.orderId &&
      (preSaveStatusHistory req.now false true { o with status := "cancelled" }).user
        == req.userId) = true := by
    simpa [preSaveStatusHistory] using hpred
  have hfind2 := find_after_replace
    (preSaveStatusHistory req.now false true { o with status := "cancelled" }) o
    req.orderId req.userId hsaved db.orders hfind
  have hdb : (cancelOrder db req).2.orders =
      db.orders.map (fun x => if x._id = o._id then
        preSaveStatusHistory req.now false true { o with status := "cancelled" } else x) := by
    simp [cancelOrder, hfind, hst, hs]
  rw [← hdb] at hfind2
  exact first (cancelOrder db req).2
    { orderId := req.orderId, userId := req.userId, now := later } _ hfind2
    (by simp [preSaveStatusHistory])

/-- Witness of C5: a cancelled order, and a pending order cancelled twice. -/
theorem cancelOrder_cancelled_rejected_witness :
    cancelOrder (shopWith [] [storedOrder 50 "ORD1" "cancelled"])
        { orderId := 50, userId := 7, now := sampleDate } =
      (failure 400 "Only pending orders can be cancelled",
        shopWith [] [storedOrder 50 "ORD1" "cancelled"]) ∧
    cancelOrder (cancelOrder (shopWith [] [storedOrder 50 "ORD1" "pending"])
          { orderId := 50, userId := 7, now := sampleDate }).2
        { orderId := 50, userId := 7, now := sampleDate } =
      (failure 400 "Only pending orders can be cancelled",
        (cancelOrder (shopWith [] [storedOrder 50 "ORD1" "pending"])
          { orderId := 50, userId := 7, now := sampleDate }).2) :=
  ⟨cancelOrder_cancelled_rejected.1 (shopWith [] [storedOrder 50 "ORD1" "cancelled"])
      { orderId := 50, userId := 7, now := sampleDate } (storedOrder 50 "ORD1" "cancelled")
      (by decide!) (by decide),
   cancelOrder_cancelled_rejected.2 (shopWith [] [storedOrder 50 "ORD1" "pending"])
      { orderId := 50, userId := 7, now := sampleDate } (storedOrder 50 "ORD1" "pending")
      sampleDate (by decide!) (by decide) (by decide!)⟩

/-- Counterexample to C6: `pending` is not reachable from `delivered` by an
allowed edge, yet the admin route does not reject the request as an invalid
transition and saves the order: the stored status becomes `pending` and one
history entry is appended. -/
theorem adminUpdateOrder_delivered_to_pending :
    specAllowedEdge "delivered" "pending" = false ∧
    (adminUpdateOrder (shopWith [] [storedOrder 50 "ORD1" "delivered"])
      { orderId := 50, status := some "pending", paymentStatus := none,
        trackingNumber := none, now := sampleDate }).1.message ≠ "Invalid status" ∧
    (adminUpdateOrder (shopWith [] [storedOrder 50 "ORD1" "delivered"])
      { orderId := 50, status := some "pending", paymentStatus := none,
        trackingNumber := none, now := sampleDate }).2.orders.map (fun o => o.status) =
      ["pending"] ∧
    (storedOrder 50 "ORD1" "delivered").statusHistory.length = 0 ∧
    (adminUpdateOrder (shopWith [] [storedOrder 50 "ORD1" "delivered"])
      { orderId := 50, status := some "pending", paymentStatus := none,
        trackingNumber := none, now := sampleDate }).2.orders.map
        (fun o => o.statusHistory.length) = [1] := by
  decide!

/-- C6 as amended: the admin route rejects a requested status only when it is
non-empty and outside its list `validStatuses`; it then answers 400
`Invalid status` and leaves the database, hence the order's status and
statusHistory, unchanged, whatever the current status is. -/
theorem adminUpdateOrder_invalid_status (db : Db) (req : UpdateReq)
    (hreq : truthy req.status = true)
    (hbad : validStatuses.contains (req.status.getD "") = false) :
    adminUpdateOrder db req = (failure 400 "Invalid status", db) := by
  unfold adminUpdateOrder
  rw [hreq, hbad]
  rfl

/-- Witness of C6 as amended: the status `refunded` is not in the route's list. -/
theorem adminUpdateOrder_invalid_status_witness :
    adminUpdateOrder (shopWith [] [storedOrder 50 "ORD1" "delivered"])
        { orderId := 50, status := some "refunded", paymentStatus := none,
          trackingNumber := none, now := sampleDate } =
      (failure 400 "Invalid status", shopWith [] [storedOrder 50 "ORD1" "delivered"]) :=
  adminUpdateOrder_invalid_status (shopWith [] [storedOrder 50 "ORD1" "delivered"])
    { orderId := 50, status := some "refunded", paymentStatus := none,
      trackingNumber := none, now := sampleDate } (by decide) (by decide)

/-- C7 (code defect): the admin route moves a pending order for two books to
`cancelled` and saves it, but the stock of books stays 3, whereas the cancel
route on the same order raises it to 5. -/
theorem adminUpdateOrder_cancel_keeps_stock :
    stockOf (shopWith [] [storedOrder 50 "ORD1" "pending"]) 2 = some 3 ∧
    (adminUpdateOrder (shopWith [] [storedOrder 50 "ORD1" "pending"])
      { orderId := 50, status := some "cancelled", paymentStatus := none,
        trackingNumber := none, now := sampleDate }).2.orders.map (fun o => o.status) =
      ["cancelled"] ∧
    stockOf (adminUpdateOrder (shopWith [] [storedOrder 50 "ORD1" "pending"])
      { orderId := 50, status := some "cancelled", paymentStatus := none,
        trackingNumber := none, now := sampleDate }).2 2 = some 3 ∧
    stockOf (cancelOrder (shopWith [] [storedOrder 50 "ORD1" "pending"])
      { orderId := 50, userId := 7, now := sampleDate }).2 2 = some 5 := by
  decide!

/-- Counterexample to C8: when the second stock update throws, the route
answers 500 but the order stays stored, the pen's stock has gone from 1 to 0,
and the cart is still full. -/
theorem createOrder_stock_fault_keeps_order :
    (createOrder (Fault.stockUpdate 1) (shopWith [⟨1, 1⟩, ⟨2, 1⟩] [])
      (checkout sampleAddress (some "credit_card"))).1.status = 500 ∧
    (shopWith [⟨1, 1⟩, ⟨2, 1⟩] []).orders.length = 0 ∧
    (createOrder (Fault.stockUpdate 1) (shopWith [⟨1, 1⟩, ⟨2, 1⟩] [])
      (checkout sampleAddress (some "credit_card"))).2.orders.length = 1 ∧
    stockOf (shopWith [⟨1, 1⟩, ⟨2, 1⟩] []) 1 = some 1 ∧
    stockOf (createOrder (Fault.stockUpdate 1) (shopWith [⟨1, 1⟩, ⟨2, 1⟩] [])
      (checkout sampleAddress (some "credit_card"))).2 1 = some 0 ∧
    (createOrder (Fault.stockUpdate 1) (shopWith [⟨1, 1⟩, ⟨2, 1⟩] [])
      (checkout sampleAddress (some "credit_card"))).2.users 7 =
      some { cart := [⟨1, 1⟩, ⟨2, 1⟩] } := by
  decide!

/-- C8 as amended: when `POST /create` fails before any write, nothing is
written.  A run answered with status 400 (the address, cart, availability and
stock checks), a run whose `order.save()` throws, and every run that stores
no order (a save rejected by validation or by a unique index included) leave
the database, hence every stock and cart, as it was. -/
theorem createOrder_failure_before_write (f : Fault) (db : Db) (req : CreateOrderReq) :
    ((createOrder f db req).1.status = 400 → (createOrder f db req).2 = db) ∧
    (f = Fault.orderSave → (createOrder f db req).2 = db) ∧
    ((createOrder f db req).2.orders = db.orders → (createOrder f db req).2 = db) := by
  have hshape := createOrder_shape f db req
  refine ⟨?_, ?_, ?_⟩
  · intro h
    unfold createOrder at h ⊢
    cases hA : req.shippingAddress with
    | none => rfl
    | some address =>
      simp only [hA] at h ⊢
      by_cases hc : addressComplete (some address) = true
      · simp only [hc, Bool.not_true, Bool.false_eq_true, if_false] at h ⊢
        cases hU : db.users req.userId with
        | none => rfl
        | some user =>
          simp only [hU] at h ⊢
          by_cases he : user.cart.isEmpty = true
          · simp [he]
          · simp only [he, Bool.false_eq_true, if_false] at h ⊢
            cases hK : checkCart db.products user.cart [] 0 with
            | error r => rfl
            | ok res =>
              obtain ⟨orderItems, subtotal⟩ := res
              simp only [hK] at h ⊢
              by_cases hf : f = Fault.orderSave
              · simp [hf]
              · simp only [hf, if_false] at h ⊢
                cases hS : orderSave db.orders req.now true true
                    (newOrder req address orderItems subtotal) with
                | none => rfl
                | some pr =>
                  obtain ⟨orders1, saved⟩ := pr
                  simp only [hS] at h ⊢
                  cases hD : decrementStock f 0 user.cart db.products with
                  | mk products2 flag =>
                    cases flag with
                    | false => simp [hD, failure] at h
                    | true =>
                      simp only [hD] at h
                      by_cases hu : f = Fault.userSave
                      · simp [hu, failure] at h
                      · simp only [hu, if_false] at h
                        rcases createdResponse_status _ _ with h5 | h2
                        · rw [h5] at h
                          omega
                        · rw [h2] at h
                          omega
      · simp [hc]
  · intro hf
    rcases hshape with hdb | ⟨address, user, orderItems, subtotal, hA, hc, hU, he, hK, _, _,
      hord, _, _⟩
    · exact hdb
    · exfalso
      have hlen := congrArg List.length hord
      unfold createOrder at hlen
      simp [hA, hc, hU, he, hK, hf] at hlen
  · intro h
    rcases hshape with hdb | ⟨address, user, orderItems, subtotal, _, _, _, _, _, _, _, hord,
      _, _⟩
    · exact hdb
    · exfalso
      rw [hord] at h
      have hlen := congrArg List.length h
      simp at hlen

/-- Witness of C8 as amended: a cart asking for five books when three are in
stock (status 400), an order save that throws, and a request without payment
method, whose order the schema rejects. -/
theorem createOrder_failure_before_write_witness :
    (createOrder Fault.none (shopWith [⟨1, 1⟩, ⟨2, 5⟩] [])
        (checkout sampleAddress (some "credit_card"))).2 = shopWith [⟨1, 1⟩, ⟨2, 5⟩] [] ∧
    (createOrder Fault.orderSave (shopWith [⟨1, 1⟩, ⟨2, 1⟩] [])
        (checkout sampleAddress (some "credit_card"))).2 = shopWith [⟨1, 1⟩, ⟨2, 1⟩] [] ∧
    (createOrder Fault.none (shopWith [⟨1, 1⟩, ⟨2, 1⟩] [])
        (checkout sampleAddress none)).2 = shopWith [⟨1, 1⟩, ⟨2, 1⟩] [] :=
  ⟨(createOrder_failure_before_write Fault.none (shopWith [⟨1, 1⟩, ⟨2, 5⟩] [])
      (checkout sampleAddress (some "credit_card"))).1 (by decide!),
   (createOrder_failure_before_write Fault.orderSave (shopWith [⟨1, 1⟩, ⟨2, 1⟩] [])
      (checkout sampleAddress (some "credit_card"))).2.1 rfl,
   (createOrder_failure_before_write Fault.none (shopWith [⟨1, 1⟩, ⟨2, 1⟩] [])
      (checkout sampleAddress none)).2.2 (by decide!)⟩

/-- C9 (code defect): with stock and a complete address, `POST /create`
without a payment method answers 500 and stores nothing, because the default
`pending` is not a member of the schema's paymentMethod enum; so does a
request whose address holds the five fields the route asks for but no first
and last name.  The order of the same cart is stored once both are
supplied. -/
theorem createOrder_default_payment_rejected :
    (createOrder Fault.none (shopWith [⟨1, 1⟩] []) (checkout sampleAddress none)).1 =
      failure 500 "Server error while creating order" ∧
    (createOrder Fault.none (shopWith [⟨1, 1⟩] []) (checkout sampleAddress none)).2.orders =
      [] ∧
    (createOrder Fault.none (shopWith [⟨1, 1⟩] [])
      (checkout bareAddress (some "credit_card"))).1 =
      failure 500 "Server error while creating order" ∧
    (createOrder Fault.none (shopWith [⟨1, 1⟩] [])
      (checkout bareAddress (some "credit_card"))).2.orders = [] ∧
    (createOrder Fault.none (shopWith [⟨1, 1⟩] [])
      (checkout sampleAddress (some "credit_card"))).2.orders.length = 1 := by
  decide!

/-- C10 (code defect): the numbering hook is written to give a new order
without an order number the number it generates, but `save()` rejects such an
order, whatever the stored orders and the date are: validation, where
`orderNumber` is required, runs before the pre-save hooks, so nothing is
written and no number is generated. -/
theorem orderSave_generates_no_number :
    (∀ (orders : List Order) (d : JsDate) (o : Order),
      (preSaveOrderNumber orders d true { o with orderNumber := "" }).orderNumber =
        generateOrderNumber orders d) ∧
    (∀ (orders : List Order) (d : JsDate) (sm : Bool) (o : Order),
      orderSave orders d true sm { o with orderNumber := "" } = none) ∧
    orderSave [] sampleDate true false (storedOrder 1 "" "pending") = none ∧
    (storedOrder 1 "ORD1" "pending").orderNumber = "ORD1" ∧
    (orderSave [] sampleDate true false (storedOrder 1 "ORD1" "pending")).map
      (fun r => r.1.map (fun o => o.orderNumber)) = some ["ORD1"] := by
  refine ⟨?_, ?_, by decide!, rfl, by decide!⟩
  · intro orders d o
    simp [preSaveOrderNumber]
  · intro orders d sm o
    simp [orderSave, validateOrder]

/-- The computation of the numbering hook, taken on its own: on 2024-01-01 it
follows `ORD-20240101998` with `...999` and then `...1000`, and with `...999`
and `...1000` both stored it builds `ORD-202401011000` again. -/
theorem generateOrderNumber_repeats :
    generateOrderNumber [storedOrder 1 "ORD-20240101998" "pending"] sampleDate =
      "ORD-20240101999" ∧
    generateOrderNumber [storedOrder 1 "ORD-20240101998" "pending",
      storedOrder 2 "ORD-20240101999" "pending"] sampleDate = "ORD-202401011000" ∧
    generateOrderNumber [storedOrder 1 "ORD-20240101998" "pending",
      storedOrder 2 "ORD-20240101999" "pending",
      storedOrder 3 "ORD-202401011000" "pending"] sampleDate = "ORD-202401011000" := by
  decide!

/-! ## Lemmas on the order built by the create route -/

theorem checkCart_ok_snapshot (ps : ObjectId → Option Product) :
    ∀ (cart : List CartItem) (acc : List OrderItem) (sub : ℚ) (items : List OrderItem) (s : ℚ),
      checkCart ps cart acc sub = .ok (items, s) →
      ∃ fresh, items = acc ++ fresh ∧ List.Forall₂ (snapshotOf ps) cart fresh ∧
        s = fresh.foldl (fun sum item => jsAdd sum item.total) sub := by
  intro cart
  induction cart with
  | nil =>
    intro acc sub items s h
    simp only [checkCart, Except.ok.injEq, Prod.mk.injEq] at h
    exact ⟨[], by simp [h.1], List.Forall₂.nil, by simp [h.2]⟩
  | cons c rest ih =>
    intro acc sub items s h
    unfold checkCart at h
    split at h
    · cases h
    · rename_i p hp
      split at h
      · cases h
      · rename_i hact
        split at h
        · cases h
        · rename_i hlt
          obtain ⟨fresh, hitems, hall, hs⟩ := ih _ _ _ _ h
          refine ⟨{ product := c.product, name := p.name, price := p.price,
                    quantity := c.quantity, total := jsMul p.price (c.quantity : ℚ) } :: fresh,
            ?_, List.Forall₂.cons ?_ hall, ?_⟩
          · rw [hitems, List.append_assoc]
            rfl
          · refine ⟨rfl, rfl, p, hp, ?_, not_lt.mp hlt, rfl, rfl, rfl⟩
            simpa using hact
          · rw [hs, List.foldl_cons]

theorem checkCart_ok_of_available (ps : ObjectId → Option Product) :
    ∀ (cart : List CartItem) (acc : List OrderItem) (sub : ℚ),
      (∀ c ∈ cart, ∃ p, ps c.product = some p ∧ p.isActive = true ∧ c.quantity ≤ p.stock) →
      ∃ items s, checkCart ps cart acc sub = .ok (items, s) := by
  intro cart
  induction cart with
  | nil =>
    intro acc sub _
    exact ⟨acc, sub, rfl⟩
  | cons c rest ih =>
    intro acc sub h
    obtain ⟨p, hp, hact, hle⟩ := h c (List.mem_cons_self _ _)
    obtain ⟨items, s, hres⟩ := ih
      (acc ++ [{ product := c.product, name := p.name, price := p.price,
                 quantity := c.quantity, total := jsMul p.price (c.quantity : ℚ) }])
      (jsAdd sub (jsMul p.price (c.quantity : ℚ))) (fun x hx => h x (List.mem_cons_of_mem _ hx))
    refine ⟨items, s, ?_⟩
    unfold checkCart
    simp only [hp, hact, Bool.not_true, Bool.false_eq_true, if_false, not_lt.mpr hle]
    exact hres

theorem truthy_of_required_trim (x : Option String) (h : requiredStr (trimOpt x) = true) :
    truthy x = true := by
  cases x with
  | none => simp [trimOpt, requiredStr] at h
  | some s =>
    simp only [trimOpt, Option.map_some', requiredStr, bne_iff_ne, ne_eq] at h
    simp only [truthy, bne_iff_ne, ne_eq]
    intro hs
    apply h
    rw [hs]
    rfl

theorem addressComplete_of_valid (a : ShippingAddress) (h : validAddress (castAddress a) = true) :
    addressComplete (some a) = true := by
  simp only [validAddress, castAddress, Bool.and_eq_true] at h
  obtain ⟨⟨⟨⟨⟨⟨_, _⟩, h3⟩, h4⟩, h5⟩, h6⟩, h7⟩ := h
  simp only [addressComplete, Bool.and_eq_true]
  exact ⟨⟨⟨⟨truthy_of_required_trim _ h3, truthy_of_required_trim _ h4⟩,
    truthy_of_required_trim _ h5⟩, truthy_of_required_trim _ h6⟩, truthy_of_required_trim _ h7⟩

theorem mathRound_nonneg (x : ℚ) (h : 0 ≤ x) : 0 ≤ mathRound x := by
  unfold mathRound
  apply Int.floor_nonneg.mpr
  linarith

theorem newOrder_tax_nonneg (subtotal : ℚ) (h : 0 ≤ subtotal) :
    0 ≤ jsDiv ((mathRound (jsMul (jsMul subtotal (roundDouble (8 / 100))) 100) : Int) : ℚ)
      100 := by
  unfold jsDiv jsMul
  have h1 : 0 ≤ roundDouble (8 / 100) := roundDouble_nonneg _ (by norm_num)
  have h2 : 0 ≤ roundDouble (subtotal * roundDouble (8 / 100)) :=
    roundDouble_nonneg _ (mul_nonneg h h1)
  have h3 : 0 ≤ roundDouble (roundDouble (subtotal * roundDouble (8 / 100)) * 100) :=
    roundDouble_nonneg _ (by linarith)
  have h4 := mathRound_nonneg _ h3
  have h5 : (0 : ℚ) ≤
      ((mathRound (roundDouble (roundDouble (subtotal * roundDouble (8 / 100)) * 100)) : Int) :
        ℚ) := by
    exact_mod_cast h4
  exact roundDouble_nonneg _ (by positivity)

theorem routeOrderNumber_ne_empty (t r : String) : (jsToUpper ("ORD" ++ t ++ r) != "") = true := by
  simp only [bne_iff_ne, ne_eq, jsToUpper]
  intro h
  have := congrArg String.data h
  simp at this

theorem foldl_total_nonneg (items : List OrderItem) :
    ∀ start : ℚ, 0 ≤ start → (∀ i ∈ items, 0 ≤ i.total) →
      0 ≤ items.foldl (fun sum item => jsAdd sum item.total) start := by
  induction items with
  | nil => intro start h _; exact h
  | cons i rest ih =>
    intro start h hall
    rw [List.foldl_cons]
    apply ih
    · exact roundDouble_nonneg _ (add_nonneg h (hall i (List.mem_cons_self _ _)))
    · intro x hx
      exact hall x (List.mem_cons_of_mem _ hx)

theorem snapshot_total_nonneg (ps : ObjectId → Option Product) :
    ∀ (cart : List CartItem) (fresh : List OrderItem),
      List.Forall₂ (snapshotOf ps) cart fresh →
      (∀ c ∈ cart, ∀ p, ps c.product = some p → 0 ≤ p.price ∧ 0 ≤ c.quantity) →
      ∀ i ∈ fresh, 0 ≤ i.total := by
  intro cart fresh hall
  induction hall with
  | nil => intro _ i hi; cases hi
  | @cons c i rest restItems h1 _ ih =>
    intro hpos x hx
    rcases List.mem_cons.mp hx with heq | hmem
    · subst heq
      obtain ⟨_, _, p, hp, _, _, _, _, ht⟩ := h1
      obtain ⟨hprice, hq⟩ := hpos c (List.mem_cons_self _ _) p hp
      have hq2 : (0 : ℚ) ≤ (c.quantity : ℚ) := by exact_mod_cast hq
      rw [ht]
      exact roundDouble_nonneg _ (mul_nonneg hprice hq2)
    · exact ih (fun y hy => hpos y (List.mem_cons_of_mem _ hy)) x hmem

theorem all_validItem (ps : ObjectId → Option Product) :
    ∀ (cart : List CartItem) (fresh : List OrderItem),
      List.Forall₂ (snapshotOf ps) cart fresh →
      (∀ c ∈ cart, ∀ p, ps c.product = some p → p.name ≠ "" ∧ 1 ≤ c.quantity) →
      fresh.all validItem = true := by
  intro cart fresh hall
  induction hall with
  | nil => intro _; rfl
  | @cons c i rest restItems h1 _ ih =>
    intro hpos
    obtain ⟨_, hq, p, hp, _, _, hn, _, _⟩ := h1
    obtain ⟨hname, hone⟩ := hpos c (List.mem_cons_self _ _) p hp
    have hrest := ih (fun x hx => hpos x (List.mem_cons_of_mem _ hx))
    simp only [List.all_cons, Bool.and_eq_true, hrest, and_true, validItem, bne_iff_ne, ne_eq,
      decide_eq_true_eq]
    rw [hn, hq]
    exact ⟨hname, hone⟩

theorem validateOrder_newOrder (req : CreateOrderReq) (address : ShippingAddress)
    (items : List OrderItem) (subtotal : ℚ)
    (hitems : items.all validItem = true) (hsub : 0 ≤ subtotal)
    (hpm : paymentMethodEnum.contains (req.paymentMethod.getD "pending") = true)
    (haddr : validAddress (castAddress address) = true) :
    validateOrder (newOrder req address items subtotal) = true := by
  have htax := newOrder_tax_nonneg subtotal hsub
  have hship : (0 : ℚ) ≤ (if subtotal ≥ 100 then (0 : ℚ) else 10) := by
    split <;> norm_num
  have htotal : 0 ≤ jsAdd (jsAdd subtotal (if subtotal ≥ 100 then (0 : ℚ) else 10))
      (jsDiv ((mathRound (jsMul (jsMul subtotal (roundDouble (8 / 100))) 100) : Int) : ℚ)
        100) := by
    unfold jsAdd
    have h1 : 0 ≤ roundDouble (subtotal + (if subtotal ≥ 100 then (0 : ℚ) else 10)) :=
      roundDouble_nonneg _ (add_nonneg hsub hship)
    exact roundDouble_nonneg _ (add_nonneg h1 htax)
  simp only [validateOrder, newOrder, Bool.and_eq_true, decide_eq_true_eq]
  exact ⟨⟨⟨⟨⟨⟨⟨⟨⟨⟨⟨routeOrderNumber_ne_empty _ _, hitems⟩, hsub⟩, htax⟩, hship⟩,
    le_refl _⟩, htotal⟩, by decide⟩, by decide⟩, hpm⟩, haddr⟩, rfl⟩

/-- Conditions under which `POST /create` makes all of its writes. -/
theorem createOrder_succeeds (db : Db) (req : CreateOrderReq) (address : ShippingAddress)
    (user : User)
    (hA : req.shippingAddress = some address)
    (haddr : validAddress (castAddress address) = true)
    (hpm : paymentMethodEnum.contains (req.paymentMethod.getD "pending") = true)
    (hU : db.users req.userId = some user) (hne : user.cart ≠ [])
    (hlines : ∀ c ∈ user.cart, ∃ p, db.products c.product = some p ∧ p.isActive = true ∧
      c.quantity ≤ p.stock ∧ p.name ≠ "" ∧ 0 ≤ p.price ∧ 1 ≤ c.quantity)
    (hfresh : db.orders.any (fun x => x._id == req.newId ||
      x.orderNumber == jsToUpper ("ORD" ++ toString req.now.time ++ req.random)) = false) :
    createOrderCompleted Fault.none db req := by
  obtain ⟨items, s, hK⟩ := checkCart_ok_of_available db.products user.cart [] 0
    (fun c hc => by
      obtain ⟨p, hp, ha, hl, _⟩ := hlines c hc
      exact ⟨p, hp, ha, hl⟩)
  obtain ⟨fresh, hitems, hall, hs⟩ := checkCart_ok_snapshot _ _ _ _ _ _ hK
  simp only [List.nil_append] at hitems
  subst hitems
  have hv : validateOrder (newOrder req address items s) = true := by
    apply validateOrder_newOrder _ _ _ _ _ _ hpm haddr
    · apply all_validItem db.products user.cart items hall
      intro c hc p hp
      obtain ⟨p2, hp2, _, _, hn, _, hq⟩ := hlines c hc
      rw [hp] at hp2
      cases hp2
      exact ⟨hn, hq⟩
    · rw [hs]
      apply foldl_total_nonneg items 0 (le_refl 0)
      apply snapshot_total_nonneg db.products user.cart items hall
      intro c hc p hp
      obtain ⟨p2, hp2, _, _, _, hprice, hq⟩ := hlines c hc
      rw [hp] at hp2
      cases hp2
      exact ⟨hprice, by omega⟩
  have hcart : user.cart.isEmpty = false := by
    cases hc : user.cart with
    | nil => exact absurd hc hne
    | cons _ _ => rfl
  have hsave : orderSave db.orders req.now true true (newOrder req address items s) =
      some (db.orders ++ [newOrder req address items s], newOrder req address items s) := by
    have hn : ((newOrder req address items s).orderNumber == "") = false := by
      have := routeOrderNumber_ne_empty (toString req.now.time) req.random
      simp only [bne_iff_ne, ne_eq] at this
      simpa [newOrder] using this
    have hf : db.orders.any (fun x => x._id == (newOrder req address items s)._id ||
        x.orderNumber == (newOrder req address items s).orderNumber) = false := hfresh
    simp only [orderSave, hv, if_true, preSaveOrderNumber, hn, Bool.and_false,
      Bool.false_eq_true, if_false, preSaveStatusHistory, Bool.not_true, writeOrder, hf,
      Option.map_some']
  have hflag := decrementStock_none user.cart 0 db.products
  unfold createOrderCompleted createOrder
  simp only [hA, addressComplete_of_valid address haddr, Bool.not_true, Bool.false_eq_true,
    if_false, hU, hcart, hK, reduceCtorEq, hsave]
  cases hD : decrementStock Fault.none 0 user.cart db.products with
  | mk products2 flag =>
    rw [hD] at hflag
    simp only at hflag
    subst hflag
    simp

theorem snapshot_head (ps : ObjectId → Option Product) (cart : List CartItem)
    (items : List OrderItem) (hall : List.Forall₂ (snapshotOf ps) cart items)
    (hne : cart.isEmpty = false) : ∃ i ∈ items, ∃ p, ps i.product = some p := by
  cases hall with
  | nil => simp at hne
  | @cons c i rest restItems h1 _ =>
    obtain ⟨hprod, _, p, hp, _⟩ := h1
    exact ⟨i, List.mem_cons_self _ _, p, by rw [hprod]; exact hp⟩

theorem decrementStock_found (f : Fault) (cart : List CartItem) (ps : ObjectId → Option Product)
    (h : (decrementStock f 0 cart ps).2 = true) (q : ObjectId) (p : Product)
    (hp : ps q = some p) : ∃ p2, (decrementStock f 0 cart ps).1 q = some p2 := by
  have hd := decrementStock_complete f cart 0 ps h q
  rw [hp] at hd
  cases hq : (decrementStock f 0 cart ps).1 q with
  | none => rw [hq] at hd; simp at hd
  | some p2 => exact ⟨p2, rfl⟩

/-- No run of `POST /create` is answered with status 201: the cart of a
stored order is not empty and each of its products was found by the checks,
so the order that the route reads back has an item whose product exists, and
sending it throws. -/
theorem createOrder_never_201 (f : Fault) (db : Db) (req : CreateOrderReq) :
    (createOrder f db req).1.status ≠ 201 := by
  unfold createOrder
  cases hA : req.shippingAddress with
  | none => simp [failure]
  | some address =>
    simp only
    by_cases hc : addressComplete (some address) = true
    · simp only [hc, Bool.not_true, Bool.false_eq_true, if_false]
      cases hU : db.users req.userId with
      | none => simp [failure]
      | some user =>
        simp only
        by_cases he : user.cart.isEmpty = true
        · simp [he, failure]
        · simp only [he, Bool.false_eq_true, if_false]
          cases hK : checkCart db.products user.cart [] 0 with
          | error r =>
            have := checkCart_error_status _ _ _ _ _ hK
            simp only
            omega
          | ok res =>
            obtain ⟨orderItems, subtotal⟩ := res
            simp only
            by_cases hf : f = Fault.orderSave
            · simp [hf, failure]
            · simp only [hf, if_false]
              cases hS : orderSave db.orders req.now true true
                  (newOrder req address orderItems subtotal) with
              | none => simp [failure]
              | some pr =>
                obtain ⟨orders1, saved⟩ := pr
                obtain ⟨hv, hsaved, hos, hfresh⟩ := orderSave_new _ _ _ _ _ _ hS
                subst hsaved hos
                simp only
                cases hD : decrementStock f 0 user.cart db.products with
                | mk products2 flag =>
                  cases flag with
                  | false => simp [failure]
                  | true =>
                    simp only
                    by_cases hu : f = Fault.userSave
                    · simp [hu, failure]
                    · simp only [hu, if_false]
                      obtain ⟨fresh, hitems, hall, _⟩ := checkCart_ok_snapshot _ _ _ _ _ _ hK
                      simp only [List.nil_append] at hitems
                      subst hitems
                      have hthrow : orderJsonThrows products2
                          (some (newOrder req address orderItems subtotal)) = true := by
                        obtain ⟨i, hi, p, hp⟩ := snapshot_head db.products user.cart orderItems
                          hall (by simpa using he)
                        have hflag : (decrementStock f 0 user.cart db.products).2 = true := by
                          rw [hD]
                        obtain ⟨p2, hp2⟩ := decrementStock_found f user.cart db.products hflag
                          i.product p hp
                        rw [hD] at hp2
                        simp only at hp2
                        simp only [orderJsonThrows, newOrder, List.any_eq_true]
                        exact ⟨i, hi, by simp [hp2, primaryImage]⟩
                      simp [createdResponse, find_append_fresh _ _ hfresh, hthrow, failure]
    · simp [hc, failure]

/-! ## Claims on pricing -/

theorem newOrder_default_rejected (req : CreateOrderReq) (address : ShippingAddress)
    (items : List OrderItem) (s : ℚ) (h : req.paymentMethod = none) :
    validateOrder (newOrder req address items s) = false := by
  have hpm : paymentMethodEnum.contains (newOrder req address items s).paymentMethod = false := by
    simp only [newOrder, h, Option.getD_none]
    decide
  unfold validateOrder
  rw [hpm]
  simp

/-- The totals of a stored order for two units at 10.00 and one unit at 5.00. -/
theorem totals_of_scenario (f : Fault) (db : Db) (req : CreateOrderReq)
    (a b : ObjectId) (pa pb : Product)
    (hcart : db.users req.userId = some { cart := [⟨a, 2⟩, ⟨b, 1⟩] })
    (ha : db.products a = some pa) (hpa : pa.price = 10)
    (hb : db.products b = some pb) (hpb : pb.price = 5)
    (h : createOrderStored f db req) :
    ∃ o, (createOrder f db req).2.orders = db.orders ++ [o] ∧
      o.subtotal = 25 ∧ o.tax = 2 ∧ o.shippingCost = 10 ∧ o.discount = 0 ∧
      o.totalAmount = 37 := by
  obtain ⟨address, user, orderItems, subtotal, _, _, hU, _, hK, _, _, hord⟩ :=
    createOrder_stored f db req h
  rw [hcart] at hU
  cases hU
  obtain ⟨fresh, _, hall, hs⟩ := checkCart_ok_snapshot _ _ _ _ _ _ hK
  have hsub : subtotal = 25 := by
    cases hall with
    | cons h1 hrest =>
      cases hrest with
      | cons h2 hnil =>
        cases hnil
        obtain ⟨_, _, p1, hp1, _, _, _, _, ht1⟩ := h1
        obtain ⟨_, _, p2, hp2, _, _, _, _, ht2⟩ := h2
        simp only at hp1 hp2 ht1 ht2
        rw [ha] at hp1
        rw [hb] at hp2
        cases hp1
        cases hp2
        rw [hs]
        simp only [List.foldl_cons, List.foldl_nil, ht1, ht2, hpa, hpb]
        decide!
  subst hsub
  refine ⟨newOrder req address orderItems 25, hord, rfl, ?_, ?_, rfl, ?_⟩
  · simp only [newOrder]
    decide!
  · simp only [newOrder]
    decide!
  · simp only [newOrder]
    decide!

/-- C11 (code defect): for the cart of two units of a product priced 10.00
and one unit of a product priced 5.00, both active and in stock, and an
address that passes the route's test: a request without a payment method is
answered 500 and stores nothing; every order that a request does store has
subtotal 25.00, tax 2.00, shippingCost 10.00, discount 0 and totalAmount
37.00; and the order is stored when the address and the payment method
satisfy the Order schema, the products are named, the order id and number
are unused and no write fails. -/
theorem createOrder_scenario_totals (db : Db) (req : CreateOrderReq) (address : ShippingAddress)
    (a b : ObjectId) (pa pb : Product)
    (hA : req.shippingAddress = some address)
    (hcomplete : addressComplete (some address) = true)
    (hcart : db.users req.userId = some { cart := [⟨a, 2⟩, ⟨b, 1⟩] })
    (ha : db.products a = some pa) (hpa : pa.price = 10) (haa : pa.isActive = true)
    (has : 2 ≤ pa.stock)
    (hb : db.products b = some pb) (hpb : pb.price = 5) (hba : pb.isActive = true)
    (hbs : 1 ≤ pb.stock) :
    (req.paymentMethod = none →
      createOrder Fault.none db req = (failure 500 "Server error while creating order", db)) ∧
    (∀ f : Fault, createOrderStored f db req →
      ∃ o, (createOrder f db req).2.orders = db.orders ++ [o] ∧
        o.subtotal = 25 ∧ o.tax = 2 ∧ o.shippingCost = 10 ∧ o.discount = 0 ∧
        o.totalAmount = 37) ∧
    (validAddress (castAddress address) = true →
      paymentMethodEnum.contains (req.paymentMethod.getD "pending") = true →
      pa.name ≠ "" → pb.name ≠ "" →
      db.orders.any (fun x => x._id == req.newId ||
        x.orderNumber == jsToUpper ("ORD" ++ toString req.now.time ++ req.random)) = false →
      createOrderCompleted Fault.none db req) := by
  refine ⟨?_, ?_, ?_⟩
  · intro hpm
    obtain ⟨items, s, hK⟩ := checkCart_ok_of_available db.products [⟨a, 2⟩, ⟨b, 1⟩] [] 0
      (by
        intro c hc
        simp only [List.mem_cons, List.mem_singleton, List.not_mem_nil, or_false] at hc
        rcases hc with rfl | rfl
        · exact ⟨pa, ha, haa, has⟩
        · exact ⟨pb, hb, hba, hbs⟩)
    have hrej := newOrder_default_rejected req address items s hpm
    unfold createOrder
    simp [hA, hcomplete, hcart, hK, orderSave, hrej]
  · intro f h
    exact totals_of_scenario f db req a b pa pb hcart ha hpa hb hpb h
  · intro haddr hpm han hbn hfresh
    apply createOrder_succeeds db req address _ hA haddr hpm hcart (by simp) _ hfresh
    intro c hc
    simp only [List.mem_cons, List.mem_singleton, List.not_mem_nil, or_false] at hc
    rcases hc with rfl | rfl
    · exact ⟨pa, ha, haa, has, han, by rw [hpa]; norm_num, by norm_num⟩
    · exact ⟨pb, hb, hba, hbs, hbn, by rw [hpb]; norm_num, by norm_num⟩

/-- Witness of C11: two pens at 10.00 and one book at 5.00, ordered without
and with a payment method. -/
theorem createOrder_scenario_totals_witness :
    createOrder Fault.none (bigShop [⟨1, 2⟩, ⟨2, 1⟩] []) (checkout sampleAddress none) =
      (failure 500 "Server error while creating order", bigShop [⟨1, 2⟩, ⟨2, 1⟩] []) ∧
    createOrderCompleted Fault.none (bigShop [⟨1, 2⟩, ⟨2, 1⟩] [])
      (checkout sampleAddress (some "credit_card")) ∧
    ∃ o, (createOrder Fault.none (bigShop [⟨1, 2⟩, ⟨2, 1⟩] [])
        (checkout sampleAddress (some "credit_card"))).2.orders = [] ++ [o] ∧
      o.subtotal = 25 ∧ o.tax = 2 ∧ o.shippingCost = 10 ∧ o.discount = 0 ∧
      o.totalAmount = 37 :=
  ⟨(createOrder_scenario_totals (bigShop [⟨1, 2⟩, ⟨2, 1⟩] []) (checkout sampleAddress none)
      sampleAddress 1 2 { pen with stock := 5 } book rfl (by decide) rfl rfl rfl rfl (by decide)
      rfl rfl rfl (by decide)).1 rfl,
   (createOrder_scenario_totals (bigShop [⟨1, 2⟩, ⟨2, 1⟩] [])
      (checkout sampleAddress (some "credit_card"))
      sampleAddress 1 2 { pen with stock := 5 } book rfl (by decide) rfl rfl rfl rfl (by decide)
      rfl rfl rfl (by decide)).2.2 (by decide) (by decide) (by decide) (by decide) rfl,
   (createOrder_scenario_totals (bigShop [⟨1, 2⟩, ⟨2, 1⟩] [])
      (checkout sampleAddress (some "credit_card"))
      sampleAddress 1 2 { pen with stock := 5 } book rfl (by decide) rfl rfl rfl rfl (by decide)
      rfl rfl rfl (by decide)).2.1 Fault.none (by unfold createOrderStored; decide!)⟩

/-- C12: the order stored by `POST /create` has one item per cart line, in
cart order, each with the line's product and quantity, the product's current
name and price, and the total `price * quantity` as JavaScript multiplies
them; the order's subtotal is the sum of the item totals, added from 0 in item
order as JavaScript adds them, which is the subtotal that `calculateTotals`
computes. -/
theorem createOrder_items (f : Fault) (db : Db) (req : CreateOrderReq)
    (h : createOrderStored f db req) :
    ∃ user o, db.users req.userId = some user ∧
      (createOrder f db req).2.orders = db.orders ++ [o] ∧
      List.Forall₂ (snapshotOf db.products) user.cart o.items ∧
      o.subtotal = o.items.foldl (fun sum item => jsAdd sum item.total) 0 ∧
      (calculateTotals o).subtotal = o.subtotal := by
  obtain ⟨address, user, orderItems, subtotal, _, _, hU, _, hK, _, _, hord⟩ :=
    createOrder_stored f db req h
  obtain ⟨fresh, hitems, hall, hs⟩ := checkCart_ok_snapshot _ _ _ _ _ _ hK
  simp only [List.nil_append] at hitems
  subst hitems
  refine ⟨user, newOrder req address orderItems subtotal, hU, hord, hall, hs, ?_⟩
  simp only [calculateTotals, newOrder]
  exact hs.symm

/-- Witness of C12: two pens and a book. -/
theorem createOrder_items_witness :
    createOrderStored Fault.none (bigShop [⟨1, 2⟩, ⟨2, 1⟩] [])
      (checkout sampleAddress (some "credit_card")) ∧
    ∃ user o, (bigShop [⟨1, 2⟩, ⟨2, 1⟩] []).users 7 = some user ∧
      (createOrder Fault.none (bigShop [⟨1, 2⟩, ⟨2, 1⟩] [])
        (checkout sampleAddress (some "credit_card"))).2.orders = [] ++ [o] ∧
      List.Forall₂ (snapshotOf (bigShop [⟨1, 2⟩, ⟨2, 1⟩] []).products) user.cart o.items ∧
      o.subtotal = o.items.foldl (fun sum item => jsAdd sum item.total) 0 ∧
      (calculateTotals o).subtotal = o.subtotal :=
  ⟨by unfold createOrderStored; decide!,
   createOrder_items Fault.none (bigShop [⟨1, 2⟩, ⟨2, 1⟩] [])
    (checkout sampleAddress (some "credit_card")) (by unfold createOrderStored; decide!)⟩

/-- C13: the order stored by `POST /create` has shippingCost 0 when its
subtotal is at least 100 and 10 when it is below 100; a subtotal of exactly
100 ships free. -/
theorem createOrder_shippingCost (f : Fault) (db : Db) (req : CreateOrderReq)
    (h : createOrderStored f db req) :
    ∃ o, (createOrder f db req).2.orders = db.orders ++ [o] ∧
      (100 ≤ o.subtotal → o.shippingCost = 0) ∧
      (o.subtotal < 100 → o.shippingCost = 10) ∧
      (o.subtotal = 100 → o.shippingCost = 0) := by
  obtain ⟨address, user, orderItems, subtotal, _, _, _, _, _, _, _, hord⟩ :=
    createOrder_stored f db req h
  refine ⟨newOrder req address orderItems subtotal, hord, ?_, ?_, ?_⟩
  · intro hge
    have hge2 : subtotal ≥ 100 := hge
    simp [newOrder, hge2]
  · intro hlt
    have hlt2 : ¬ subtotal ≥ 100 := not_le.mpr hlt
    simp only [newOrder, hlt2, if_false]
  · intro heq
    have hge2 : subtotal ≥ 100 := le_of_eq heq.symm
    simp [newOrder, hge2]

/-- Witness of C13: one desk at 100.00 ships free. -/
theorem createOrder_shippingCost_witness :
    (createOrder Fault.none (bigShop [⟨3, 1⟩] [])
      (checkout sampleAddress (some "credit_card"))).2.orders.map
        (fun o => (o.subtotal, o.shippingCost)) = [(100, 0)] ∧
    ∃ o, (createOrder Fault.none (bigShop [⟨3, 1⟩] [])
        (checkout sampleAddress (some "credit_card"))).2.orders = [] ++ [o] ∧
      (100 ≤ o.subtotal → o.shippingCost = 0) ∧
      (o.subtotal < 100 → o.shippingCost = 10) ∧
      (o.subtotal = 100 → o.shippingCost = 0) :=
  ⟨by decide!, createOrder_shippingCost Fault.none (bigShop [⟨3, 1⟩] [])
    (checkout sampleAddress (some "credit_card")) (by unfold createOrderStored; decide!)⟩

/-- Counterexample to C14: one pin priced 1.8125.  8% of the subtotal is
0.145, which rounds to 0.15 with halves up, the rule of `Math.round`; the
double product 1.8125 * 0.08 * 100 is 14.499999999999998, below 14.5, and the
stored tax is 0.14.  And one pin priced 0.0625: the stored tax is the double
0.01, which lies more than half a cent above the 0.005 that is 8% of the
subtotal. -/
theorem createOrder_tax_not_nearest :
    (createOrder Fault.none (pinShop (29 / 16))
      (checkout sampleAddress (some "credit_card"))).2.orders.map
        (fun o => (o.subtotal, o.tax)) = [(29 / 16, roundDouble (14 / 100))] ∧
    ((mathRound ((29 / 16 : ℚ) * (8 / 100) * 100) : Int) : ℚ) / 100 = 15 / 100 ∧
    jsMul (jsMul (29 / 16) (roundDouble (8 / 100))) 100 =
      8162774324609023 / 562949953421312 ∧
    (8162774324609023 / 562949953421312 : ℚ) < 29 / 2 ∧
    (createOrder Fault.none (pinShop (1 / 16))
      (checkout sampleAddress (some "credit_card"))).2.orders.map
        (fun o => (o.subtotal, o.tax)) = [(1 / 16, roundDouble (1 / 100))] ∧
    1 / 200 < |roundDouble (1 / 100) - (1 / 16 : ℚ) * (8 / 100)| := by
  decide!

/-- C14 as amended: the order stored by `POST /create` has the tax
`Math.round(subtotal * 0.08 * 100) / 100` as JavaScript computes it in double
arithmetic: it is the double nearest to a whole number of cents, and it
differs from 8% of the subtotal by at most half a cent plus a rounding error
of (subtotal + 1) * 2^-50. -/
theorem createOrder_tax (f : Fault) (db : Db) (req : CreateOrderReq)
    (h : createOrderStored f db req) :
    ∃ o, (createOrder f db req).2.orders = db.orders ++ [o] ∧
      o.tax = jsDiv ((mathRound (jsMul (jsMul o.subtotal (roundDouble (8 / 100))) 100) : Int) : ℚ)
        100 ∧
      (∃ n : Nat, o.tax = roundDouble ((n : ℚ) / 100)) ∧
      |o.tax - o.subtotal * (8 / 100)| ≤ 1 / 200 + (o.subtotal + 1) / 2 ^ 50 := by
  obtain ⟨address, user, orderItems, subtotal, _, _, _, _, _, hv, _, hord⟩ :=
    createOrder_stored f db req h
  obtain ⟨hsub, _⟩ := validateOrder_money _ hv
  have hsub2 : 0 ≤ subtotal := hsub
  refine ⟨newOrder req address orderItems subtotal, hord, rfl, ?_, tax_near subtotal hsub2⟩
  have hn : 0 ≤ mathRound (jsMul (jsMul subtotal (roundDouble (8 / 100))) 100) := by
    apply mathRound_nonneg
    unfold jsMul
    apply roundDouble_nonneg
    have h1 : 0 ≤ roundDouble (8 / 100) := roundDouble_nonneg _ (by norm_num)
    have h2 := roundDouble_nonneg _ (mul_nonneg hsub2 h1)
    linarith
  obtain ⟨n, hn2⟩ := Int.eq_ofNat_of_zero_le hn
  refine ⟨n, ?_⟩
  simp only [newOrder, jsDiv, hn2, Int.cast_natCast]

/-- Witness of C14 as amended: two pens and a book, taxed 2.00. -/
theorem createOrder_tax_witness :
    (createOrder Fault.none (bigShop [⟨1, 2⟩, ⟨2, 1⟩] [])
      (checkout sampleAddress (some "credit_card"))).2.orders.map
        (fun o => (o.subtotal, o.tax)) = [(25, 2)] ∧
    ∃ o, (createOrder Fault.none (bigShop [⟨1, 2⟩, ⟨2, 1⟩] [])
        (checkout sampleAddress (some "credit_card"))).2.orders = [] ++ [o] ∧
      o.tax = jsDiv ((mathRound (jsMul (jsMul o.subtotal (roundDouble (8 / 100))) 100) : Int) : ℚ)
        100 ∧
      (∃ n : Nat, o.tax = roundDouble ((n : ℚ) / 100)) ∧
      |o.tax - o.subtotal * (8 / 100)| ≤ 1 / 200 + (o.subtotal + 1) / 2 ^ 50 :=
  ⟨by decide!, createOrder_tax Fault.none (bigShop [⟨1, 2⟩, ⟨2, 1⟩] [])
    (checkout sampleAddress (some "credit_card")) (by unfold createOrderStored; decide!)⟩

/-! ## Claims on the checks of the create route -/

theorem checkCart_error_of_unavailable (ps : ObjectId → Option Product) :
    ∀ (cart : List CartItem) (acc : List OrderItem) (sub : ℚ),
      (∃ c ∈ cart, unavailableLine ps c) → ∃ r, checkCart ps cart acc sub = .error r := by
  intro cart
  induction cart with
  | nil =>
    intro acc sub h
    obtain ⟨c, hc, _⟩ := h
    cases hc
  | cons c0 rest ih =>
    intro acc sub h
    unfold checkCart
    split
    · exact ⟨_, rfl⟩
    · rename_i p hp
      split
      · exact ⟨_, rfl⟩
      · rename_i hact
        split
        · exact ⟨_, rfl⟩
        · apply ih
          obtain ⟨c, hc, hbad⟩ := h
          rcases List.mem_cons.mp hc with heq | hmem
          · subst heq
            have := hbad p hp
            simp [this] at hact
          · exact ⟨c, hmem, hbad⟩

theorem checkCart_first_unavailable (ps : ObjectId → Option Product) (c : CartItem)
    (post : List CartItem) (hbad : unavailableLine ps c) :
    ∀ (pre : List CartItem) (acc : List OrderItem) (sub : ℚ),
      (∀ x ∈ pre, availableLine ps x) →
      checkCart ps (pre ++ c :: post) acc sub =
        .error (failure 400 (unavailableMessage (ps c.product))) := by
  intro pre
  induction pre with
  | nil =>
    intro acc sub _
    simp only [List.nil_append]
    unfold checkCart
    cases hp : ps c.product with
    | none => rfl
    | some p =>
      have := hbad p hp
      simp [this]
  | cons x rest ih =>
    intro acc sub hpre
    obtain ⟨p, hp, hact, hle⟩ := hpre x (List.mem_cons_self _ _)
    simp only [List.cons_append]
    unfold checkCart
    simp only [hp, hact, Bool.not_true, Bool.false_eq_true, if_false, not_lt.mpr hle]
    exact ih _ _ (fun y hy => hpre y (List.mem_cons_of_mem _ hy))

/-- Counterexample to C15: the cart asks for five books (three in stock) and
then for the withdrawn lamp; the answer is the insufficient-stock error of the
book line, not the unavailable-product error naming the lamp. -/
theorem createOrder_insufficient_before_unavailable :
    (createOrder Fault.none (bigShop [⟨2, 5⟩, ⟨4, 1⟩] [])
      (checkout sampleAddress (some "credit_card"))).1 =
      failure 400 "Insufficient stock for \"Book\". Only 3 available" ∧
    unavailableMessage ((bigShop [⟨2, 5⟩, ⟨4, 1⟩] []).products 4) =
      "Product \"Lamp\" is no longer available" := by
  decide!

/-- C15 as amended: when a cart line references a missing or inactive
product, `POST /create` answers 400 and writes nothing, whatever the other
lines are; when moreover every line before it references an active product
with enough stock and the address passes the handler's first test, the answer
is the unavailable-product message of that line, which carries the product's
name, or `Unknown` for a missing product. -/
theorem createOrder_unavailable (f : Fault) (db : Db) (req : CreateOrderReq) (u : User)
    (pre post : List CartItem) (c : CartItem)
    (huser : db.users req.userId = some u)
    (hcart : u.cart = pre ++ c :: post)
    (hbad : unavailableLine db.products c) :
    (createOrder f db req).2 = db ∧ (createOrder f db req).1.status = 400 ∧
    ((∀ x ∈ pre, availableLine db.products x) →
      addressComplete req.shippingAddress = true →
      (createOrder f db req).1 = failure 400 (unavailableMessage (db.products c.product))) := by
  obtain ⟨r, hr⟩ := checkCart_error_of_unavailable db.products u.cart [] 0
    ⟨c, by rw [hcart]; simp, hbad⟩
  have hst := checkCart_error_status _ _ _ _ _ hr
  have hne : u.cart.isEmpty = false := by
    rw [hcart]
    cases pre <;> rfl
  cases hA : req.shippingAddress with
  | none => simp [createOrder, hA, failure, addressComplete]
  | some address =>
    by_cases haddr : addressComplete (some address) = true
    · refine ⟨?_, ?_, fun hpre _ => ?_⟩
      · simp [createOrder, hA, haddr, huser, hne, hr]
      · simp [createOrder, hA, haddr, huser, hne, hr, hst]
      · have hfirst := checkCart_first_unavailable db.products c post hbad pre [] 0 hpre
        rw [← hcart] at hfirst
        simp [createOrder, hA, haddr, huser, hne, hfirst]
    · simp [createOrder, hA, haddr, failure]

/-- Witness of C15 as amended: a pen and then the withdrawn lamp. -/
theorem createOrder_unavailable_witness :
    (createOrder Fault.none (bigShop [⟨1, 1⟩, ⟨4, 1⟩] [])
        (checkout sampleAddress (some "credit_card"))).2 = bigShop [⟨1, 1⟩, ⟨4, 1⟩] [] ∧
    (createOrder Fault.none (bigShop [⟨1, 1⟩, ⟨4, 1⟩] [])
        (checkout sampleAddress (some "credit_card"))).1.status = 400 ∧
    (createOrder Fault.none (bigShop [⟨1, 1⟩, ⟨4, 1⟩] [])
        (checkout sampleAddress (some "credit_card"))).1.message =
      "Product \"Lamp\" is no longer available" := by
  have h := createOrder_unavailable Fault.none (bigShop [⟨1, 1⟩, ⟨4, 1⟩] [])
    (checkout sampleAddress (some "credit_card")) { cart := [⟨1, 1⟩, ⟨4, 1⟩] }
    [⟨1, 1⟩] [] ⟨4, 1⟩ rfl rfl
    (by
      intro p hp
      have hp2 : p = lamp := by
        simpa [bigShop] using hp.symm
      rw [hp2]
      rfl)
  exact ⟨h.1, h.2.1, by decide!⟩

/-- C16: when the shipping address is absent or lacks one of street, city,
state, zipCode and country, `POST /create` answers 400 with the address
message; when the address passes and the user's cart is empty it answers 400
with `Cart is empty`.  In both cases the database (orders, stock, carts) is
unchanged. -/
theorem createOrder_validation (f : Fault) (db : Db) (req : CreateOrderReq)
    (h : addressComplete req.shippingAddress = false ∨
      ∃ u, db.users req.userId = some u ∧ u.cart = []) :
    (createOrder f db req).2 = db ∧
    (createOrder f db req).1 =
      (if addressComplete req.shippingAddress = true then failure 400 "Cart is empty"
       else failure 400 "Complete shipping address is required") := by
  cases hA : req.shippingAddress with
  | none => simp [createOrder, hA, addressComplete]
  | some address =>
    by_cases haddr : addressComplete (some address) = true
    · rcases h with h | ⟨u, hu, hcart⟩
      · rw [hA, haddr] at h
        cases h
      · simp [createOrder, hA, haddr, hu, hcart]
    · simp [createOrder, hA, haddr]

/-- Witness of C16: an address without a street, and an empty cart. -/
theorem createOrder_validation_witness :
    ((createOrder Fault.none (bigShop [⟨1, 1⟩] [])
        (checkout { sampleAddress with street := none } (some "credit_card"))).2 =
        bigShop [⟨1, 1⟩] [] ∧
      (createOrder Fault.none (bigShop [⟨1, 1⟩] [])
        (checkout { sampleAddress with street := none } (some "credit_card"))).1 =
        failure 400 "Complete shipping address is required") ∧
    ((createOrder Fault.none (bigShop [] [])
        (checkout sampleAddress (some "credit_card"))).2 = bigShop [] [] ∧
      (createOrder Fault.none (bigShop [] [])
        (checkout sampleAddress (some "credit_card"))).1 = failure 400 "Cart is empty") :=
  ⟨createOrder_validation Fault.none (bigShop [⟨1, 1⟩] [])
      (checkout { sampleAddress with street := none } (some "credit_card"))
      (Or.inl (by decide)),
   createOrder_validation Fault.none (bigShop [] [])
      (checkout sampleAddress (some "credit_card")) (Or.inr ⟨{ cart := [] }, rfl, rfl⟩)⟩

/-- C17: after a `POST /create` that made all of its writes, the stock of
every product is its earlier stock minus the quantity the cart holds of it: a
product with no cart line keeps its stock, and a product with a single cart
line loses exactly that line's quantity. -/
theorem createOrder_stock_frame (f : Fault) (db : Db) (req : CreateOrderReq)
    (h : createOrderCompleted f db req) :
    ∃ user, db.users req.userId = some user ∧
      (∀ q, stockOf (createOrder f db req).2 q =
        (stockOf db q).map (fun s => s - cartQuantity user.cart q)) ∧
      (∀ q, (∀ c ∈ user.cart, c.product ≠ q) →
        stockOf (createOrder f db req).2 q = stockOf db q) ∧
      (∀ c ∈ user.cart, user.cart.filter (fun x => x.product == c.product) = [c] →
        stockOf (createOrder f db req).2 c.product =
          (stockOf db c.product).map (fun s => s - c.quantity)) := by
  obtain ⟨address, user, orderItems, subtotal, _, _, hU, _, _, _, _, _, hstock, _⟩ :=
    createOrder_completed f db req h
  refine ⟨user, hU, hstock, ?_, ?_⟩
  · intro q hq
    have hzero : cartQuantity user.cart q = 0 := by
      have hfil : user.cart.filter (fun c => c.product == q) = [] := by
        apply List.filter_eq_nil_iff.mpr
        intro c hc
        simpa using hq c hc
      simp [cartQuantity, hfil]
    rw [hstock q, hzero]
    cases stockOf db q <;> simp
  · intro c _ hsingle
    have hone : cartQuantity user.cart c.product = c.quantity := by
      simp [cartQuantity, hsingle]
    rw [hstock c.product, hone]

/-- Witness of C17: two pens and a book bought from stocks 5, 3 and 2. -/
theorem createOrder_stock_frame_witness :
    createOrderCompleted Fault.none (bigShop [⟨1, 2⟩, ⟨2, 1⟩] [])
      (checkout sampleAddress (some "credit_card")) ∧
    stockOf (createOrder Fault.none (bigShop [⟨1, 2⟩, ⟨2, 1⟩] [])
      (checkout sampleAddress (some "credit_card"))).2 1 = some 3 ∧
    stockOf (createOrder Fault.none (bigShop [⟨1, 2⟩, ⟨2, 1⟩] [])
      (checkout sampleAddress (some "credit_card"))).2 2 = some 2 ∧
    stockOf (createOrder Fault.none (bigShop [⟨1, 2⟩, ⟨2, 1⟩] [])
      (checkout sampleAddress (some "credit_card"))).2 3 = some 2 ∧
    ∃ user, (bigShop [⟨1, 2⟩, ⟨2, 1⟩] []).users 7 = some user ∧
      (∀ q, stockOf (createOrder Fault.none (bigShop [⟨1, 2⟩, ⟨2, 1⟩] [])
          (checkout sampleAddress (some "credit_card"))).2 q =
        (stockOf (bigShop [⟨1, 2⟩, ⟨2, 1⟩] []) q).map
          (fun s => s - cartQuantity user.cart q)) ∧
      (∀ q, (∀ c ∈ user.cart, c.product ≠ q) →
        stockOf (createOrder Fault.none (bigShop [⟨1, 2⟩, ⟨2, 1⟩] [])
          (checkout sampleAddress (some "credit_card"))).2 q =
          stockOf (bigShop [⟨1, 2⟩, ⟨2, 1⟩] []) q) ∧
      (∀ c ∈ user.cart, user.cart.filter (fun x => x.product == c.product) = [c] →
        stockOf (createOrder Fault.none (bigShop [⟨1, 2⟩, ⟨2, 1⟩] [])
          (checkout sampleAddress (some "credit_card"))).2 c.product =
          (stockOf (bigShop [⟨1, 2⟩, ⟨2, 1⟩] []) c.product).map (fun s => s - c.quantity)) :=
  ⟨by unfold createOrderCompleted; decide!, by decide!, by decide!, by decide!,
   createOrder_stock_frame Fault.none (bigShop [⟨1, 2⟩, ⟨2, 1⟩] [])
    (checkout sampleAddress (some "credit_card")) (by unfold createOrderCompleted; decide!)⟩

/-! ## Lemmas on the routes that update an order -/

theorem adminUpdateOrder_eq (db : Db) (req : UpdateReq) :
    adminUpdateOrder db req =
      if truthy req.status && !validStatuses.contains (req.status.getD "") then
        (failure 400 "Invalid status", db)
      else if truthy req.paymentStatus &&
          !validPaymentStatuses.contains (req.paymentStatus.getD "") then
        (failure 400 "Invalid payment status", db)
      else
        match db.orders.find? (fun o => o._id == req.orderId) with
        | none => (failure 404 "Order not found", db)
        | some order =>
          match orderSave db.orders req.now false (statusChanged req order)
              (patchedOrder req order) with
          | none => (failure 500 "Server error while updating order", db)
          | some (orders1, saved) =>
            (updatedResponse { db with orders := orders1 } saved._id,
             { db with orders := orders1 }) := by
  rfl

theorem patchedOrder_id (req : UpdateReq) (order : Order) :
    (patchedOrder req order)._id = order._id := by
  unfold patchedOrder
  dsimp only
  split <;> split <;> split <;> rfl

theorem patchedOrder_status (req : UpdateReq) (order : Order) :
    (patchedOrder req order).status =
      if truthy req.status = true then req.status.getD "" else order.status := by
  unfold patchedOrder
  dsimp only
  split <;> split <;> split <;> simp_all

theorem patchedOrder_statusHistory (req : UpdateReq) (order : Order) :
    (patchedOrder req order).statusHistory = order.statusHistory := by
  unfold patchedOrder
  dsimp only
  split <;> split <;> split <;> rfl

theorem patchedOrder_sameSnapshot (req : UpdateReq) (order : Order) :
    sameSnapshot order (patchedOrder req order) := by
  unfold patchedOrder sameSnapshot
  dsimp only
  split <;> split <;> split <;> simp

theorem statusChanged_eq (req : UpdateReq) (order : Order) :
    statusChanged req order =
      (truthy req.status && (req.status.getD "" != order.status)) := by
  unfold statusChanged
  by_cases h : truthy req.status = true
  · simp [h]
  · simp [h]

/-- The shape of every run of the admin status route: either nothing is
written, or both guards have passed, the order was found, its patched copy
passed validation and replaces it, and nothing else is written. -/
theorem adminUpdateOrder_cases (db : Db) (req : UpdateReq) :
    (adminUpdateOrder db req).2 = db ∨
    ∃ order, db.orders.find? (fun o => o._id == req.orderId) = some order ∧
      (truthy req.status = true → validStatuses.contains (req.status.getD "") = true) ∧
      (truthy req.paymentStatus = true →
        validPaymentStatuses.contains (req.paymentStatus.getD "") = true) ∧
      validateOrder (patchedOrder req order) = true ∧
      (adminUpdateOrder db req).2.products = db.products ∧
      (adminUpdateOrder db req).2.users = db.users ∧
      (adminUpdateOrder db req).2.orders = db.orders.map (fun x =>
        if x._id = order._id then
          preSaveStatusHistory req.now false (statusChanged req order) (patchedOrder req order)
        else x) := by
  rw [adminUpdateOrder_eq]
  by_cases h1 : (truthy req.status && !validStatuses.contains (req.status.getD "")) = true
  · simp only [h1, if_true]
    left; trivial
  · simp only [h1, Bool.false_eq_true, if_false]
    by_cases h2 : (truthy req.paymentStatus &&
        !validPaymentStatuses.contains (req.paymentStatus.getD "")) = true
    · simp only [h2, if_true]
      left; trivial
    · simp only [h2, Bool.false_eq_true, if_false]
      cases hfind : db.orders.find? (fun o => o._id == req.orderId) with
      | none => left; trivial
      | some order =>
        simp only
        by_cases hv : validateOrder (patchedOrder req order) = true
        · rw [orderSave_existing _ _ _ _ hv]
          refine Or.inr ⟨order, rfl, ?_, ?_, hv, rfl, rfl, ?_⟩
          · intro ht
            simpa [ht] using h1
          · intro ht
            simpa [ht] using h2
          · simp only [patchedOrder_id]
        · have hn : orderSave db.orders req.now false (statusChanged req order)
              (patchedOrder req order) = none := by
            simp [orderSave, hv]
          rw [hn]
          left; trivial

/-- Conditions under which the admin status route saves the order: both
guards pass, the order is found and its patched copy passes validation. -/
theorem adminUpdateOrder_saves (db : Db) (req : UpdateReq) (order : Order)
    (hfind : db.orders.find? (fun o => o._id == req.orderId) = some order)
    (hs : truthy req.status = true → validStatuses.contains (req.status.getD "") = true)
    (hp : truthy req.paymentStatus = true →
      validPaymentStatuses.contains (req.paymentStatus.getD "") = true)
    (hv : validateOrder (patchedOrder req order) = true) :
    (adminUpdateOrder db req).2.orders = db.orders.map (fun x =>
      if x._id = order._id then
        preSaveStatusHistory req.now false (statusChanged req order) (patchedOrder req order)
      else x) := by
  have h1 : (truthy req.status && !validStatuses.contains (req.status.getD "")) = false := by
    cases ht : truthy req.status with
    | false => rfl
    | true => rw [hs ht]; rfl
  have h2 : (truthy req.paymentStatus &&
      !validPaymentStatuses.contains (req.paymentStatus.getD "")) = false := by
    cases ht : truthy req.paymentStatus with
    | false => rfl
    | true => rw [hp ht]; rfl
  rw [adminUpdateOrder_eq]
  simp only [h1, h2, Bool.false_eq_true, if_false, hfind, orderSave_existing _ _ _ _ hv,
    patchedOrder_id]

/-- The shape of every run of the cancel route, orders included. -/
theorem cancelOrder_shape (db : Db) (req : CancelReq) :
    ((cancelOrder db req).2 = db ∧ (cancelOrder db req).1.status ≠ 200) ∨
    ∃ o, db.orders.find? (fun x => x._id == req.orderId && x.user == req.userId) = some o ∧
      o.status = "pending" ∧
      (cancelOrder db req).1.status = 200 ∧
      (cancelOrder db req).1.order =
        some (preSaveStatusHistory req.now false true { o with status := "cancelled" }) ∧
      (cancelOrder db req).2.orders = db.orders.map (fun x =>
        if x._id = o._id then preSaveStatusHistory req.now false true
          { o with status := "cancelled" } else x) := by
  unfold cancelOrder
  cases hfind : db.orders.find? (fun o => o._id == req.orderId && o.user == req.userId) with
  | none => left; simp [failure]
  | some o =>
    simp only
    by_cases hst : (o.status != "pending") = true
    · left; simp [hst, failure]
    · simp only [hst, Bool.false_eq_true, if_false]
      have hpend : o.status = "pending" := by simpa using hst
      by_cases hv : validateOrder { o with status := "cancelled" } = true
      · rw [orderSave_existing _ _ _ _ hv]
        exact Or.inr ⟨o, rfl, hpend, rfl, rfl, rfl⟩
      · have hn : orderSave db.orders req.now false true { o with status := "cancelled" } =
            none := by
          simp [orderSave, hv]
        rw [hn]
        left; simp [failure]

theorem related_after_replace (R : Order → Order → Prop) (hrefl : ∀ x, R x x)
    (orders : List Order) (o saved : Order) (ho : o ∈ orders)
    (hnd : (orders.map (fun x => x._id)).Nodup) (hR : R o saved) :
    List.Forall₂ R orders (orders.map (fun x => if x._id = o._id then saved else x)) := by
  rw [List.forall₂_map_right_iff, List.forall₂_same]
  intro x hx
  by_cases hid : x._id = o._id
  · have hxo : x = o := List.inj_on_of_nodup_map hnd hx ho hid
    simp only [hid, if_true]
    rw [hxo]
    exact hR
  · simp only [hid, if_false]
    exact hrefl x

theorem note_trimmed (t : String) (h : validStatuses.contains t = true) :
    jsTrim ("Order status updated to " ++ t) = "Order status updated to " ++ t := by
  simp only [validStatuses, List.contains_cons, List.contains_nil, Bool.or_false,
    Bool.or_eq_true, beq_iff_eq] at h
  rcases h with rfl | rfl | rfl | rfl | rfl | rfl <;> decide

/-! ## Claims on the status history and the order snapshot -/

/-- C18: a cancel answered 200, and an admin update that asks for a listed
status different from the current one, passes the route's payment guard and
whose patched order passes validation, replace the stored order by one whose
status is the new status and whose statusHistory is the old one followed by
exactly one entry, with the new status, the time of the request and the note
`Order status updated to <new status>`. -/
theorem status_change_appends_entry :
    (∀ (db : Db) (req : CancelReq),
      (cancelOrder db req).1.status = 200 →
      ∃ o saved,
        db.orders.find? (fun x => x._id == req.orderId && x.user == req.userId) = some o ∧
        (cancelOrder db req).2.orders =
          db.orders.map (fun x => if x._id = o._id then saved else x) ∧
        saved.status = "cancelled" ∧
        saved.statusHistory = o.statusHistory ++ [historyEntry "cancelled" req.now.time]) ∧
    (∀ (db : Db) (req : UpdateReq) (o : Order) (t : String),
      db.orders.find? (fun x => x._id == req.orderId) = some o →
      req.status = some t → t ≠ o.status → validStatuses.contains t = true →
      (truthy req.paymentStatus = true →
        validPaymentStatuses.contains (req.paymentStatus.getD "") = true) →
      validateOrder (patchedOrder req o) = true →
      ∃ saved,
        (adminUpdateOrder db req).2.orders =
          db.orders.map (fun x => if x._id = o._id then saved else x) ∧
        saved.status = t ∧
        saved.statusHistory = o.statusHistory ++ [historyEntry t req.now.time]) := by
  constructor
  · intro db req h
    rcases cancelOrder_shape db req with ⟨_, hne⟩ | ⟨o, hfind, _, _, _, hord⟩
    · exact absurd h hne
    · refine ⟨o, _, hfind, hord, ?_, ?_⟩
      · simp [preSaveStatusHistory]
      · have hnote := note_trimmed "cancelled" (by decide)
        simp only [preSaveStatusHistory, Bool.not_false, Bool.and_self, if_true, historyEntry,
          hnote]
  · intro db req o t hfind hreq hdiff hin hpay hv
    have hne : t ≠ "" := by
      intro he
      rw [he] at hin
      exact absurd hin (by decide)
    have htruthy : truthy req.status = true := by
      simp [hreq, truthy, hne]
    have hord := adminUpdateOrder_saves db req o hfind
      (fun _ => by rw [hreq]; exact hin) hpay hv
    have hstatus : (patchedOrder req o).status = t := by
      rw [patchedOrder_status, if_pos htruthy, hreq]
      rfl
    have hchanged : statusChanged req o = true := by
      rw [statusChanged_eq, htruthy, hreq]
      simp [hdiff]
    refine ⟨_, hord, ?_, ?_⟩
    · simp only [preSaveStatusHistory, hchanged, Bool.not_false, Bool.and_self, if_true]
      exact hstatus
    · simp only [preSaveStatusHistory, hchanged, Bool.not_false, Bool.and_self, if_true,
        patchedOrder_statusHistory, hstatus, note_trimmed t hin, historyEntry]

/-- Witness of C18: a pending order cancelled by its owner, and a pending
order confirmed by an admin. -/
theorem status_change_appends_entry_witness :
    (∃ o saved,
      (bigShop [] [storedOrder 50 "ORD1" "pending"]).orders.find?
        (fun x => x._id == 50 && x.user == 7) = some o ∧
      (cancelOrder (bigShop [] [storedOrder 50 "ORD1" "pending"])
        { orderId := 50, userId := 7, now := sampleDate }).2.orders =
        (bigShop [] [storedOrder 50 "ORD1" "pending"]).orders.map
          (fun x => if x._id = o._id then saved else x) ∧
      saved.status = "cancelled" ∧
      saved.statusHistory = o.statusHistory ++ [historyEntry "cancelled" sampleDate.time]) ∧
    (∃ saved,
      (adminUpdateOrder (bigShop [] [storedOrder 50 "ORD1" "pending"])
        { orderId := 50, status := some "confirmed", paymentStatus := none,
          trackingNumber := none, now := sampleDate }).2.orders =
        (bigShop [] [storedOrder 50 "ORD1" "pending"]).orders.map
          (fun x => if x._id = (storedOrder 50 "ORD1" "pending")._id then saved else x) ∧
      saved.status = "confirmed" ∧
      saved.statusHistory = (storedOrder 50 "ORD1" "pending").statusHistory ++
        [historyEntry "confirmed" sampleDate.time]) :=
  ⟨status_change_appends_entry.1 (bigShop [] [storedOrder 50 "ORD1" "pending"])
      { orderId := 50, userId := 7, now := sampleDate } (by decide!),
   status_change_appends_entry.2 (bigShop [] [storedOrder 50 "ORD1" "pending"])
      { orderId := 50, status := some "confirmed", paymentStatus := none,
        trackingNumber := none, now := sampleDate } (storedOrder 50 "ORD1" "pending")
      "confirmed" (by decide!) rfl (by decide) (by decide) (by decide) (by decide!)⟩

theorem preSaveStatusHistory_extends (d : JsDate) (n sm : Bool) (o : Order) :
    o.statusHistory <+: (preSaveStatusHistory d n sm o).statusHistory := by
  unfold preSaveStatusHistory
  split
  · exact ⟨_, rfl⟩
  · exact ⟨[], by simp⟩

theorem preSaveStatusHistory_sameSnapshot (d : JsDate) (n sm : Bool) (o : Order) :
    sameSnapshot o (preSaveStatusHistory d n sm o) := by
  unfold preSaveStatusHistory sameSnapshot
  split <;> simp

theorem sameSnapshot_trans (x y z : Order) (h1 : sameSnapshot x y) (h2 : sameSnapshot y z) :
    sameSnapshot x z := by
  unfold sameSnapshot at *
  obtain ⟨a1, a2, a3, a4, a5, a6, a7, a8, a9, a10, a11⟩ := h1
  obtain ⟨b1, b2, b3, b4, b5, b6, b7, b8, b9, b10, b11⟩ := h2
  exact ⟨a1.trans b1, a2.trans b2, a3.trans b3, a4.trans b4, a5.trans b5, a6.trans b6,
    a7.trans b7, a8.trans b8, a9.trans b9, a10.trans b10, a11.trans b11⟩

/-- C19: with order ids distinct, the orders after the cancel route and after
the admin status route, whether the request succeeds or fails, are the orders
before, one for one and in the same positions, and the statusHistory of each
order before is a prefix of its statusHistory after. -/
theorem statusHistory_append_only :
    (∀ (db : Db) (req : CancelReq), (db.orders.map (fun o => o._id)).Nodup →
      List.Forall₂ (fun x y => x._id = y._id ∧ x.statusHistory <+: y.statusHistory)
        db.orders (cancelOrder db req).2.orders) ∧
    (∀ (db : Db) (req : UpdateReq), (db.orders.map (fun o => o._id)).Nodup →
      List.Forall₂ (fun x y => x._id = y._id ∧ x.statusHistory <+: y.statusHistory)
        db.orders (adminUpdateOrder db req).2.orders) := by
  have hrefl : ∀ x : Order, x._id = x._id ∧ x.statusHistory <+: x.statusHistory :=
    fun x => ⟨rfl, ⟨[], by simp⟩⟩
  constructor
  · intro db req hnd
    rcases cancelOrder_shape db req with ⟨hdb, _⟩ | ⟨o, hfind, _, _, _, hord⟩
    · rw [hdb]
      exact List.forall₂_same.mpr (fun x _ => hrefl x)
    · rw [hord]
      apply related_after_replace _ hrefl db.orders o _ (List.mem_of_find?_eq_some hfind) hnd
      refine ⟨?_, ?_⟩
      · simp [preSaveStatusHistory]
      · exact preSaveStatusHistory_extends req.now false true { o with status := "cancelled" }
  · intro db req hnd
    rcases adminUpdateOrder_cases db req with hdb | ⟨o, hfind, _, _, _, _, _, hord⟩
    · rw [hdb]
      exact List.forall₂_same.mpr (fun x _ => hrefl x)
    · rw [hord]
      apply related_after_replace _ hrefl db.orders o _ (List.mem_of_find?_eq_some hfind) hnd
      refine ⟨?_, ?_⟩
      · have := (preSaveStatusHistory_sameSnapshot req.now false (statusChanged req o)
          (patchedOrder req o)).1
        rw [← this, patchedOrder_id]
      · have h := preSaveStatusHistory_extends req.now false (statusChanged req o)
          (patchedOrder req o)
        rw [patchedOrder_statusHistory] at h
        exact h

/-- Witness of C19: a pending order is cancelled by its owner, and an admin
update of the same order is rejected at the save. -/
theorem statusHistory_append_only_witness :
    List.Forall₂ (fun x y => x._id = y._id ∧ x.statusHistory <+: y.statusHistory)
      (bigShop [] [storedOrder 50 "ORD1" "pending"]).orders
      (cancelOrder (bigShop [] [storedOrder 50 "ORD1" "pending"])
        { orderId := 50, userId := 7, now := sampleDate }).2.orders ∧
    List.Forall₂ (fun x y => x._id = y._id ∧ x.statusHistory <+: y.statusHistory)
      (bigShop [] [storedOrder 50 "ORD1" "pending"]).orders
      (adminUpdateOrder (bigShop [] [storedOrder 50 "ORD1" "pending"])
        { orderId := 50, status := some "shipped", paymentStatus := some "paid",
          trackingNumber := none, now := sampleDate }).2.orders :=
  ⟨statusHistory_append_only.1 (bigShop [] [storedOrder 50 "ORD1" "pending"])
      { orderId := 50, userId := 7, now := sampleDate } (by decide),
   statusHistory_append_only.2 (bigShop [] [storedOrder 50 "ORD1" "pending"])
      { orderId := 50, status := some "shipped", paymentStatus := some "paid",
        trackingNumber := none, now := sampleDate } (by decide)⟩

/-- C20: with order ids distinct, the cancel route and the admin status route
leave every stored order's id, orderNumber, user, items, subtotal, tax,
shippingCost, discount, totalAmount, shippingAddress and creation time as they
were, whether the request succeeds or fails; and the product update route and
the stock route leave the orders collection, hence every stored item,
untouched. -/
theorem order_snapshot_immutable :
    (∀ (db : Db) (req : CancelReq), (db.orders.map (fun o => o._id)).Nodup →
      List.Forall₂ sameSnapshot db.orders (cancelOrder db req).2.orders) ∧
    (∀ (db : Db) (req : UpdateReq), (db.orders.map (fun o => o._id)).Nodup →
      List.Forall₂ sameSnapshot db.orders (adminUpdateOrder db req).2.orders) ∧
    (∀ (db : Db) (req : ProductUpdateReq), (updateProduct db req).2.orders = db.orders) ∧
    (∀ (db : Db) (req : StockReq), (updateStock db req).2.orders = db.orders) := by
  have hrefl : ∀ x : Order, sameSnapshot x x := fun x => by simp [sameSnapshot]
  refine ⟨?_, ?_, ?_, ?_⟩
  · intro db req hnd
    rcases cancelOrder_shape db req with ⟨hdb, _⟩ | ⟨o, hfind, _, _, _, hord⟩
    · rw [hdb]
      exact List.forall₂_same.mpr (fun x _ => hrefl x)
    · rw [hord]
      apply related_after_replace _ hrefl db.orders o _ (List.mem_of_find?_eq_some hfind) hnd
      apply sameSnapshot_trans o { o with status := "cancelled" }
      · simp [sameSnapshot]
      · exact preSaveStatusHistory_sameSnapshot _ _ _ _
  · intro db req hnd
    rcases adminUpdateOrder_cases db req with hdb | ⟨o, hfind, _, _, _, _, _, hord⟩
    · rw [hdb]
      exact List.forall₂_same.mpr (fun x _ => hrefl x)
    · rw [hord]
      apply related_after_replace _ hrefl db.orders o _ (List.mem_of_find?_eq_some hfind) hnd
      exact sameSnapshot_trans _ _ _ (patchedOrder_sameSnapshot req o)
        (preSaveStatusHistory_sameSnapshot _ _ _ _)
  · intro db req
    unfold updateProduct
    cases db.products req.id with
    | none => rfl
    | some product =>
      dsimp only
      split
      · rfl
      · split
        · rfl
        · split <;> rfl
  · intro db req
    unfold updateStock
    cases req.stock with
    | none => rfl
    | some stock =>
      cases db.products req.id with
      | none => rfl
      | some product =>
        dsimp only
        split <;> rfl

/-- Witness of C20: a pending order is cancelled, and another copy of it is
shipped with a tracking number by an admin. -/
theorem order_snapshot_immutable_witness :
    List.Forall₂ sameSnapshot (bigShop [] [storedOrder 50 "ORD1" "pending"]).orders
      (cancelOrder (bigShop [] [storedOrder 50 "ORD1" "pending"])
        { orderId := 50, userId := 7, now := sampleDate }).2.orders ∧
    List.Forall₂ sameSnapshot (bigShop [] [storedOrder 50 "ORD1" "pending"]).orders
      (adminUpdateOrder (bigShop [] [storedOrder 50 "ORD1" "pending"])
        { orderId := 50, status := some "shipped", paymentStatus := none,
          trackingNumber := some "TRK1", now := sampleDate }).2.orders :=
  ⟨order_snapshot_immutable.1 (bigShop [] [storedOrder 50 "ORD1" "pending"])
      { orderId := 50, userId := 7, now := sampleDate } (by decide),
   order_snapshot_immutable.2.1 (bigShop [] [storedOrder 50 "ORD1" "pending"])
      { orderId := 50, status := some "shipped", paymentStatus := none,
        trackingNumber := some "TRK1", now := sampleDate } (by decide)⟩

/-! ## Claims on ownership and on the transitions the routes accept -/

theorem find_foreign_none (orders : List Order) (o : Order) (id uid : ObjectId)
    (hnd : (orders.map (fun x => x._id)).Nodup) (ho : o ∈ orders) (hid : o._id = id)
    (hother : o.user ≠ uid) :
    orders.find? (fun x => x._id == id && x.user == uid) = none := by
  apply List.find?_eq_none.mpr
  intro x hx
  simp only [Bool.and_eq_true, beq_iff_eq, not_and]
  intro hxid huser
  have hxo : x = o := List.inj_on_of_nodup_map hnd hx ho (hxid.trans hid.symm)
  rw [hxo] at huser
  exact hother huser

/-- C21: with order ids distinct, for an order whose user is not the
requester, whatever the requester's role, `GET /:orderId` answers 404
`Order not found` without the order, and the cancel route answers 404
`Order not found` and leaves the database, hence the order and every stock,
unchanged. -/
theorem foreign_order_not_found :
    (∀ (db : Db) (req : GetOrderReq) (o : Order),
      (db.orders.map (fun x => x._id)).Nodup → o ∈ db.orders → o._id = req.orderId →
      o.user ≠ req.userId → getOrder db req = failure 404 "Order not found") ∧
    (∀ (db : Db) (req : CancelReq) (o : Order),
      (db.orders.map (fun x => x._id)).Nodup → o ∈ db.orders → o._id = req.orderId →
      o.user ≠ req.userId → cancelOrder db req = (failure 404 "Order not found", db)) := by
  constructor
  · intro db req o hnd ho hid hother
    unfold getOrder
    rw [find_foreign_none db.orders o req.orderId req.userId hnd ho hid hother]
  · intro db req o hnd ho hid hother
    unfold cancelOrder
    rw [find_foreign_none db.orders o req.orderId req.userId hnd ho hid hother]

/-- Witness of C21: user 8 asks for, and tries to cancel, an order of user 7. -/
theorem foreign_order_not_found_witness :
    getOrder (bigShop [] [storedOrder 50 "ORD1" "pending"])
        { orderId := 50, userId := 8, role := "user" } = failure 404 "Order not found" ∧
    cancelOrder (bigShop [] [storedOrder 50 "ORD1" "pending"])
        { orderId := 50, userId := 8, now := sampleDate } =
      (failure 404 "Order not found", bigShop [] [storedOrder 50 "ORD1" "pending"]) :=
  ⟨foreign_order_not_found.1 (bigShop [] [storedOrder 50 "ORD1" "pending"])
      { orderId := 50, userId := 8, role := "user" } (storedOrder 50 "ORD1" "pending")
      (by decide) (by simp [bigShop]) rfl (by decide),
   foreign_order_not_found.2 (bigShop [] [storedOrder 50 "ORD1" "pending"])
      { orderId := 50, userId := 8, now := sampleDate } (storedOrder 50 "ORD1" "pending")
      (by decide) (by simp [bigShop]) rfl (by decide)⟩

/-- Counterexample to C22: the cancel route refuses a confirmed order of the
requester; the answer is 400 and the stored status stays `confirmed`. -/
theorem cancelOrder_confirmed_refused :
    (cancelOrder (bigShop [] [storedOrder 50 "ORD1" "confirmed"])
      { orderId := 50, userId := 7, now := sampleDate }).1 =
      failure 400 "Only pending orders can be cancelled" ∧
    (cancelOrder (bigShop [] [storedOrder 50 "ORD1" "confirmed"])
      { orderId := 50, userId := 7, now := sampleDate }).2.orders.map (fun o => o.status) =
      ["confirmed"] := by
  decide!

/-- C22 as amended: the cancel route is legal from `pending` only; for an
order of the requester in any other status, `confirmed` included, it answers
400 `Only pending orders can be cancelled` and leaves the database
unchanged. -/
theorem cancelOrder_not_pending (db : Db) (req : CancelReq) (o : Order)
    (hfind : db.orders.find? (fun x => x._id == req.orderId && x.user == req.userId) = some o)
    (hst : o.status ≠ "pending") :
    cancelOrder db req = (failure 400 "Only pending orders can be cancelled", db) := by
  have hne : (o.status != "pending") = true := by simpa using hst
  simp [cancelOrder, hfind, hne]

/-- Witness of C22 as amended: a confirmed order. -/
theorem cancelOrder_not_pending_witness :
    cancelOrder (bigShop [] [storedOrder 50 "ORD1" "confirmed"])
        { orderId := 50, userId := 7, now := sampleDate } =
      (failure 400 "Only pending orders can be cancelled",
        bigShop [] [storedOrder 50 "ORD1" "confirmed"]) :=
  cancelOrder_not_pending (bigShop [] [storedOrder 50 "ORD1" "confirmed"])
    { orderId := 50, userId := 7, now := sampleDate } (storedOrder 50 "ORD1" "confirmed")
    (by decide!) (by decide)

theorem patchedOrder_paymentStatus (req : UpdateReq) (order : Order) :
    (patchedOrder req order).paymentStatus =
      if truthy req.paymentStatus = true then req.paymentStatus.getD ""
      else order.paymentStatus := by
  unfold patchedOrder
  dsimp only
  split <;> split <;> split <;> simp_all

theorem patchedOrder_trackingNumber (req : UpdateReq) (order : Order) :
    (patchedOrder req order).trackingNumber =
      if truthy req.trackingNumber = true then trimOpt req.trackingNumber
      else order.trackingNumber := by
  unfold patchedOrder
  dsimp only
  split <;> split <;> split <;> simp_all

theorem validateOrder_paymentStatus (o : Order) (h : validateOrder o = true) :
    paymentStatusEnum.contains o.paymentStatus = true := by
  unfold validateOrder at h
  simp only [Bool.and_eq_true] at h
  exact h.1.1.1.2

/-- Counterexample to C23: `refunded` is not reachable from `pending` by an
allowed payment edge, yet the admin route does not reject the request as an
invalid transition and saves the order: the stored paymentStatus becomes
`refunded`. -/
theorem adminUpdateOrder_pending_to_refunded :
    specPaymentEdge "pending" "refunded" = false ∧
    (storedOrder 50 "ORD1" "pending").paymentStatus = "pending" ∧
    (adminUpdateOrder (bigShop [] [storedOrder 50 "ORD1" "pending"])
      { orderId := 50, status := none, paymentStatus := some "refunded",
        trackingNumber := none, now := sampleDate }).1.message ≠ "Invalid payment status" ∧
    (adminUpdateOrder (bigShop [] [storedOrder 50 "ORD1" "pending"])
      { orderId := 50, status := none, paymentStatus := some "refunded",
        trackingNumber := none, now := sampleDate }).2.orders.map
        (fun o => o.paymentStatus) = ["refunded"] := by
  decide!

/-- C23 as amended: the admin route judges a requested paymentStatus by its
value alone, whatever the current paymentStatus is.  A non-empty value that is
neither in the route's list `validPaymentStatuses` nor in the schema's
paymentStatus enum is refused with status 400 and the database is left
unchanged; the message is `Invalid payment status` when the requested status,
if any, is in the route's list of statuses.  And a request whose value is in
the route's list, that passes the status guard and whose patched order passes
validation, stores that value in the order. -/
theorem adminUpdateOrder_payment_by_value (db : Db) (req : UpdateReq)
    (hreq : truthy req.paymentStatus = true) :
    (validPaymentStatuses.contains (req.paymentStatus.getD "") = false →
      paymentStatusEnum.contains (req.paymentStatus.getD "") = false →
      (adminUpdateOrder db req).2 = db ∧ (adminUpdateOrder db req).1.status = 400 ∧
      ((truthy req.status = true → validStatuses.contains (req.status.getD "") = true) →
        (adminUpdateOrder db req).1 = failure 400 "Invalid payment status")) ∧
    (∀ o : Order, db.orders.find? (fun x => x._id == req.orderId) = some o →
      (truthy req.status = true → validStatuses.contains (req.status.getD "") = true) →
      validPaymentStatuses.contains (req.paymentStatus.getD "") = true →
      validateOrder (patchedOrder req o) = true →
      ∃ saved, (adminUpdateOrder db req).2.orders =
          db.orders.map (fun x => if x._id = o._id then saved else x) ∧
        saved.paymentStatus = req.paymentStatus.getD "") := by
  constructor
  · intro hbad _
    have h2 : (truthy req.paymentStatus &&
        !validPaymentStatuses.contains (req.paymentStatus.getD "")) = true := by
      rw [hreq, hbad]
      rfl
    rw [adminUpdateOrder_eq]
    by_cases h1 : (truthy req.status && !validStatuses.contains (req.status.getD "")) = true
    · rw [if_pos h1]
      refine ⟨rfl, rfl, fun hs => ?_⟩
      exfalso
      simp only [Bool.and_eq_true, Bool.not_eq_true'] at h1
      rw [hs h1.1] at h1
      exact absurd h1.2 (by decide)
    · rw [if_neg h1, if_pos h2]
      exact ⟨rfl, rfl, fun _ => rfl⟩
  · intro o hfind hs hp hv
    have hord := adminUpdateOrder_saves db req o hfind hs (fun _ => hp) hv
    refine ⟨_, hord, ?_⟩
    have hkeep : ∀ (sm : Bool) (x : Order),
        (preSaveStatusHistory req.now false sm x).paymentStatus = x.paymentStatus := by
      intro sm x
      unfold preSaveStatusHistory
      split <;> rfl
    rw [hkeep, patchedOrder_paymentStatus, if_pos hreq]

/-- Witness of C23 as amended: `settled` is in neither list and is refused for
a pending order; `refunded` is in both and is stored for it. -/
theorem adminUpdateOrder_payment_by_value_witness :
    ((adminUpdateOrder (bigShop [] [storedOrder 50 "ORD1" "pending"])
        { orderId := 50, status := none, paymentStatus := some "settled",
          trackingNumber := none, now := sampleDate }).2 =
        bigShop [] [storedOrder 50 "ORD1" "pending"] ∧
    (adminUpdateOrder (bigShop [] [storedOrder 50 "ORD1" "pending"])
        { orderId := 50, status := none, paymentStatus := some "settled",
          trackingNumber := none, now := sampleDate }).1.status = 400 ∧
    (adminUpdateOrder (bigShop [] [storedOrder 50 "ORD1" "pending"])
        { orderId := 50, status := none, paymentStatus := some "settled",
          trackingNumber := none, now := sampleDate }).1 =
        failure 400 "Invalid payment status") ∧
    (∃ saved, (adminUpdateOrder (bigShop [] [storedOrder 50 "ORD1" "pending"])
        { orderId := 50, status := none, paymentStatus := some "refunded",
          trackingNumber := none, now := sampleDate }).2.orders =
        (bigShop [] [storedOrder 50 "ORD1" "pending"]).orders.map
          (fun x => if x._id = (storedOrder 50 "ORD1" "pending")._id then saved else x) ∧
      saved.paymentStatus = "refunded") :=
  ⟨⟨((adminUpdateOrder_payment_by_value (bigShop [] [storedOrder 50 "ORD1" "pending"])
      { orderId := 50, status := none, paymentStatus := some "settled",
        trackingNumber := none, now := sampleDate } (by decide)).1
        (by decide) (by decide)).1,
    ((adminUpdateOrder_payment_by_value (bigShop [] [storedOrder 50 "ORD1" "pending"])
      { orderId := 50, status := none, paymentStatus := some "settled",
        trackingNumber := none, now := sampleDate } (by decide)).1
        (by decide) (by decide)).2.1,
    ((adminUpdateOrder_payment_by_value (bigShop [] [storedOrder 50 "ORD1" "pending"])
      { orderId := 50, status := none, paymentStatus := some "settled",
        trackingNumber := none, now := sampleDate } (by decide)).1
        (by decide) (by decide)).2.2 (fun h => absurd h (by decide))⟩,
   (adminUpdateOrder_payment_by_value (bigShop [] [storedOrder 50 "ORD1" "pending"])
      { orderId := 50, status := none, paymentStatus := some "refunded",
        trackingNumber := none, now := sampleDate } (by decide)).2
      (storedOrder 50 "ORD1" "pending") (by decide!)
      (fun h => absurd h (by decide)) (by decide) (by decide!)⟩

/-- Counterexample to C24: the specification allows a tracking number from
`processing` on, yet the admin route stores one on a pending order. -/
theorem adminUpdateOrder_tracking_on_pending :
    specTrackingAllowed "pending" = false ∧
    (storedOrder 50 "ORD1" "pending").trackingNumber = none ∧
    (adminUpdateOrder (bigShop [] [storedOrder 50 "ORD1" "pending"])
      { orderId := 50, status := none, paymentStatus := none,
        trackingNumber := some "TRK1", now := sampleDate }).2.orders.map
        (fun o => (o.status, o.trackingNumber)) = [("pending", some "TRK1")] := by
  decide!

/-- C24 as amended: whatever the order's status is, a request that carries a
non-empty trackingNumber, passes the route's two guards and whose patched
order passes validation stores that tracking number, trimmed, in the
order. -/
theorem adminUpdateOrder_sets_tracking (db : Db) (req : UpdateReq) (o : Order)
    (hfind : db.orders.find? (fun x => x._id == req.orderId) = some o)
    (ht : truthy req.trackingNumber = true)
    (hs : truthy req.status = true → validStatuses.contains (req.status.getD "") = true)
    (hp : truthy req.paymentStatus = true →
      validPaymentStatuses.contains (req.paymentStatus.getD "") = true)
    (hv : validateOrder (patchedOrder req o) = true) :
    ∃ saved, (adminUpdateOrder db req).2.orders =
        db.orders.map (fun x => if x._id = o._id then saved else x) ∧
      saved.status = (patchedOrder req o).status ∧
      saved.trackingNumber = trimOpt req.trackingNumber := by
  have hord := adminUpdateOrder_saves db req o hfind hs hp hv
  refine ⟨_, hord, ?_, ?_⟩
  · unfold preSaveStatusHistory
    split <;> rfl
  · have hkeep : ∀ (sm : Bool) (x : Order),
        (preSaveStatusHistory req.now false sm x).trackingNumber = x.trackingNumber := by
      intro sm x
      unfold preSaveStatusHistory
      split <;> rfl
    rw [hkeep, patchedOrder_trackingNumber, if_pos ht]

/-- Witness of C24 as amended: a tracking number sent for a pending order. -/
theorem adminUpdateOrder_sets_tracking_witness :
    ∃ saved, (adminUpdateOrder (bigShop [] [storedOrder 50 "ORD1" "pending"])
        { orderId := 50, status := none, paymentStatus := none,
          trackingNumber := some "TRK1", now := sampleDate }).2.orders =
        (bigShop [] [storedOrder 50 "ORD1" "pending"]).orders.map
          (fun x => if x._id = (storedOrder 50 "ORD1" "pending")._id then saved else x) ∧
      saved.status = (patchedOrder
        { orderId := 50, status := none, paymentStatus := none,
          trackingNumber := some "TRK1", now := sampleDate }
        (storedOrder 50 "ORD1" "pending")).status ∧
      saved.trackingNumber = trimOpt (some "TRK1") :=
  adminUpdateOrder_sets_tracking (bigShop [] [storedOrder 50 "ORD1" "pending"])
    { orderId := 50, status := none, paymentStatus := none,
      trackingNumber := some "TRK1", now := sampleDate } (storedOrder 50 "ORD1" "pending")
    (by decide!) (by decide) (fun h => absurd h (by decide)) (fun h => absurd h (by decide))
    (by decide!)

/-! ## Claims on order numbers, revenue and concurrent checkouts -/

/-- The method `save()` never changes the order number it is given: a
document without a number fails validation before the numbering hook runs. -/
theorem orderSave_keeps_number (orders : List Order) (d : JsDate) (isNew sm : Bool)
    (o : Order) (os : List Order) (saved : Order)
    (h : orderSave orders d isNew sm o = some (os, saved)) :
    saved.orderNumber = o.orderNumber := by
  unfold orderSave at h
  by_cases hv : validateOrder o = true
  · have hn : (o.orderNumber == "") = false := by
      unfold validateOrder at hv
      simp only [Bool.and_eq_true] at hv
      have := hv.1.1.1.1.1.1.1.1.1.1.1
      simpa using this
    simp only [hv, if_true, preSaveOrderNumber, hn, Bool.and_false, Bool.false_eq_true,
      if_false] at h
    cases hw : writeOrder orders isNew (preSaveStatusHistory d isNew sm o) with
    | none => simp [hw] at h
    | some os2 =>
      simp only [hw, Option.map_some', Option.some.injEq, Prod.mk.injEq] at h
      rw [← h.2]
      unfold preSaveStatusHistory
      split <;> rfl
  · simp [hv] at h

/-- Counterexample to C25: the order stored for user 7 at time 1704067200000
with suffix `AB12` is numbered `ORD1704067200000AB12`, which has no hyphen,
date or sequence; and the number the hook's computation builds for the first
order of 2024-01-01, `ORD-20240101001`, has no hyphen before the sequence. -/
theorem createOrder_number_not_dated :
    (createOrder Fault.none (bigShop [⟨1, 1⟩] [])
      (checkout sampleAddress (some "credit_card"))).2.orders.map (fun o => o.orderNumber) =
      ["ORD1704067200000AB12"] ∧
    specOrderNumberForm "ORD1704067200000AB12" = false ∧
    generateOrderNumber [] sampleDate = "ORD-20240101001" ∧
    specOrderNumberForm "ORD-20240101001" = false ∧
    specOrderNumberForm "ORD-20240101-001" = true := by
  decide!

/-- C25 as amended: the order stored by `POST /create` is numbered `ORD`
followed by the time in milliseconds and the random suffix of the request,
upper-cased; and `save()` returns every document with the order number it was
given, so the numbering hook numbers no order. -/
theorem createOrder_number :
    (∀ (f : Fault) (db : Db) (req : CreateOrderReq),
      createOrderStored f db req →
      ∃ o, (createOrder f db req).2.orders = db.orders ++ [o] ∧
        o.orderNumber = jsToUpper ("ORD" ++ toString req.now.time ++ req.random)) ∧
    (∀ (orders : List Order) (d : JsDate) (isNew sm : Bool) (o : Order) (os : List Order)
      (saved : Order),
      orderSave orders d isNew sm o = some (os, saved) → saved.orderNumber = o.orderNumber) := by
  refine ⟨?_, orderSave_keeps_number⟩
  intro f db req h
  obtain ⟨address, user, orderItems, subtotal, _, _, _, _, _, _, _, hord⟩ :=
    createOrder_stored f db req h
  exact ⟨newOrder req address orderItems subtotal, hord, rfl⟩

/-- Witness of C25 as amended: one pen ordered by user 7, and the save of a
stored order numbered `ORD1` whose status changes to `confirmed`. -/
theorem createOrder_number_witness :
    (∃ o, (createOrder Fault.none (bigShop [⟨1, 1⟩] [])
        (checkout sampleAddress (some "credit_card"))).2.orders = [] ++ [o] ∧
      o.orderNumber = jsToUpper ("ORD" ++ toString sampleDate.time ++ "AB12")) ∧
    (preSaveStatusHistory sampleDate false true (storedOrder 1 "ORD1" "confirmed")).orderNumber =
      (storedOrder 1 "ORD1" "confirmed").orderNumber :=
  ⟨createOrder_number.1 Fault.none (bigShop [⟨1, 1⟩] [])
      (checkout sampleAddress (some "credit_card")) (by unfold createOrderStored; decide!),
   createOrder_number.2 [storedOrder 1 "ORD1" "pending"] sampleDate false true
      (storedOrder 1 "ORD1" "confirmed")
      [preSaveStatusHistory sampleDate false true (storedOrder 1 "ORD1" "confirmed")]
      (preSaveStatusHistory sampleDate false true (storedOrder 1 "ORD1" "confirmed"))
      (by decide!)⟩

/-- C26 (code defect): with a pending, a delivered and a cancelled order of
20.80 each, the second page of the orders with `status = pending` is empty
and is sent with a revenue of 41.60, the pending and the delivered order
together, where the orders matching the filter and not cancelled sum to
20.80; for `status = cancelled` the revenue sent is 41.60 where they sum to
0.  The first page, which lists an order whose product exists, is answered
500 with no revenue at all. -/
theorem adminListOrders_revenue_ignores_status :
    reportedRevenue (adminListOrders (bigShop [] threeOrders)
      { status := some "pending", paymentStatus := none, startDate := none, endDate := none,
        page := 2, limit := 0 }) = some (roundDouble (208 / 5)) ∧
    specRevenue (bigShop [] threeOrders)
      { status := some "pending", paymentStatus := none, startDate := none, endDate := none,
        page := 2, limit := 0 } = roundDouble (104 / 5) ∧
    reportedRevenue (adminListOrders (bigShop [] threeOrders)
      { status := some "cancelled", paymentStatus := none, startDate := none, endDate := none,
        page := 2, limit := 0 }) = some (roundDouble (208 / 5)) ∧
    specRevenue (bigShop [] threeOrders)
      { status := some "cancelled", paymentStatus := none, startDate := none, endDate := none,
        page := 2, limit := 0 } = 0 ∧
    reportedRevenue (adminListOrders (bigShop [] threeOrders)
      { status := some "pending", paymentStatus := none, startDate := none, endDate := none,
        page := 0, limit := 0 }) = none := by
  decide!

/-- The create handler is its reads and checks followed by its writes. -/
theorem createOrder_read_write (f : Fault) (db : Db) (req : CreateOrderReq) :
    createOrder f db req =
      match createOrderRead db req with
      | .error r => (r, db)
      | .ok (user, order) => createOrderWrite f db req user order := by
  unfold createOrder createOrderRead createOrderWrite
  cases req.shippingAddress with
  | none => rfl
  | some address =>
    dsimp only
    by_cases hc : addressComplete (some address) = true
    · simp only [hc, Bool.not_true, Bool.false_eq_true, if_false]
      cases db.users req.userId with
      | none => rfl
      | some user =>
        dsimp only
        by_cases he : user.cart.isEmpty = true
        · simp only [he, if_true]
        · simp only [he, Bool.false_eq_true, if_false]
          cases checkCart db.products user.cart [] 0 with
          | error r => rfl
          | ok res => rfl
    · simp [hc]

/-- C27 (code defect): one pen in stock and two customers with one pen each
in the cart.  When both handlers run their reads and stock checks before
either writes, neither request is refused for insufficient stock, two orders
are stored and the pen's stock ends at -1; handled one after the other, the
second request is refused and the stock ends at 0. -/
theorem createOrder_race_oversells :
    stockOf raceShop 1 = some 1 ∧
    (createOrderRace raceShop (checkout sampleAddress (some "credit_card")) checkoutB).1.status ≠
      400 ∧
    (createOrderRace raceShop (checkout sampleAddress (some "credit_card"))
      checkoutB).2.1.status ≠ 400 ∧
    (createOrderRace raceShop (checkout sampleAddress (some "credit_card"))
      checkoutB).2.2.orders.length = 2 ∧
    stockOf (createOrderRace raceShop (checkout sampleAddress (some "credit_card"))
      checkoutB).2.2 1 = some (-1) ∧
    (createOrder Fault.none
      (createOrder Fault.none raceShop (checkout sampleAddress (some "credit_card"))).2
      checkoutB).1 = failure 400 "Insufficient stock for \"Pen\". Only 0 available" ∧
    stockOf (createOrder Fault.none
      (createOrder Fault.none raceShop (checkout sampleAddress (some "credit_card"))).2
      checkoutB).2 1 = some 0 := by
  decide!

/-- C28 (code defect): `paid` is in the admin route's list of payment statuses
and not in the schema's enum; a request with `paymentStatus: 'paid'` passes the
route's validation and is rejected at the save: the answer is 500 and the
order is unchanged. -/
theorem adminUpdateOrder_paid_rejected_by_schema :
    validPaymentStatuses.contains "paid" = true ∧
    paymentStatusEnum.contains "paid" = false ∧
    (adminUpdateOrder (bigShop [] [storedOrder 50 "ORD1" "pending"])
      { orderId := 50, status := none, paymentStatus := some "paid",
        trackingNumber := none, now := sampleDate }).1 =
      failure 500 "Server error while updating order" ∧
    (adminUpdateOrder (bigShop [] [storedOrder 50 "ORD1" "pending"])
      { orderId := 50, status := none, paymentStatus := some "paid",
        trackingNumber := none, now := sampleDate }).2.orders =
      [storedOrder 50 "ORD1" "pending"] := by
  decide!

/-! ## Claims on reachable carts and histories -/

theorem setLineQuantity_products (p : ObjectId) (q : Int) (cart : List CartItem) :
    (setLineQuantity p q cart).map (fun c => c.product) = cart.map (fun c => c.product) := by
  induction cart with
  | nil => rfl
  | cons c rest ih =>
    unfold setLineQuantity
    by_cases h : c.product = p
    · simp [h]
    · simp [h, ih]

theorem setLineQuantity_mem (p : ObjectId) (q : Int) (cart : List CartItem) :
    ∀ c ∈ setLineQuantity p q cart, c ∈ cart ∨ c.quantity = q := by
  induction cart with
  | nil => intro c hc; simp [setLineQuantity] at hc
  | cons c0 rest ih =>
    intro c hc
    unfold setLineQuantity at hc
    by_cases h : c0.product = p
    · simp only [h, if_true, List.mem_cons] at hc
      rcases hc with rfl | hmem
      · exact Or.inr rfl
      · exact Or.inl (List.mem_cons_of_mem _ hmem)
    · simp only [h, if_false, List.mem_cons] at hc
      rcases hc with rfl | hmem
      · exact Or.inl (List.mem_cons_self _ _)
      · rcases ih c hmem with h1 | h1
        · exact Or.inl (List.mem_cons_of_mem _ h1)
        · exact Or.inr h1

theorem findAddedItem_canonical (products : ObjectId → Option Product) (req : CartAddReq) :
    ∀ (cart : List CartItem) (item : CartItem),
      findAddedItem products req cart = some item → req.canonical = true := by
  intro cart
  induction cart with
  | nil => intro item h; simp [findAddedItem] at h
  | cons c rest ih =>
    intro item h
    unfold findAddedItem at h
    split at h
    · cases h
    · split at h
      · rename_i hc
        simp only [Bool.and_eq_true] at hc
        exact hc.1
      · exact ih item h

theorem users_update_wellFormed (db : Db) (uid : ObjectId) (user : User) (cart1 : List CartItem)
    (hinv : ∀ u usr, db.users u = some usr → cartWellFormed usr.cart)
    (hcart : cartWellFormed cart1) :
    ∀ u usr, (if u = uid then some { user with cart := cart1 } else db.users u) = some usr →
      cartWellFormed usr.cart := by
  intro u usr h
  by_cases hu : u = uid
  · simp only [hu, if_true, Option.some.injEq] at h
    rw [← h]
    exact hcart
  · simp only [hu, if_false] at h
    exact hinv u usr h

theorem cartAdd_wellFormed (db : Db) (req : CartAddReq)
    (hinv : ∀ u usr, db.users u = some usr → cartWellFormed usr.cart)
    (hok : (cartAdd db req).1.success = true) :
    ∀ u usr, (cartAdd db req).2.users u = some usr → cartWellFormed usr.cart := by
  unfold cartAdd at hok ⊢
  dsimp only at hok ⊢
  by_cases hq : req.quantity.getD 1 < 1 ∨ req.quantity.getD 1 > 10
  · simp [hq, cartAnswer] at hok
  · simp only [hq, if_false] at hok ⊢
    have hq1 : 1 ≤ req.quantity.getD 1 := by omega
    have hq2 : req.quantity.getD 1 ≤ 10 := by omega
    cases hp : db.products req.productId with
    | none => simp [hp, cartAnswer] at hok
    | some product =>
      simp only [hp] at hok ⊢
      by_cases hact : (!product.isActive) = true
      · simp [hact, cartAnswer] at hok
      · simp only [hact, Bool.false_eq_true, if_false] at hok ⊢
        by_cases hst : product.stock < req.quantity.getD 1
        · simp [hst, cartAnswer] at hok
        · simp only [hst, if_false] at hok ⊢
          cases hU : db.users req.userId with
          | none => simp [hU, cartAnswer] at hok
          | some user =>
            simp only [hU] at hok ⊢
            obtain ⟨hbounds, hnodup⟩ := hinv _ _ hU
            cases hfind : findCartLine req user.cart with
            | some existing =>
              simp only [hfind] at hok ⊢
              by_cases h10 : existing.quantity + req.quantity.getD 1 > 10
              · simp [h10, cartAnswer] at hok
              · simp only [h10, if_false] at hok ⊢
                by_cases hs2 : existing.quantity + req.quantity.getD 1 > product.stock
                · simp [hs2, cartAnswer] at hok
                · simp only [hs2, if_false] at hok ⊢
                  have hmem : existing ∈ user.cart := by
                    unfold findCartLine at hfind
                    split at hfind
                    · exact List.mem_of_find?_eq_some hfind
                    · cases hfind
                  have hex := hbounds existing hmem
                  have hcart : cartWellFormed
                      (setLineQuantity req.productId (existing.quantity + req.quantity.getD 1)
                        user.cart) := by
                    refine ⟨?_, ?_⟩
                    · intro c hc
                      rcases setLineQuantity_mem _ _ _ c hc with h1 | h1
                      · exact hbounds c h1
                      · rw [h1]
                        omega
                    · rw [setLineQuantity_products]
                      exact hnodup
                  split <;> exact users_update_wellFormed db req.userId user _ hinv hcart
            | none =>
              simp only [hfind] at hok ⊢
              cases hadded : findAddedItem db.products req
                  (user.cart ++ [{ product := req.productId, quantity := req.quantity.getD 1 }]) with
              | none => simp [hadded, cartAnswer] at hok
              | some item =>
                simp only
                have hcanon := findAddedItem_canonical _ _ _ _ hadded
                have hnone : ∀ c ∈ user.cart, c.product ≠ req.productId := by
                  unfold findCartLine at hfind
                  simp only [hcanon, if_true] at hfind
                  intro c hc
                  have := List.find?_eq_none.mp hfind c hc
                  simpa using this
                have hcart : cartWellFormed
                    (user.cart ++ [{ product := req.productId,
                                     quantity := req.quantity.getD 1 }]) := by
                  refine ⟨?_, ?_⟩
                  · intro c hc
                    rcases List.mem_append.mp hc with h1 | h1
                    · exact hbounds c h1
                    · simp only [List.mem_singleton] at h1
                      rw [h1]
                      exact ⟨hq1, hq2⟩
                  · rw [List.map_append, List.nodup_append]
                    refine ⟨hnodup, by simp, ?_⟩
                    intro a ha hb
                    simp only [List.map_cons, List.map_nil, List.mem_singleton] at hb
                    obtain ⟨c, hc, hca⟩ := List.mem_map.mp ha
                    exact hnone c hc (hca.trans hb)
                exact users_update_wellFormed db req.userId user _ hinv hcart

theorem set_same_product :
    ∀ (cart : List CartItem) (i : Nat) (c : CartItem) (q : Int), cart[i]? = some c →
      (cart.set i { c with quantity := q }).map (fun x => x.product) =
        cart.map (fun x => x.product) := by
  intro cart
  induction cart with
  | nil => intro i c q h; simp at h
  | cons x rest ih =>
    intro i c q h
    cases i with
    | zero =>
      simp only [List.getElem?_cons_zero, Option.some.injEq] at h
      simp [h]
    | succ n =>
      simp only [List.getElem?_cons_succ] at h
      simp only [List.set_cons_succ, List.map_cons, ih n c q h]

theorem cartUpdate_wellFormed (db : Db) (req : CartUpdateReq)
    (hinv : ∀ u usr, db.users u = some usr → cartWellFormed usr.cart)
    (hok : (cartUpdate db req).1.success = true) :
    ∀ u usr, (cartUpdate db req).2.users u = some usr → cartWellFormed usr.cart := by
  unfold cartUpdate at hok ⊢
  cases hqo : req.quantity with
  | none => simp [hqo, cartAnswer] at hok
  | some quantity =>
    simp only [hqo] at hok ⊢
    by_cases hq : quantity = 0 ∨ quantity < 1 ∨ quantity > 10
    · simp [hq, cartAnswer] at hok
    · simp only [hq, if_false] at hok ⊢
      cases hU : db.users req.userId with
      | none => simp [hU, cartAnswer] at hok
      | some user =>
        simp only [hU] at hok ⊢
        obtain ⟨hbounds, hnodup⟩ := hinv _ _ hU
        cases hget : user.cart[req.itemId]? with
        | none => simp [hget, cartAnswer] at hok
        | some cartItem =>
          simp only [hget] at hok ⊢
          cases hp : db.products cartItem.product with
          | none => simp [hp, cartAnswer] at hok
          | some product =>
            simp only [hp] at hok ⊢
            by_cases hact : (!product.isActive) = true
            · simp [hact, cartAnswer] at hok
            · simp only [hact, Bool.false_eq_true, if_false] at hok ⊢
              by_cases hst : quantity > product.stock
              · simp [hst, cartAnswer] at hok
              · simp only [hst, if_false] at hok ⊢
                have hcart : cartWellFormed
                    (user.cart.set req.itemId { cartItem with quantity := quantity }) := by
                  refine ⟨?_, ?_⟩
                  · intro c hc
                    rcases List.mem_or_eq_of_mem_set hc with h1 | h1
                    · exact hbounds c h1
                    · rw [h1]
                      simp only
                      omega
                  · rw [set_same_product user.cart req.itemId cartItem quantity hget]
                    exact hnodup
                exact users_update_wellFormed db req.userId user _ hinv hcart

theorem cartRemove_wellFormed (db : Db) (req : CartRemoveReq)
    (hinv : ∀ u usr, db.users u = some usr → cartWellFormed usr.cart) :
    ∀ u usr, (cartRemove db req).2.users u = some usr → cartWellFormed usr.cart := by
  unfold cartRemove
  cases hU : db.users req.userId with
  | none => exact hinv
  | some user =>
    simp only
    obtain ⟨hbounds, hnodup⟩ := hinv _ _ hU
    cases user.cart[req.itemId]? with
    | none => exact hinv
    | some _ =>
      simp only
      have hsub : (user.cart.eraseIdx req.itemId).Sublist user.cart :=
        List.eraseIdx_sublist _ _
      have hcart : cartWellFormed (user.cart.eraseIdx req.itemId) :=
        ⟨fun c hc => hbounds c (hsub.subset hc),
         List.Nodup.sublist (hsub.map (fun c => c.product)) hnodup⟩
      exact users_update_wellFormed db req.userId user _ hinv hcart

theorem cartClear_wellFormed (db : Db) (userId : ObjectId)
    (hinv : ∀ u usr, db.users u = some usr → cartWellFormed usr.cart) :
    ∀ u usr, (cartClear db userId).2.users u = some usr → cartWellFormed usr.cart := by
  unfold cartClear
  cases db.users userId with
  | none => exact hinv
  | some user =>
    simp only
    exact users_update_wellFormed db userId user [] hinv ⟨by simp, by simp⟩

/-- C29: starting with every cart empty, after any sequence of cart requests
(add, update, remove, clear) with integer quantities that are all answered
with success, every line of every cart has a quantity from 1 to 10 and no cart
holds two lines for the same product. -/
theorem cart_reachable_wellFormed (db0 db : Db)
    (hempty : ∀ u usr, db0.users u = some usr → usr.cart = [])
    (hreach : CartReachable db0 db) :
    ∀ u usr, db.users u = some usr → cartWellFormed usr.cart := by
  induction hreach with
  | start =>
    intro u usr h
    rw [hempty u usr h]
    exact ⟨by simp, by simp⟩
  | next db1 op _ hok ih =>
    cases op with
    | add req => exact cartAdd_wellFormed db1 req ih hok
    | update req => exact cartUpdate_wellFormed db1 req ih hok
    | remove req => exact cartRemove_wellFormed db1 req ih
    | clear userId => exact cartClear_wellFormed db1 userId ih

/-- Witness of C29: user 7 adds two pens, adds two more, then sets the line
to five. -/
theorem cart_reachable_wellFormed_witness :
    ((cartStep (cartStep (cartStep (bigShop [] [])
        (CartOp.add ⟨7, 1, true, some 2⟩)).2
        (CartOp.add ⟨7, 1, true, some 2⟩)).2
        (CartOp.update ⟨7, 0, some 5⟩)).2.users 7).map (fun usr => usr.cart) =
      some [⟨1, 5⟩] ∧
    ∀ u usr, (cartStep (cartStep (cartStep (bigShop [] [])
        (CartOp.add ⟨7, 1, true, some 2⟩)).2
        (CartOp.add ⟨7, 1, true, some 2⟩)).2
        (CartOp.update ⟨7, 0, some 5⟩)).2.users u = some usr → cartWellFormed usr.cart :=
  ⟨by decide!,
   cart_reachable_wellFormed (bigShop [] []) _
    (by
      intro u usr h
      by_cases hu : u = 7
      · subst hu
        simp only [bigShop, if_true, Option.some.injEq] at h
        rw [← h]
      · simp [bigShop, hu] at h)
    (CartReachable.next _ (CartOp.update ⟨7, 0, some 5⟩)
      (CartReachable.next _ (CartOp.add ⟨7, 1, true, some 2⟩)
        (CartReachable.next _ (CartOp.add ⟨7, 1, true, some 2⟩) CartReachable.start
          (by decide!))
        (by decide!))
      (by decide!))⟩

/-- A cart request answered 500 can still have been saved: an add whose id
string differs from the stored id's `toString()` appends a second line for a
product already in the cart. -/
theorem cartAdd_failed_leaves_duplicate :
    (cartAdd (bigShop [⟨1, 1⟩] []) ⟨7, 1, false, some 1⟩).1.status = 500 ∧
    ((cartAdd (bigShop [⟨1, 1⟩] []) ⟨7, 1, false, some 1⟩).2.users 7).map
      (fun usr => usr.cart) = some [⟨1, 1⟩, ⟨1, 1⟩] := by
  decide!

theorem historyConsistent_pushed (d : JsDate) (o : Order) :
    historyConsistent (preSaveStatusHistory d false true o) := by
  right
  simp [preSaveStatusHistory]

theorem updateStock_orders (db : Db) (req : StockReq) :
    (updateStock db req).2.orders = db.orders := by
  unfold updateStock
  cases req.stock with
  | none => rfl
  | some stock =>
    cases db.products req.id with
    | none => rfl
    | some product =>
      dsimp only
      split <;> rfl

theorem mem_replace (orders : List Order) (id : ObjectId) (saved x : Order)
    (hx : x ∈ orders.map (fun y => if y._id = id then saved else y)) :
    x = saved ∨ x ∈ orders := by
  obtain ⟨y, hy, hxy⟩ := List.mem_map.mp hx
  by_cases h : y._id = id
  · simp only [h, if_true] at hxy
    exact Or.inl hxy.symm
  · simp only [h, if_false] at hxy
    exact Or.inr (hxy ▸ hy)

/-- One request keeps every stored order's history consistent with its status. -/
theorem step_historyConsistent (db : Db) (op : Op)
    (hinv : ∀ o ∈ db.orders, historyConsistent o) :
    ∀ o ∈ (step db op).orders, historyConsistent o := by
  cases op with
  | create f req =>
    simp only [step]
    rcases createOrder_cases f db req with h | ⟨address, user, items, sub, _, _, _, hord, _, _⟩
    · rw [h]; exact hinv
    · intro o ho
      rw [hord] at ho
      rcases List.mem_append.mp ho with h1 | h1
      · exact hinv o h1
      · simp only [List.mem_singleton] at h1
        rw [h1]
        exact Or.inl rfl
  | cancel req =>
    simp only [step]
    rcases cancelOrder_shape db req with ⟨hdb, _⟩ | ⟨o0, _, _, _, _, hord⟩
    · rw [hdb]; exact hinv
    · intro o ho
      rw [hord] at ho
      rcases mem_replace _ _ _ _ ho with h1 | h1
      · rw [h1]
        exact historyConsistent_pushed _ _
      · exact hinv o h1
  | adminUpdate req =>
    simp only [step]
    rcases adminUpdateOrder_cases db req with hdb | ⟨o0, hfind, _, _, _, _, _, hord⟩
    · rw [hdb]; exact hinv
    · intro o ho
      rw [hord] at ho
      rcases mem_replace _ _ _ _ ho with h1 | h1
      · rw [h1]
        cases hch : statusChanged req o0 with
        | true => exact historyConsistent_pushed _ _
        | false =>
          have hold := hinv o0 (List.mem_of_find?_eq_some hfind)
          have hstatus : (patchedOrder req o0).status = o0.status := by
            rw [patchedOrder_status]
            rw [statusChanged_eq] at hch
            by_cases ht : truthy req.status = true
            · simp only [ht, Bool.true_and, bne_eq_false_iff_eq] at hch
              simp [ht, hch]
            · simp [ht]
          unfold historyConsistent at hold ⊢
          simp only [preSaveStatusHistory, Bool.false_and, Bool.false_eq_true, if_false,
            patchedOrder_statusHistory, hstatus]
          exact hold
      · exact hinv o h1
  | stock req =>
    simp only [step]
    rw [updateStock_orders]
    exact hinv

/-- C30: an order stored by the create route has an empty statusHistory, and
from any state in which every order's statusHistory is empty or ends with the
order's status, every sequence of create, cancel, admin update and stock
requests leads to a state with the same property. -/
theorem history_matches_status :
    (∀ (f : Fault) (db : Db) (req : CreateOrderReq),
      createOrderStored f db req →
      ∃ o, (createOrder f db req).2.orders = db.orders ++ [o] ∧ o.statusHistory = []) ∧
    (∀ (ops : List Op) (db : Db), (∀ o ∈ db.orders, historyConsistent o) →
      ∀ o ∈ (run db ops).orders, historyConsistent o) := by
  constructor
  · intro f db req h
    obtain ⟨address, user, orderItems, subtotal, _, _, _, _, _, _, _, hord⟩ :=
      createOrder_stored f db req h
    exact ⟨newOrder req address orderItems subtotal, hord, rfl⟩
  · intro ops
    induction ops with
    | nil => intro db h; exact h
    | cons op rest ih =>
      intro db h
      exact ih (step db op) (step_historyConsistent db op h)

/-- Witness of C30: an order is created, confirmed by an admin, confirmed
again, then set back to pending. -/
theorem history_matches_status_witness :
    (∃ o, (createOrder Fault.none (bigShop [⟨1, 1⟩] [])
        (checkout sampleAddress (some "credit_card"))).2.orders = [] ++ [o] ∧
      o.statusHistory = []) ∧
    (run (bigShop [⟨1, 1⟩] [])
      [Op.create Fault.none (checkout sampleAddress (some "credit_card")),
       Op.adminUpdate ⟨100, some "confirmed", none, none, sampleDate⟩,
       Op.adminUpdate ⟨100, some "confirmed", none, none, sampleDate⟩,
       Op.adminUpdate ⟨100, some "pending", none, none, sampleDate⟩]).orders.map
      (fun o => (o.status, o.statusHistory.map (fun e => e.status))) =
      [("pending", ["confirmed", "pending"])] ∧
    ∀ o ∈ (run (bigShop [⟨1, 1⟩] [])
      [Op.create Fault.none (checkout sampleAddress (some "credit_card")),
       Op.adminUpdate ⟨100, some "confirmed", none, none, sampleDate⟩,
       Op.adminUpdate ⟨100, some "confirmed", none, none, sampleDate⟩,
       Op.adminUpdate ⟨100, some "pending", none, none, sampleDate⟩]).orders,
      historyConsistent o :=
  ⟨history_matches_status.1 Fault.none (bigShop [⟨1, 1⟩] [])
      (checkout sampleAddress (some "credit_card")) (by unfold createOrderStored; decide!),
   by decide!,
   history_matches_status.2 _ (bigShop [⟨1, 1⟩] []) (by simp [bigShop])⟩

end PracticeMERN
